import Mathlib

/-!
# JJBond front end: session gate, request dispatcher, charts, search, login

A shallow embedding of `src/frontweb/app.js` (class `FundManagerApp`)
and `src/frontweb/login.js` (class `LoginManager`).

* Browser storage, the in-memory fields of the controller and the DOM
  pieces the methods read are explicit state (`FundManagerApp`).
* Every observable effect (a message shown, a timer armed, a navigation,
  a network request, a body read) is appended to a trace, `log`, oldest
  first, so that "exactly once" and "no further call" are statements
  about that trace.
* What the browser supplies (the clock, `Date` parsing, `JSON.parse`,
  the text of engine-raised errors) is a parameter, `Env`.
* An `async` method is modelled up to and including the one request it
  awaits; the answer to that request is an argument.  A method started
  without `await` is recorded in the trace as `Event.call`.
* Numbers are IEEE-754 doubles (`F64`), modelled exactly.
* The input listener of the search box works on its own state
  (`FundSearch`): the pending timers and the calls they make, with time in
  milliseconds; a timer fires at the time it is due.
* The login page has its own state (`LoginManager`).
* The markup of the portfolio summary is built as the template literals
  of `displayPortfolioSummary` build it, with every exception a property
  read or a method call can raise on a JSON value.
* A run of the page is a list of steps (`Op`), each a method with its
  arguments and with the answer of the backend it awaits.
-/

namespace JJBond

/-! ## JavaScript values -/

/-- An `Error` object, as far as the program looks at it: its `name` and
its `message`. -/
structure JsError where
  name : String
  message : String
deriving DecidableEq, Repr

/-- An IEEE-754 binary64 number.  `fin neg m e` is the finite value
`(-1)^neg * m * 2^e`. -/
inductive F64 where
  | nan
  | inf (neg : Bool)
  | fin (neg : Bool) (m : Nat) (e : Int)
deriving DecidableEq, Repr

namespace F64

/-- Binary digits of `n`, counted with `fuel` steps. -/
def bitLengthFuel : Nat → Nat → Nat
  | 0, _ => 0
  | fuel + 1, n => if n = 0 then 0 else bitLengthFuel fuel (n / 2) + 1

/-- The number of binary digits of `n`. -/
def bitLength (n : Nat) : Nat := bitLengthFuel n n

/-- The integer nearest to `num / den`, the even one on a tie. -/
def divRoundEven (num den : Nat) : Nat :=
  let q := num / den
  let r := num % den
  if den < 2 * r ∨ (2 * r = den ∧ q % 2 = 1) then q + 1 else q

/-- The integer part of the binary logarithm of `num / den` (`num`, `den` positive). -/
def floorLog2 (num den : Nat) : Int :=
  let k : Int := (bitLength num : Int) - (bitLength den : Int)
  if 0 ≤ k then
    (if den * 2 ^ k.toNat ≤ num then k else k - 1)
  else
    (if den ≤ num * 2 ^ (-k).toNat then k else k - 1)

/-- The binary64 number nearest to `(-1)^neg * num / den`, ties to
even: a 53-bit significand, exponents from -1074 (subnormal numbers) to
971, overflow to infinity. -/
def round (neg : Bool) (num den : Nat) : F64 :=
  if num = 0 then fin neg 0 0
  else
    let e : Int := max (floorLog2 num den - 52) (-1074)
    let m : Nat :=
      if 0 ≤ e then divRoundEven num (den * 2 ^ e.toNat)
      else divRoundEven (num * 2 ^ (-e).toNat) den
    let e1 : Int := if m = 2 ^ 53 then e + 1 else e
    let m1 : Nat := if m = 2 ^ 53 then 2 ^ 52 else m
    if 971 < e1 then inf neg else fin neg m1 e1

/-- The Number a decimal literal `digits * 10^(-scale)` denotes, as
`JSON.parse` reads it. -/
def ofDecimal (digits scale : Nat) : F64 := round false digits (10 ^ scale)

/-- The `*` of two Numbers: the exact product, rounded. -/
def mul : F64 → F64 → F64
  | nan, _ => nan
  | _, nan => nan
  | inf n1, inf n2 => inf (xor n1 n2)
  | inf n1, fin n2 m _ => if m = 0 then nan else inf (xor n1 n2)
  | fin n1 m _, inf n2 => if m = 0 then nan else inf (xor n1 n2)
  | fin n1 m1 e1, fin n2 m2 e2 =>
    if 0 ≤ e1 + e2 then round (xor n1 n2) (m1 * m2 * 2 ^ (e1 + e2).toNat) 1
    else round (xor n1 n2) (m1 * m2) (2 ^ (-(e1 + e2)).toNat)

/-- The integer `n` for which `n / 10^f` is nearest to `m * 2^e`, the
larger one on a tie (step 11.a of `Number.prototype.toFixed`). -/
def scaledNearest (f : Nat) (m : Nat) (e : Int) : Nat :=
  if 0 ≤ e then m * 10 ^ f * 2 ^ e.toNat
  else (2 * (m * 10 ^ f) + 2 ^ (-e).toNat) / 2 ^ ((-e).toNat + 1)

/-- The decimal digit `d mod 10` as a character. -/
def digitChar (d : Nat) : Char := Char.ofNat (48 + d % 10)

/-- The last `f` decimal digits of `n`. -/
def fractionDigits (f n : Nat) : List Char :=
  (List.range f).map (fun i => digitChar (n / 10 ^ (f - 1 - i)))

/-- Whether `m * 2^e` is at least `10^21`. -/
def atLeastTenPow21 (m : Nat) (e : Int) : Bool :=
  if 0 ≤ e then decide (10 ^ 21 ≤ m * 2 ^ e.toNat) else decide (10 ^ 21 * 2 ^ (-e).toNat ≤ m)

/-- The method `x.toFixed(f)` of a Number; `big` is the general
conversion of a Number to a string, which `toFixed` falls back to from
`10^21` on. -/
def toFixed (big : F64 → String) (f : Nat) : F64 → String
  | nan => "NaN"
  | inf false => "Infinity"
  | inf true => "-Infinity"
  | fin neg m e =>
    let s := if neg && m != 0 then "-" else ""
    if atLeastTenPow21 m e then s ++ big (fin false m e)
    else
      let n := scaledNearest f m e
      s ++ Nat.repr (n / 10 ^ f) ++ (if f = 0 then "" else "." ++ String.mk (fractionDigits f n))

/-- The comparison `x >= 0`. -/
def geZero : F64 → Bool
  | nan => false
  | inf neg => !neg
  | fin neg m _ => !neg || m == 0

/-- The comparison `x < 0`. -/
def ltZero : F64 → Bool
  | nan => false
  | inf neg => neg
  | fin neg m _ => neg && m != 0

/-- What `Math.random()` can return: a binary64 number of positive sign,
at least zero and below one. -/
def isRandomValue : F64 → Bool
  | fin false m e =>
    decide (m < 2 ^ 53) && decide (-1074 ≤ e) &&
      (if 0 ≤ e then m == 0 else decide (m < 2 ^ (-e).toNat))
  | _ => false

/-- The index `a[Math.floor(x)]` reads: the integer part of a number
that is not below zero, `none` when `Math.floor(x)` is no index. -/
def floorIndex : F64 → Option Nat
  | fin neg m e =>
    if neg && m != 0 then none
    else some (if 0 ≤ e then m * 2 ^ e.toNat else m / 2 ^ (-e).toNat)
  | _ => none

/-- The integer `(-1)^neg * m * 2^(e - base)`, for `base ≤ e`. -/
def scaled (neg : Bool) (m : Nat) (e base : Int) : Int :=
  (if neg then -1 else 1) * ((m * 2 ^ (e - base).toNat : Nat) : Int)

/-- The `+` of two Numbers: the exact sum, rounded; a sum of zero is
`-0` only when both operands are `-0`. -/
def add : F64 → F64 → F64
  | nan, _ => nan
  | _, nan => nan
  | inf n1, inf n2 => if n1 = n2 then inf n1 else nan
  | inf n1, fin _ _ _ => inf n1
  | fin _ _ _, inf n2 => inf n2
  | fin n1 m1 e1, fin n2 m2 e2 =>
    let base := min e1 e2
    let s := scaled n1 m1 e1 base + scaled n2 m2 e2 base
    if s = 0 then fin (n1 && n2) 0 0
    else if 0 ≤ base then round (decide (s < 0)) (s.natAbs * 2 ^ base.toNat) 1
    else round (decide (s < 0)) s.natAbs (2 ^ (-base).toNat)

/-- The comparison `x > y` of two Numbers. -/
def gt : F64 → F64 → Bool
  | nan, _ => false
  | _, nan => false
  | inf n1, inf n2 => !n1 && n2
  | inf n1, fin _ _ _ => !n1
  | fin _ _ _, inf n2 => n2
  | fin n1 m1 e1, fin n2 m2 e2 =>
    decide (scaled n2 m2 e2 (min e1 e2) < scaled n1 m1 e1 (min e1 e2))

/-- The comparison `x > 0`. -/
def gtZero : F64 → Bool
  | nan => false
  | inf neg => !neg
  | fin neg m _ => !neg && m != 0

end F64

/-- A JavaScript value as `JSON.parse` can produce it, plus `undefined`
(what reading an absent property yields).  Objects keep their keys in
insertion order. -/
inductive JsVal where
  | undefined
  | null
  | bool (b : Bool)
  | num (x : F64)
  | str (s : String)
  | arr (items : List JsVal)
  | obj (fields : List (String × JsVal))

namespace JsVal

/-- Lookup of a key in the field list of an object (`undefined` when absent). -/
def lookupField (k : String) : List (String × JsVal) → JsVal
  | [] => undefined
  | (k', v) :: rest => if k' = k then v else lookupField k rest

/-- Property read `v.k` on a value that is neither `null` nor `undefined`:
objects answer from their fields, every other value has no such own
property here and answers `undefined`. -/
def getProp (v : JsVal) (k : String) : JsVal :=
  match v with
  | obj fields => lookupField k fields
  | _ => undefined

/-- JavaScript truthiness (`ToBoolean`). -/
def truthy : JsVal → Bool
  | undefined => false
  | null => false
  | bool b => b
  | num F64.nan => false
  | num (F64.fin _ m _) => m != 0
  | num (F64.inf _) => true
  | str s => s != ""
  | arr _ => true
  | obj _ => true

end JsVal

/-- Truthiness of what `localStorage.getItem` returns and of the `token`
field: `null` and the empty string are falsy. -/
def truthyStr : Option String → Bool
  | none => false
  | some s => s != ""

/-- `haystack.includes(needle)` on lists of characters. -/
def includesChars (needle : List Char) : List Char → Bool
  | [] => needle.isEmpty
  | c :: cs => needle.isPrefixOf (c :: cs) || includesChars needle cs

/-- `s.includes(t)` of JavaScript strings. -/
def jsIncludes (s t : String) : Bool := includesChars t.data s.data

/-- `s.length`: the number of UTF-16 code units, two for a character
outside the basic plane. -/
def jsLength (s : String) : Nat :=
  (s.data.map (fun c => if 65536 ≤ c.toNat then 2 else 1)).sum

/-- What `trim` removes: the white space and line terminators of
JavaScript. -/
def isJsWhitespace (c : Char) : Bool :=
  [9, 10, 11, 12, 13, 32, 160, 5760, 8192, 8193, 8194, 8195, 8196, 8197, 8198, 8199, 8200,
    8201, 8202, 8232, 8233, 8239, 8287, 12288, 65279].contains c.toNat

/-- `s.trim()`. -/
def jsTrim (s : String) : String :=
  String.mk ((s.data.dropWhile isJsWhitespace).reverse.dropWhile isJsWhitespace).reverse

/-! ## Plain objects with string values (header bags) -/

/-- Read `o[k]`: in an object written with a repeated key the last
occurrence counts. -/
def objGet : List (String × String) → String → Option String
  | [], _ => none
  | p :: rest, k => (objGet rest k).orElse (fun _ => if p.1 = k then some p.2 else none)

/-- Assignment `o[k] = v`: an existing key keeps its place, a new key
goes last. -/
def objSet (o : List (String × String)) (k v : String) : List (String × String) :=
  if o.any (fun p => decide (p.1 = k)) then o.map (fun p => if p.1 = k then (k, v) else p)
  else o ++ [(k, v)]

/-- Spread `{ ...base, ...extra }`: the properties of `extra` are
assigned onto `base` in order. -/
def objSpread (base extra : List (String × String)) : List (String × String) :=
  extra.foldl (fun acc p => objSet acc p.1 p.2) base

/-! ## Browser storage -/

/-- The `localStorage` of the page: string keys, string values. -/
structure Storage where
  items : List (String × String)
deriving DecidableEq, Repr

namespace Storage

/-- `localStorage.getItem(k)`: the stored string, or `null`. -/
def getItem (s : Storage) (k : String) : Option String :=
  (s.items.find? (fun p => p.1 == k)).map (fun p => p.2)

/-- `localStorage.removeItem(k)`. -/
def removeItem (s : Storage) (k : String) : Storage :=
  ⟨s.items.filter (fun p => p.1 != k)⟩

/-- `localStorage.setItem(k, v)`. -/
def setItem (s : Storage) (k v : String) : Storage :=
  if s.items.any (fun p => p.1 == k) then
    ⟨s.items.map (fun p => if p.1 == k then (k, v) else p)⟩
  else ⟨s.items ++ [(k, v)]⟩

end Storage

/-! ## Requests, responses and the trace -/

/-- The second argument of `fetch` / `makeRequest`: `method`, `body` and
a plain-object `headers` (each absent when `none`). -/
structure Options where
  method : Option String := none
  body : Option String := none
  headers : Option (List (String × String)) := none
deriving DecidableEq, Repr

/-- A request as handed to `fetch`. -/
structure Request where
  url : String
  method : Option String
  body : Option String
  headers : List (String × String)
deriving DecidableEq, Repr

/-- An HTTP response: its status and what `response.json()` settles to
(an error when the body is not JSON). -/
structure Response where
  status : Nat
  body : Except JsError JsVal

/-- `response.ok`. -/
def Response.ok (r : Response) : Bool := 200 ≤ r.status && r.status ≤ 299

/-- What `await fetch(...)` yields: a response, or a rejection. -/
abbrev FetchOutcome := Except JsError Response

/-- What a `setTimeout` callback of this program does. -/
inductive Callback where
  | navigate (href : String)
  /-- The listener for clicks on the backdrop is attached (`showModal`). -/
  | bindBackdrop (modalType : String)
  /-- `renderTrendChart(fundCode, fundName, dates, navValues, growthValues)`. -/
  | renderTrendChart (fundCode fundName : String) (dates navValues growthValues : List JsVal)
  /-- The refresh button is enabled again (`refreshPortfolioWithMessage`). -/
  | restoreRefreshButton

/-- Methods of the controller that another method invokes and whose body
is not unfolded at the call site.  `displayPortfolioSummary` records its
own call as well, so that the trace tells which summary it was given last. -/
inductive Call where
  | bindEvents
  | showAuthenticatedUI
  | calculatePortfolio
  | loadFunds
  | displayFunds (funds : JsVal)
  | displayPortfolioSummary (summary : JsVal)
  | displaySearchResults (funds : JsVal)
  | displayLocalCacheResults (keyword : String)

/-- One observable effect. -/
inductive Event where
  | clearAuth
  | showMessage (message type : String)
  | setTimeout (callback : Callback) (delay : Nat)
  | navigate (href : String)
  | fetch (req : Request)
  | readBody
  | confirm (text : String)
  | destroyChart (id : Nat)
  | call (c : Call)
  /-- `new Chart(...)` returned instance `id`: its title, labels and the
  data of its two datasets. -/
  | createChart (id : Nat) (title : String) (labels navData growthData : List JsVal)
  /-- The inline fallback text put in place of the chart. -/
  | chartError (text : String)
  /-- The methods `showError`, `showSuccess` and `setLoading` of the login page. -/
  | showError (message : String)
  | showSuccess (message : String)
  | setLoading (isLoading : Bool)

/-- A modal container element: its `style.display`, whether it carries
the class `show`, and its `innerHTML`. -/
structure Container where
  display : String := ""
  shown : Bool := false
  innerHTML : String := ""
  /-- Whether it carries the class `hidden`. -/
  hidden : Bool := false
deriving DecidableEq, Repr

/-- The `#searchResults` element: `innerHTML` and whether it carries the
class `show`. -/
structure SearchResults where
  innerHTML : String := ""
  shown : Bool := false
deriving DecidableEq, Repr

/-- What the browser supplies. -/
structure Env where
  /-- `new Date(s).getTime()`: milliseconds since the epoch, `none` for
  an invalid date (`NaN`). -/
  parseDate : String → Option Int
  /-- `JSON.parse`. -/
  jsonParse : String → Except JsError JsVal
  /-- The `TypeError` the engine raises for a property read on `null`. -/
  nullPropertyError : JsError
  /-- `String(v)` for a value that is not a string. -/
  toStringNonString : JsVal → String
  /-- `JSON.stringify`. -/
  jsonStringify : JsVal → String
  /-- `encodeURIComponent`. -/
  encodeURIComponent : String → String
  /-- The `TypeError` the engine raises for calling what is not a function. -/
  notFunctionError : JsError
  /-- `ToNumber(v)` for a non-empty string, an array or an object. -/
  toNumberOther : JsVal → F64
  /-- `String.prototype.toLowerCase`. -/
  toLowerCase : String → String
  /-- `new Date(ms).toISOString()`. -/
  toISOString : Int → String
  /-- The text of a `URLSearchParams` body built from these pairs. -/
  formEncode : List (String × String) → String
  /-- The markup of the trend modal (app.js 650-691) for a fund name, a
  fund code and the records shown in its table. -/
  trendModalHTML : String → String → List JsVal → String
  /-- What `Math.random()` returns. -/
  random : F64
  /-- `a > b` when an operand is not a Number. -/
  greaterOther : JsVal → JsVal → Bool
  /-- `a + b` when an operand is not a Number. -/
  addOther : JsVal → JsVal → JsVal
  /-- `parseFloat` of a string. -/
  parseFloat : String → F64

/-- `String(v)`: a string is itself, an object that is not an array is
"[object Object]", the rest is left to the engine. -/
def Env.toStr (env : Env) : JsVal → String
  | .str s => s
  | .obj _ => "[object Object]"
  | v => env.toStringNonString v

/-- The state of the page: `localStorage`, the fields of the
`FundManagerApp` instance, the DOM pieces its methods read, and the
trace of effects so far. -/
structure FundManagerApp where
  storage : Storage
  token : Option String := none
  currentUser : JsVal := JsVal.null
  /-- `none` is `undefined`: the constructor does not assign it. -/
  isAuthenticated : Option Bool := none
  selectedFund : Option (String × String) := none
  chart : Option Nat := none
  currentPortfolioSummary : JsVal := JsVal.null
  modalContainer : Option Container := none
  chartModalContainer : Option Container := none
  searchResults : Option SearchResults := none
  /-- The `innerHTML` of `#portfolioSummaryContainer`, `none` when the
  element is not in the page. -/
  portfolioContainer : Option String := none
  /-- `#fundsListPage` exists and its `style.display` is not `none`. -/
  fundsListVisible : Bool := false
  log : List Event := []

namespace FundManagerApp

/-- Append effects to the trace. -/
def emit (app : FundManagerApp) (es : List Event) : FundManagerApp :=
  { app with log := app.log ++ es }

/-- The `showMessage(message, type)` method (app.js 1199-1210), as an
effect: the text is put into the `#message` element of the page, which
hides it again after three seconds. -/
def showMessage (app : FundManagerApp) (message type : String) : FundManagerApp :=
  app.emit [Event.showMessage message type]

/-- The `clearAuth()` method (app.js 840-847). -/
def clearAuth (app : FundManagerApp) : FundManagerApp :=
  { app with
    storage := ((app.storage.removeItem "authToken").removeItem "currentUser").removeItem "last_login"
    token := none
    currentUser := JsVal.null
    isAuthenticated := some false
    log := app.log ++ [Event.clearAuth] }

/-- The quotient `(now - lastLoginDate) / (1000 * 60 * 60 * 24)`.  The
program divides two doubles; the operands are integers of milliseconds
and the only use is the comparison with `7`, on which the rounded and
the exact quotient agree (rounding is monotone and `604800000 / 86400000`
is exactly `7`), so the exact quotient is used. -/
def daysDiff (now lastLogin : Int) : ℚ :=
  ((now - lastLogin : Int) : ℚ) / (1000 * 60 * 60 * 24)

/-- The `checkAuthStatus()` method (app.js 29-53), run at clock reading
`now`.  The second component is the exception it ends with, if any
(`JSON.parse` of the stored user). -/
def checkAuthStatus (env : Env) (now : Int) (app : FundManagerApp) :
    FundManagerApp × Option JsError :=
  let token := app.storage.getItem "authToken"
  let user := app.storage.getItem "currentUser"
  let lastLogin := app.storage.getItem "last_login"
  if truthyStr token && truthyStr user && truthyStr lastLogin then
    let fresh : Bool :=
      match env.parseDate (lastLogin.getD "") with
      | some t => decide (daysDiff now t < 7)
      | none => false
    if fresh then
      let app1 := { app with token := token }
      match env.jsonParse (user.getD "") with
      | .ok u => ({ app1 with currentUser := u, isAuthenticated := some true }, none)
      | .error e => (app1, some e)
    else
      ({ app.clearAuth with isAuthenticated := some false }, none)
  else
    ({ app with isAuthenticated := some false }, none)

/-- The `init()` method (app.js 16-27). -/
def init (app : FundManagerApp) : FundManagerApp :=
  if app.isAuthenticated != some true then
    app.emit [Event.navigate "login.html"]
  else
    app.emit [Event.call Call.bindEvents, Event.call Call.showAuthenticatedUI,
      Event.call Call.calculatePortfolio]

/-- The field `baseURL` set by the constructor. -/
def baseURL : String := "/api"

/-- The `headers` object `makeRequest` builds (app.js 246-253). -/
def requestHeaders (token : Option String) (options : Options) : List (String × String) :=
  let headers := objSpread [("Content-Type", "application/json")] (options.headers.getD [])
  if truthyStr token then objSet headers "Authorization" ("Bearer " ++ token.getD "")
  else headers

/-- The request `makeRequest(url, options)` hands to `fetch`
(app.js 256-259): `options` with `headers` replaced. -/
def buildRequest (token : Option String) (url : String) (options : Options) : Request :=
  { url := baseURL ++ url, method := options.method, body := options.body,
    headers := requestHeaders token options }

/-- The `try` block of `makeRequest` (app.js 255-278), given what the
awaited `fetch` yields.  `Except.error` is a thrown exception. -/
def makeRequestTry (env : Env) (app : FundManagerApp) (url : String) (options : Options)
    (outcome : FetchOutcome) : FundManagerApp × Except JsError JsVal :=
  let app1 := app.emit [Event.fetch (buildRequest app.token url options)]
  match outcome with
  | .error e => (app1, .error e)
  | .ok response =>
    if response.status = 401 then
      let app2 := app1.clearAuth
      let app3 := app2.showMessage "登录已过期，请重新登录" "error"
      let app4 := app3.emit [Event.setTimeout (Callback.navigate "login.html") 500]
      (app4, .error ⟨"Error", "认证失败，请重新登录"⟩)
    else
      let app2 := app1.emit [Event.readBody]
      match response.body with
      | .error e => (app2, .error e)
      | .ok data =>
        if !response.ok then
          match data with
          | JsVal.null => (app2, .error env.nullPropertyError)
          | JsVal.undefined => (app2, .error env.nullPropertyError)
          | _ =>
            let detail := data.getProp "detail"
            (app2, .error ⟨"Error",
              env.toStr (if detail.truthy then detail else JsVal.str "请求失败")⟩)
        else (app2, .ok data)

/-- The `makeRequest(url, options)` method (app.js 245-285): the `try`
block, then the `catch` block on an exception. -/
def makeRequest (env : Env) (app : FundManagerApp) (url : String) (options : Options)
    (outcome : FetchOutcome) : FundManagerApp × Except JsError JsVal :=
  match makeRequestTry env app url options outcome with
  | (app1, .ok data) => (app1, .ok data)
  | (app1, .error error) =>
    if !jsIncludes error.message "认证失败" then
      (app1.showMessage error.message "error", .error error)
    else (app1, .error error)

/-- The `closeModal(modalType)` method (app.js 1173-1197). -/
def closeModal (app : FundManagerApp) (modalType : String) : FundManagerApp :=
  let app1 : FundManagerApp :=
    if modalType = "chart" then
      let closed := app.chartModalContainer.map
        (fun c => { c with display := "none", shown := false, innerHTML := "" })
      { app with chartModalContainer := closed }
    else
      { app with modalContainer := app.modalContainer.map (fun c => { c with innerHTML := "" }) }
  let app2 := { app1 with selectedFund := none }
  match app2.chart with
  | some c => { app2 with chart := none, log := app2.log ++ [Event.destroyChart c] }
  | none => app2

/-- The purchase cost `displayFunds` prints for a holding,
`(fund.cost_price * fund.shares).toFixed(2)` (app.js 430), both fields
being Numbers. -/
def purchaseCost (env : Env) (costPrice shares : F64) : String :=
  (F64.mul costPrice shares).toFixed (fun x => env.toStringNonString (JsVal.num x)) 2

/-! ### Captions of the portfolio summary -/

/-- The Number of a non-negative integer (such as an array length). -/
def lengthNumber (n : Nat) : F64 := F64.round false n 1

/-- The array `positiveGreetings` (app.js 459-465). -/
def positiveGreetings : List String :=
  ["恭喜发财！",
    "以为要亏，结果涨了！",
    "小赚一笔，今日元气拉满！",
    "我这手气，买啥涨啥哈哈哈！",
    "今日小胜，明日大赚！"]

/-- The array `negativeGreetings` (app.js 467-474). -/
def negativeGreetings : List String :=
  ["我这手气，买啥跌啥，简直是股市的\x27反向指标\x27。",
    "居然亏钱了？！对，你没听错，一个本该稳如老狗的东西，亏了。",
    "每次看基金收益，都有种在坐过山车的感觉——直线下坠版。",
    "又跌？我买你图个啥？不就图个你比余额宝那三瓜俩枣稍微强点儿么？",
    "亏损？我陪你笑一笑！",
    "小亏一下，大赚在后头！"]

/-- `ToNumber(v)`. -/
def toNumber (env : Env) : JsVal → F64
  | JsVal.num x => x
  | JsVal.undefined => F64.nan
  | JsVal.null => F64.fin false 0 0
  | JsVal.bool true => F64.fin false 1 0
  | JsVal.bool false => F64.fin false 0 0
  | JsVal.str s => if s = "" then F64.fin false 0 0 else env.toNumberOther (JsVal.str s)
  | v => env.toNumberOther v

/-- The constant `today_revenue` of `displayPortfolioSummary`,
`summary.today_revenue || 0` (app.js 448), for a summary that is not
`null`. -/
def todayRevenue (summary : JsVal) : JsVal :=
  if (summary.getProp "today_revenue").truthy then summary.getProp "today_revenue"
  else JsVal.num (F64.fin false 0 0)

/-- The constant `isPositive`, `today_revenue >= 0` (app.js 456). -/
def isPositive (env : Env) (summary : JsVal) : Bool :=
  (toNumber env (todayRevenue summary)).geZero

/-- The element `list[Math.floor(random * list.length)]`, `none` for
`undefined`. -/
def randomElement (list : List String) (random : F64) : Option String :=
  match (F64.mul random (lengthNumber list.length)).floorIndex with
  | some i => list.get? i
  | none => none

/-- The constant `greetingText` of `displayPortfolioSummary` (app.js
477-479), `random` being what `Math.random()` returned; `none` is
`undefined`.  It is reached when the summary container is in the page
and the summary is not `null`. -/
def greetingText (env : Env) (summary : JsVal) (random : F64) : Option String :=
  if isPositive env summary then randomElement positiveGreetings random
  else randomElement negativeGreetings random

/-! ### Rendering the portfolio summary -/

/-- The Number `0`. -/
def zero : JsVal := JsVal.num (F64.fin false 0 0)

/-- `a || b`. -/
def orElse (a b : JsVal) : JsVal := if a.truthy then a else b

/-- `v.toFixed(digits)`: a method of Numbers only; `null` and
`undefined` have no properties at all. -/
def jsToFixed (env : Env) (v : JsVal) (digits : Nat) : Except JsError String :=
  match v with
  | JsVal.num x => .ok (x.toFixed (fun y => env.toStringNonString (JsVal.num y)) digits)
  | JsVal.null => .error env.nullPropertyError
  | JsVal.undefined => .error env.nullPropertyError
  | _ => .error env.notFunctionError

/-- `a > b`. -/
def greaterThan (env : Env) (a b : JsVal) : Bool :=
  match a, b with
  | JsVal.num x, JsVal.num y => F64.gt x y
  | _, _ => env.greaterOther a b

/-- `a + b`. -/
def plus (env : Env) (a b : JsVal) : JsVal :=
  match a, b with
  | JsVal.num x, JsVal.num y => JsVal.num (F64.add x y)
  | _, _ => env.addOther a b

/-- `v.length > 0`, for a value other than `null` and `undefined`:
booleans and Numbers have no `length`. -/
def lengthPositive (env : Env) (v : JsVal) : Bool :=
  match v with
  | JsVal.arr items => !items.isEmpty
  | JsVal.str s => s != ""
  | JsVal.obj fields => (toNumber env (JsVal.lookupField "length" fields)).gtZero
  | _ => false

/-- `v >= 0 ? 'profit-positive' : 'profit-negative'`. -/
def signClass (env : Env) (v : JsVal) : String :=
  if (toNumber env v).geZero then "profit-positive" else "profit-negative"

/-- `changeRate.includes('-')` (app.js 560): the method of strings and
the method of arrays. -/
def includesDash (env : Env) (changeRate : JsVal) : Except JsError Bool :=
  match changeRate with
  | JsVal.str s => .ok (jsIncludes s "-")
  | JsVal.arr items => .ok (items.any (fun x => match x with
    | JsVal.str s => s == "-"
    | _ => false))
  | JsVal.null => .error env.nullPropertyError
  | JsVal.undefined => .error env.nullPropertyError
  | _ => .error env.notFunctionError

/-- `name.replace(/\x27/g, ...)` (app.js 594): a backslash is put before
every apostrophe. -/
def escapeQuotes (name : String) : String :=
  String.mk (name.data.flatMap (fun c => if c.toNat = 39 then [Char.ofNat 92, c] else [c]))

/-- The cells of one row of the table of funds, as strings. -/
structure RowCells where
  code : String
  name : String
  cost : String
  costPrice : String
  prior : String
  today : String
  arrowClass : String
  arrowIcon : String
  changeRateClass : String
  changeRate : String
  todayRevenueClass : String
  todayRevenue : String
  totalRevenueClass : String
  totalRevenue : String
  ratioClass : String
  ratio : String
  trend : String
deriving DecidableEq, Repr

/-- The markup `displayPortfolioSummary` writes (the template of app.js
484-608), with the values and the two optional sections filled in. -/
def summaryHTML (totalCost totalClass totalRevenue textClass todayRevenue caption valuation
    details : String) : String :=
  "\n" ++
    "            <div class=\"portfolio-summary\">\n" ++
    "                <div class=\"summary-section\">\n" ++
    "                    <div class=\"simplified-summary-grid\">\n" ++
    "                        <div class=\"summary-item\">\n" ++
    "                            <label>总成本</label>\n" ++
    "                            <span class=\"value\">¥" ++
    totalCost ++
    "</span>\n" ++
    "                        </div>\n" ++
    "                        <div class=\"summary-item\">\n" ++
    "                            <label>累计收益</label>\n" ++
    "                            <span class=\"value " ++
    totalClass ++
    "\">¥" ++
    totalRevenue ++
    "</span>\n" ++
    "                        </div>\n" ++
    "                        <div class=\"summary-item\">\n" ++
    "                            <label>今日收益</label>\n" ++
    "                            <span class=\"value " ++
    textClass ++
    "\">¥" ++
    todayRevenue ++
    "</span>\n" ++
    "                        </div>\n" ++
    "                        <div class=\"summary-item greeting-item\">\n" ++
    "                            <span class=\"greeting-text " ++
    textClass ++
    "\">" ++
    caption ++
    "</span>\n" ++
    "                        </div>\n" ++
    "                    </div>\n" ++
    "                </div>\n" ++
    "\n" ++
    "                " ++
    valuation ++
    "\n" ++
    "\n" ++
    "                " ++
    details ++
    "\n" ++
    "            </div>\n" ++
    "        "

/-- The valuation section (app.js 506-528) around its two optional items. -/
def valuationSectionHTML (low high : String) : String :=
  "\n" ++
    "                <div class=\"valuation-section\">\n" ++
    "                    <div class=\"valuation-grid\">\n" ++
    "                        " ++
    low ++
    "\n" ++
    "                        \n" ++
    "                        " ++
    high ++
    "\n" ++
    "                    </div>\n" ++
    "                </div>\n" ++
    "                "

/-- One item of the valuation section (app.js 509-516) around its tags. -/
def lowValuationHTML (tags : String) : String :=
  "\n" ++
    "                        <div class=\"valuation-item low-valuation\">\n" ++
    "                            <h5>跌幅大于3%的基金</h5>\n" ++
    "                            <div class=\"fund-codes\">\n" ++
    "                                " ++
    tags ++
    "\n" ++
    "                            </div>\n" ++
    "                        </div>\n" ++
    "                        "

/-- One item of the valuation section (app.js 518-525) around its tags. -/
def highValuationHTML (tags : String) : String :=
  "\n" ++
    "                        <div class=\"valuation-item high-valuation\">\n" ++
    "                            <h5>涨幅大于3%的基金</h5>\n" ++
    "                            <div class=\"fund-codes\">\n" ++
    "                                " ++
    tags ++
    "\n" ++
    "                            </div>\n" ++
    "                        </div>\n" ++
    "                        "

/-- The tag of one fund code (app.js 513, 522). -/
def fundCodeTagHTML (code : String) : String :=
  "<span class=\"fund-code-tag\">" ++
    code ++
    "</span>"

/-- The table of funds (app.js 530-605) around its rows. -/
def detailsSectionHTML (fundCount rows : String) : String :=
  "\n" ++
    "                <div class=\"funds-details-section\">\n" ++
    "                    <h4>基金明细(共" ++
    fundCount ++
    "只基金)</h4>\n" ++
    "                    <div class=\"funds-table-container\">\n" ++
    "                        <table class=\"funds-table\">\n" ++
    "                            <thead>\n" ++
    "                                <tr>\n" ++
    "                                    <th>基金代码</th>\n" ++
    "                                    <th>基金名称</th>\n" ++
    "                                    <th>购买金额</th>\n" ++
    "                                    <th>持仓成本</th>\n" ++
    "                                    <th>上日净值/今日估值</th>\n" ++
    "                                    <th>涨跌幅度</th>\n" ++
    "                                    <th>今日收益</th>\n" ++
    "                                    <th>总收益</th>\n" ++
    "                                    <th>收益比例</th>\n" ++
    "                                    <th>涨跌走势</th>\n" ++
    "                                </tr>\n" ++
    "                            </thead>\n" ++
    "                            <tbody>\n" ++
    "                                " ++
    rows ++
    "\n" ++
    "\n" ++
    "                            </tbody>\n" ++
    "                        </table>\n" ++
    "                    </div>\n" ++
    "                </div>\n" ++
    "                "

/-- The markup of one row of the table (the template of app.js 573-599). -/
def rowHTML (c : RowCells) : String :=
  "\n" ++
    "                                <tr>\n" ++
    "                                    <td class=\"fund-code\">" ++
    c.code ++
    "</td>\n" ++
    "                                    <td class=\"fund-name\">" ++
    c.name ++
    "</td>\n" ++
    "                                    <td>¥" ++
    c.cost ++
    "</td>\n" ++
    "                                    <td>" ++
    c.costPrice ++
    "</td>\n" ++
    "                                    <td>" ++
    c.prior ++
    "/" ++
    c.today ++
    " <span class=\"price-arrow " ++
    c.arrowClass ++
    "\">" ++
    c.arrowIcon ++
    "</span></td>\n" ++
    "                                    <td class=\"" ++
    c.changeRateClass ++
    "\">\n" ++
    "                                        " ++
    c.changeRate ++
    "\n" ++
    "                                    </td>\n" ++
    "                                    <td class=\"" ++
    c.todayRevenueClass ++
    "\">\n" ++
    "                                        ¥" ++
    c.todayRevenue ++
    "\n" ++
    "                                    </td>\n" ++
    "                                    <td class=\"" ++
    c.totalRevenueClass ++
    "\">\n" ++
    "                                        ¥" ++
    c.totalRevenue ++
    "\n" ++
    "                                    </td>\n" ++
    "                                    <td class=\"" ++
    c.ratioClass ++
    "\">\n" ++
    "                                        " ++
    c.ratio ++
    "%\n" ++
    "                                    </td>\n" ++
    "                                    <td>\n" ++
    "                                        " ++
    c.trend ++
    "\n" ++
    "                                    </td>\n" ++
    "                                </tr>\n" ++
    "                                "

/-- The button that opens the trend modal (app.js 594). -/
def trendButtonHTML (code name : String) : String :=
  "<button class=\"btn trend-button\" onclick=\"app.showFundTrendModal(\x27" ++
    code ++
    "\x27, \x27" ++
    name ++
    "\x27)\">查看趋势</button>"

/-- What stands in place of the button without trend data (app.js 595). -/
def noTrendHTML : String :=
  "<span class=\"no-trend-data\">暂无数据</span>"

/-- What stands in place of the table without funds (app.js 606). -/
def noDetailsHTML : String :=
  "<div class=\"no-data\">暂无基金明细数据</div>"

/-- Whether the constant `hasTrendData` (app.js 571),
`fund.recent_changes && fund.recent_changes.length > 0`, is truthy. -/
def hasTrendData (env : Env) (fund : JsVal) : Bool :=
  (fund.getProp "recent_changes").truthy && lengthPositive env (fund.getProp "recent_changes")

/-- The last cell of a row (app.js 593-596): the trend button when
`hasTrendData` is truthy. -/
def trendCell (env : Env) (fund : JsVal) : Except JsError String :=
  if hasTrendData env fund then
    match fund.getProp "fund_name" with
    | JsVal.str name =>
      .ok (trendButtonHTML (env.toStr (fund.getProp "fund_code")) (escapeQuotes name))
    | JsVal.null => .error env.nullPropertyError
    | JsVal.undefined => .error env.nullPropertyError
    | _ => .error env.notFunctionError
  else .ok noTrendHTML

/-- The callback of `fund_details.map` (app.js 550-600) up to the
markup: the cells of the row of `fund`, or the exception it throws. -/
def fundRowCells (env : Env) (fund : JsVal) : Except JsError RowCells :=
  match fund with
  | JsVal.null => .error env.nullPropertyError
  | JsVal.undefined => .error env.nullPropertyError
  | _ => do
    let changeRate := orElse (fund.getProp "change_rate") (JsVal.str "0.00%")
    let todayValue := orElse (fund.getProp "today_value") zero
    let todayRevenue := orElse (fund.getProp "today_revenue") zero
    let totalRevenue := orElse (fund.getProp "total_revenue") zero
    let profitLossRatio := orElse (fund.getProp "profit_loss_ratio") zero
    let shangrijingzhi := orElse (fund.getProp "shangrijingzhi") zero
    let changeRateHasNegativeSign ← includesDash env changeRate
    let isUp := greaterThan env todayValue shangrijingzhi
    let cost ← jsToFixed env (orElse (fund.getProp "cost") zero) 2
    let costPrice ← jsToFixed env (orElse (fund.getProp "cost_price") zero) 4
    let prior ← jsToFixed env (orElse (fund.getProp "shangrijingzhi") zero) 4
    let today ← jsToFixed env (orElse (fund.getProp "today_value") zero) 4
    let todayRevenueText ← jsToFixed env todayRevenue 2
    let totalRevenueText ← jsToFixed env totalRevenue 2
    let ratio ← jsToFixed env profitLossRatio 2
    let trend ← trendCell env fund
    pure
      { code := env.toStr (orElse (fund.getProp "fund_code") (JsVal.str "-"))
        name := env.toStr (orElse (fund.getProp "fund_name") (JsVal.str "-"))
        cost := cost
        costPrice := costPrice
        prior := prior
        today := today
        arrowClass := if isUp then "profit-positive" else "profit-negative"
        arrowIcon := if isUp then "↑" else "↓"
        changeRateClass :=
          if changeRateHasNegativeSign then "profit-negative" else "profit-positive"
        changeRate := env.toStr changeRate
        todayRevenueClass := signClass env todayRevenue
        todayRevenue := todayRevenueText
        totalRevenueClass := signClass env totalRevenue
        totalRevenue := totalRevenueText
        ratioClass := signClass env profitLossRatio
        ratio := ratio
        trend := trend }

/-- `fund_details.map(...)` on the elements of an array: the markup of
the rows, or the exception of the first row that throws. -/
def fundRows (env : Env) : List JsVal → Except JsError (List String)
  | [] => .ok []
  | fund :: rest =>
    match fundRowCells env fund with
    | .error e => .error e
    | .ok cells =>
      match fundRows env rest with
      | .error e => .error e
      | .ok rows => .ok (rowHTML cells :: rows)

/-- `reduce((sum, fund) => sum + (fund.total_revenue || 0), ...)` on the
elements of an array, from `sum` on (app.js 450). -/
def sumTotalRevenue (env : Env) (sum : JsVal) : List JsVal → Except JsError JsVal
  | [] => .ok sum
  | JsVal.null :: _ => .error env.nullPropertyError
  | JsVal.undefined :: _ => .error env.nullPropertyError
  | fund :: rest =>
    sumTotalRevenue env (plus env sum (orElse (fund.getProp "total_revenue") zero)) rest

/-- The constant `total_revenue` (app.js 449-450) from
`summary.fund_details`. -/
def totalRevenue (env : Env) (fundDetails : JsVal) : Except JsError JsVal :=
  if fundDetails.truthy && lengthPositive env fundDetails then
    match fundDetails with
    | JsVal.arr items => sumTotalRevenue env zero items
    | _ => .error env.notFunctionError
  else .ok zero

/-- `list.map(code => tag).join('')` (app.js 513, 522). -/
def fundCodeTags (env : Env) (list : JsVal) : Except JsError String :=
  match list with
  | JsVal.arr items => .ok (String.join (items.map (fun code => fundCodeTagHTML (env.toStr code))))
  | JsVal.null => .error env.nullPropertyError
  | JsVal.undefined => .error env.nullPropertyError
  | _ => .error env.notFunctionError

/-- The valuation section, if any (app.js 506-528), for the constants
`low_fund_list` and `high_fund_list`. -/
def valuationHTML (env : Env) (low high : JsVal) : Except JsError String :=
  if lengthPositive env low || lengthPositive env high then do
    let lowItem ←
      if lengthPositive env low then (fundCodeTags env low).map lowValuationHTML else pure ""
    let highItem ←
      if lengthPositive env high then (fundCodeTags env high).map highValuationHTML else pure ""
    pure (valuationSectionHTML lowItem highItem)
  else pure ""

/-- The table of funds or what stands in its place (app.js 530-606),
for the constants `fund_count` and `fund_details`. -/
def detailsHTML (env : Env) (fundCount fundDetails : JsVal) : Except JsError String :=
  if lengthPositive env fundDetails then
    match fundDetails with
    | JsVal.arr items =>
      match fundRows env items with
      | .error e => .error e
      | .ok rows => .ok (detailsSectionHTML (env.toStr fundCount) (String.join rows))
    | JsVal.null => .error env.nullPropertyError
    | JsVal.undefined => .error env.nullPropertyError
    | _ => .error env.notFunctionError
  else .ok noDetailsHTML

/-- What `displayPortfolioSummary` computes once the container is found
(app.js 446-608): the markup, or the exception thrown on the way.  The
draw of `Math.random()` is `env.random`. -/
def portfolioSummaryHTML (env : Env) (summary : JsVal) : Except JsError String :=
  match summary with
  | JsVal.null => .error env.nullPropertyError
  | JsVal.undefined => .error env.nullPropertyError
  | _ => do
    let fundCount := orElse (summary.getProp "fund_count") zero
    let totalCost := orElse (summary.getProp "total_cost") zero
    let total ← totalRevenue env (summary.getProp "fund_details")
    let lowFundList := orElse (summary.getProp "low_fund_list") (JsVal.arr [])
    let highFundList := orElse (summary.getProp "high_fund_list") (JsVal.arr [])
    let fundDetails := orElse (summary.getProp "fund_details") (JsVal.arr [])
    let textColorClass := if isPositive env summary then "profit-positive" else "profit-negative"
    let caption :=
      match greetingText env summary env.random with
      | some text => text
      | none => "undefined"
    let totalCostText ← jsToFixed env totalCost 2
    let totalText ← jsToFixed env total 2
    let todayText ← jsToFixed env (todayRevenue summary) 2
    let valuation ← valuationHTML env lowFundList highFundList
    let details ← detailsHTML env fundCount fundDetails
    pure (summaryHTML totalCostText (signClass env total) totalText textColorClass todayText
      caption valuation details)

/-- The `displayPortfolioSummary(summary)` method (app.js 438-609): the
slot is overwritten, then, if the container is in the page, the summary is
rendered into it.  The call is recorded in the trace with its argument.
The second component is the exception it ends with, if any. -/
def displayPortfolioSummary (env : Env) (app : FundManagerApp) (summary : JsVal) :
    FundManagerApp × Option JsError :=
  let app1 := { app with currentPortfolioSummary := summary }
  let app2 := app1.emit [Event.call (Call.displayPortfolioSummary summary)]
  match app2.portfolioContainer with
  | none => (app2, none)
  | some _ =>
    match portfolioSummaryHTML env summary with
    | .ok html => ({ app2 with portfolioContainer := some html }, none)
    | .error error => (app2, some error)

/-- The `loadFunds()` method (app.js 288-295).  An exception of
`displayFunds` is caught with the rest. -/
def loadFunds (env : Env) (app : FundManagerApp) (outcome : FetchOutcome) : FundManagerApp :=
  match makeRequest env app "/funds/" {} outcome with
  | (app1, .ok funds) => app1.emit [Event.call (Call.displayFunds funds)]
  | (app1, .error _) => app1

/-- The `addFund(fundData)` method (app.js 297-316). -/
def addFund (env : Env) (app : FundManagerApp) (fundData : JsVal) (outcome : FetchOutcome) :
    FundManagerApp × Except JsError JsVal :=
  match makeRequest env app "/funds/"
      { method := some "POST", body := some (env.jsonStringify fundData) } outcome with
  | (app1, .ok data) =>
    let app2 := app1.showMessage "基金添加成功！" "success"
    let app3 := app2.closeModal "normal"
    let app4 := app3.emit [Event.call Call.calculatePortfolio]
    let app5 := if app4.fundsListVisible then app4.emit [Event.call Call.loadFunds] else app4
    (app5, .ok data)
  | (app1, .error error) => (app1, .error error)

/-- The `updateFund(fundId, fundData)` method (app.js 318-338);
`fundId` as the template literal prints it. -/
def updateFund (env : Env) (app : FundManagerApp) (fundId : String) (fundData : JsVal)
    (outcome : FetchOutcome) : FundManagerApp × Except JsError JsVal :=
  match makeRequest env app ("/funds/" ++ fundId)
      { method := some "PUT", body := some (env.jsonStringify fundData) } outcome with
  | (app1, .ok data) =>
    let app2 := app1.showMessage "基金更新成功！" "success"
    let app3 := app2.closeModal "normal"
    let app4 := app3.emit [Event.call Call.calculatePortfolio]
    let app5 := if app4.fundsListVisible then app4.emit [Event.call Call.loadFunds] else app4
    (app5, .ok data)
  | (app1, .error error) => (app1, .error error)

/-- The `deleteFund(fundId)` method (app.js 340-362); `confirmed` is
what the `confirm` dialog returns. -/
def deleteFund (env : Env) (app : FundManagerApp) (fundId : String) (confirmed : Bool)
    (outcome : FetchOutcome) : FundManagerApp × Except JsError Unit :=
  let app0 := app.emit [Event.confirm "确定要删除这只基金吗？"]
  if !confirmed then (app0, .ok ())
  else
    match makeRequest env app0 ("/funds/" ++ fundId) { method := some "DELETE" } outcome with
    | (app1, .ok _) =>
      let app2 := app1.showMessage "基金删除成功！" "success"
      let app3 := app2.emit [Event.call Call.calculatePortfolio]
      let app4 := if app3.fundsListVisible then app3.emit [Event.call Call.loadFunds] else app3
      (app4, .ok ())
    | (app1, .error error) => (app1.showMessage error.message "error", .error error)

/-- The all-zero summary `calculatePortfolio` renders on a "404" error
(app.js 372-381). -/
def emptySummary : JsVal :=
  let zero := JsVal.num (F64.fin false 0 0)
  JsVal.obj [("total_cost", zero), ("yesterday_holding_amount", zero),
    ("yesterday_holding_income", zero), ("today_revenue", zero),
    ("today_holding_amount", zero), ("low_fund_list", JsVal.arr []),
    ("high_fund_list", JsVal.arr []), ("fund_details", JsVal.arr [])]

/-- The `catch` block of `calculatePortfolio` (app.js 369-385). -/
def calculatePortfolioCatch (env : Env) (app : FundManagerApp) (error : JsError) :
    FundManagerApp × Option JsError :=
  if jsIncludes error.message "404" then
    displayPortfolioSummary env (app.showMessage "暂无基金数据，请先添加基金" "error") emptySummary
  else if !jsIncludes error.message "认证失败" then
    (app.showMessage error.message "error", none)
  else (app, none)

/-- The `calculatePortfolio()` method (app.js 364-386).  The second
component is an exception that escapes it. -/
def calculatePortfolio (env : Env) (app : FundManagerApp) (outcome : FetchOutcome) :
    FundManagerApp × Option JsError :=
  match makeRequest env app "/funds/calculate" {} outcome with
  | (app1, .ok summary) =>
    match displayPortfolioSummary env { app1 with currentPortfolioSummary := summary } summary with
    | (app2, none) => (app2, none)
    | (app2, some error) => calculatePortfolioCatch env app2 error
  | (app1, .error error) => calculatePortfolioCatch env app1 error

/-- Whether `searchFunds` ends in its `catch` block while showing the
answer `data`: reading `data.length` of `null`, calling `forEach` on
what is not an array, or reading `fund.fund_code` of a `null` element. -/
def searchDisplayThrows (hasSearchInput : Bool) (data : JsVal) : Bool :=
  match data with
  | JsVal.null => true
  | JsVal.undefined => true
  | JsVal.arr items =>
    hasSearchInput && items.any (fun x => match x with
      | JsVal.null => true
      | JsVal.undefined => true
      | _ => false)
  | v =>
    hasSearchInput && v.truthy && (match v.getProp "length" with
      | JsVal.num (F64.fin _ 0 _) => false
      | _ => true)

/-- The request `searchFunds` sends for `keyword` (app.js 963-971). -/
def searchRequest (env : Env) (token : Option String) (keyword : String) : Request :=
  { url := "/api/funds/search?q=" ++ env.encodeURIComponent keyword ++ "&limit=10",
    method := some "GET", body := none,
    headers := [("Content-Type", "application/json"),
      ("Authorization", "Bearer " ++ (match token with
        | some t => t
        | none => "null"))] }

/-- The `searchFunds(keyword)` method (app.js 952-984), which calls
`fetch` itself.  `hasSearchInput` tells whether `#fundSearch` exists. -/
def searchFunds (env : Env) (app : FundManagerApp) (hasSearchInput : Bool) (keyword : String)
    (outcome : FetchOutcome) : FundManagerApp :=
  match app.searchResults with
  | none => app
  | some _ =>
    let loading : SearchResults :=
      { innerHTML := "<div class=\"search-loading\">搜索中...</div>", shown := true }
    let app1 := { app with searchResults := some loading }
    let app2 := app1.emit [Event.fetch (searchRequest env app.token keyword)]
    match outcome with
    | .error _ => app2.emit [Event.call (Call.displayLocalCacheResults keyword)]
    | .ok response =>
      if response.ok then
        let app3 := app2.emit [Event.readBody]
        match response.body with
        | .error _ => app3.emit [Event.call (Call.displayLocalCacheResults keyword)]
        | .ok data =>
          if searchDisplayThrows hasSearchInput data then
            app3.emit [Event.call (Call.displayLocalCacheResults keyword)]
          else app3.emit [Event.call (Call.displaySearchResults data)]
      else
        let failed : SearchResults :=
          { innerHTML := "<div class=\"search-error\">搜索失败，请稍后重试</div>", shown := true }
        { app2 with searchResults := some failed }

/-! ### Modals and the trend chart -/

/-- The `showModal(html, modalType)` method (app.js 1127-1170). -/
def showModal (app : FundManagerApp) (html modalType : String) : FundManagerApp :=
  if modalType = "chart" then
    match app.chartModalContainer with
    | some c =>
      let opened : Container :=
        { c with display := "block", hidden := false, shown := true, innerHTML := html }
      { app with
        chartModalContainer := some opened
        log := app.log ++ [Event.setTimeout (Callback.bindBackdrop "chart") 0] }
    | none => app
  else
    match app.modalContainer with
    | some c =>
      { app with
        modalContainer := some { c with innerHTML := html }
        log := app.log ++ [Event.setTimeout (Callback.bindBackdrop "normal") 0] }
    | none => app

/-- The number the next `Chart` instance gets: instances are numbered in
the order of their construction. -/
def newChartId (log : List Event) : Nat :=
  (log.filter (fun e => match e with
    | Event.createChart _ _ _ _ _ => true
    | _ => false)).length

/-- The `renderTrendChart(fundCode, fundName, dates, navValues,
growthValues)` method (app.js 702-830).  `hasCanvas` tells whether
`#trendChart` is in the page; `construction` is the exception `new Chart`
ends with, if any; `hasContainer` tells whether the catch block finds an
element of class `trend-chart-container` (app.js 825-826), which is where
the fallback text goes: without one the catch block writes to the console
only. -/
def renderTrendChart (app : FundManagerApp) (fundCode fundName : String)
    (dates navValues growthValues : List JsVal) (hasCanvas : Bool)
    (construction : Option JsError) (hasContainer : Bool) : FundManagerApp :=
  if !hasCanvas then app
  else
    let app1 : FundManagerApp :=
      match app.chart with
      | some c => app.emit [Event.destroyChart c]
      | none => app
    match construction with
    | none =>
      { app1 with
        chart := some (newChartId app1.log)
        log := app1.log ++ [Event.createChart (newChartId app1.log)
          (fundName ++ " (" ++ fundCode ++ ") 净值走势") dates navValues growthValues] }
    | some error =>
      if hasContainer then
        app1.emit [Event.chartError ("图表渲染失败: " ++ error.message)]
      else app1

/-- `fund_details.find(f => f.fund_code === fundCode)` on the elements
of an array: the first element whose code is that string; reading the
code of a `null` element raises a `TypeError`. -/
def findFund (env : Env) (fundCode : String) : List JsVal → Except JsError (Option JsVal)
  | [] => .ok none
  | JsVal.null :: _ => .error env.nullPropertyError
  | JsVal.undefined :: _ => .error env.nullPropertyError
  | f :: rest =>
    match f.getProp "fund_code" with
    | JsVal.str code => if code = fundCode then .ok (some f) else findFund env fundCode rest
    | _ => findFund env fundCode rest

/-- The exception the first record raises, if any does, that cannot
be mapped or shown in the table of the trend modal: `item.date` of a
`null` record (app.js 641), `item.unit_nav.toFixed(4)` of a record whose
`unit_nav` is not a Number (app.js 677). -/
def trendRecordsError (env : Env) (records : List JsVal) : Option JsError :=
  if records.any (fun item => match item with
      | JsVal.null => true
      | JsVal.undefined => true
      | _ => false) then some env.nullPropertyError
  else
    (records.findSome? (fun item => match item.getProp "unit_nav" with
      | JsVal.num _ => none
      | JsVal.null => some env.nullPropertyError
      | JsVal.undefined => some env.nullPropertyError
      | _ => some env.notFunctionError))

/-- The `showFundTrendModal(fundCode, fundName)` method (app.js
613-699).  The second component is an exception that escapes it. -/
def showFundTrendModal (env : Env) (app : FundManagerApp) (fundCode fundName : String) :
    FundManagerApp × Option JsError :=
  let noData := (app.showMessage "无法获取基金数据，请刷新页面后重试" "error", none)
  let noTrend := (app.showMessage "该基金暂无趋势数据" "info", none)
  if !app.currentPortfolioSummary.truthy then noData
  else if !(app.currentPortfolioSummary.getProp "fund_details").truthy then noData
  else
    match app.currentPortfolioSummary.getProp "fund_details" with
    | JsVal.arr funds =>
      match findFund env fundCode funds with
      | .error e => (app, some e)
      | .ok none => (app.showMessage ("未找到基金 " ++ fundCode ++ " 的数据") "error", none)
      | .ok (some fund) =>
        if !(fund.getProp "recent_changes").truthy then noTrend
        else
          match fund.getProp "recent_changes" with
          | JsVal.arr [] => noTrend
          | JsVal.arr recentChanges =>
            match trendRecordsError env recentChanges with
            | some e => (app, some e)
            | none =>
              let dates := recentChanges.map (fun item => item.getProp "date")
              let navValues := recentChanges.map (fun item => item.getProp "unit_nav")
              let growthValues := recentChanges.map (fun item => item.getProp "daily_growth_value")
              let app1 := app.showModal (env.trendModalHTML fundName fundCode recentChanges) "chart"
              (app1.emit [Event.setTimeout (Callback.renderTrendChart fundCode fundName
                dates.reverse navValues.reverse growthValues.reverse) 100], none)
          | other =>
            match other.getProp "length" with
            | JsVal.num (F64.fin _ 0 _) => noTrend
            | _ => (app, some env.notFunctionError)
    | _ => (app, some env.notFunctionError)

/-! ### Search results -/

/-- The array `localFunds` (app.js 990-996). -/
def localFunds : List JsVal :=
  [JsVal.obj [("fund_code", JsVal.str "000001"), ("fund_name", JsVal.str "华夏成长混合"),
      ("fund_type", JsVal.str "混合型")],
    JsVal.obj [("fund_code", JsVal.str "000002"), ("fund_name", JsVal.str "华夏大盘精选"),
      ("fund_type", JsVal.str "股票型")],
    JsVal.obj [("fund_code", JsVal.str "000003"), ("fund_name", JsVal.str "华夏现金增利货币A"),
      ("fund_type", JsVal.str "货币型")],
    JsVal.obj [("fund_code", JsVal.str "110011"), ("fund_name", JsVal.str "易方达中小盘混合"),
      ("fund_type", JsVal.str "混合型")],
    JsVal.obj [("fund_code", JsVal.str "161725"), ("fund_name", JsVal.str "招商中证白酒指数(LOF)A"),
      ("fund_type", JsVal.str "指数型")]]

/-- The markup of one result (the template of app.js 1028-1035). -/
def searchItemHTML (env : Env) (fund : JsVal) : String :=
  "\n                <div class=\"search-item\" \n                     data-code=\"" ++
    env.toStr (fund.getProp "fund_code") ++
    "\" \n                     data-name=\"" ++
    env.toStr (fund.getProp "fund_name") ++
    "\">\n                    <div class=\"fund-name\">" ++
    env.toStr (fund.getProp "fund_name") ++
    "</div>\n                    <div class=\"fund-code\">" ++
    env.toStr (fund.getProp "fund_code") ++
    "</div>\n                </div>\n            "

/-- The `displaySearchResults(funds)` method (app.js 1015-1052) on an
array.  `innerHTML` is the markup written.  An element that is `null` or
`undefined` makes `forEach` throw before anything is written.  The click
listeners of the items are not part of the state. -/
def displaySearchResults (env : Env) (app : FundManagerApp) (hasSearchInput : Bool)
    (funds : List JsVal) : Except JsError FundManagerApp :=
  match app.searchResults with
  | none => .ok app
  | some sr =>
    if !hasSearchInput then .ok app
    else if funds.isEmpty then
      .ok { app with
        searchResults := some { sr with innerHTML := "<div class=\"search-empty\">未找到相关基金</div>" } }
    else if funds.any (fun x => match x with
        | JsVal.null => true
        | JsVal.undefined => true
        | _ => false) then .error env.nullPropertyError
    else
      .ok { app with
        searchResults := some
          { innerHTML := String.join (funds.map (searchItemHTML env)), shown := true } }

/-- The callback of `localFunds.filter` (app.js 1000-1003) for a
keyword: the lower-cased name includes the lower-cased keyword, or the
code includes the keyword. -/
def localFundMatches (env : Env) (keyword : String) (fund : JsVal) : Bool :=
  match fund.getProp "fund_name", fund.getProp "fund_code" with
  | JsVal.str name, JsVal.str code =>
    jsIncludes (env.toLowerCase name) (env.toLowerCase keyword) || jsIncludes code keyword
  | _, _ => false

/-- The `displayLocalCacheResults(keyword)` method (app.js 986-1013);
`innerHTML += note` appends to the markup written. -/
def displayLocalCacheResults (env : Env) (app : FundManagerApp) (hasSearchInput : Bool)
    (keyword : String) : Except JsError FundManagerApp :=
  match app.searchResults with
  | none => .ok app
  | some sr =>
    let filtered := localFunds.filter (localFundMatches env keyword)
    if keyword != "" && !filtered.isEmpty then
      match displaySearchResults env app hasSearchInput filtered with
      | .error e => .error e
      | .ok app1 =>
        .ok { app1 with
          searchResults := app1.searchResults.map (fun r =>
            { r with innerHTML := r.innerHTML ++ "<div class=\"search-note\">使用本地缓存数据</div>" }) }
    else
      .ok { app with
        searchResults := some { sr with innerHTML := "<div class=\"search-empty\">未找到相关基金</div>" } }

/-! ### Further methods of the controller -/

/-- The `logout()` method (app.js 832-838). -/
def logout (app : FundManagerApp) : FundManagerApp :=
  app.clearAuth.emit [Event.setTimeout (Callback.navigate "login.html") 200]

/-- The `selectFund(fundCode, fundName)` method (app.js 1054-1067); the
two hidden inputs of the form are not part of the state. -/
def selectFund (app : FundManagerApp) (fundCode fundName : String) : FundManagerApp :=
  let app1 : FundManagerApp := { app with selectedFund := some (fundCode, fundName) }
  app1.showMessage ("已选择: " ++ fundName ++ " (" ++ fundCode ++ ")") "info"

/-- `formData.get(name)` on the entries of a form: the first value of
that name, or `null`. -/
def formGet (form : List (String × String)) (name : String) : Option String :=
  (form.find? (fun p => p.1 == name)).map (fun p => p.2)

/-- The object `fundData` the add-fund form is turned into (app.js
908-914); `parseFloat(null)` reads the string `null`. -/
def addFundData (env : Env) (form : List (String × String)) : JsVal :=
  let text : Option String → JsVal := fun v =>
    match v with
    | some s => JsVal.str s
    | none => JsVal.null
  let number : Option String → JsVal := fun v =>
    match v with
    | some s => JsVal.num (env.parseFloat s)
    | none => JsVal.num (env.parseFloat "null")
  JsVal.obj [("fund_code", text (formGet form "fund_code")),
    ("fund_name", text (formGet form "fund_name")),
    ("cost_price", number (formGet form "cost_price")),
    ("shares", number (formGet form "shares"))]

/-- The listener of `submit` events on the add-fund form (app.js
900-917): `form` holds the entries of the form, `outcome` is what the
request of `addFund` yields.  The second component is the exception that
escapes the listener. -/
def addFundSubmit (env : Env) (app : FundManagerApp) (form : List (String × String))
    (outcome : FetchOutcome) : FundManagerApp × Option JsError :=
  match app.selectedFund with
  | none => (app.showMessage "请先选择基金" "error", none)
  | some _ =>
    match addFund env app (addFundData env form) outcome with
    | (app1, .ok _) => (app1, none)
    | (app1, .error error) => (app1, some error)

/-- The `refreshPortfolioWithMessage()` method (app.js 80-114);
`hasRefreshButton` tells whether `#refreshPortfolioBtn` is in the page. -/
def refreshPortfolioWithMessage (env : Env) (app : FundManagerApp) (hasRefreshButton : Bool)
    (outcome : FetchOutcome) : FundManagerApp :=
  let app1 := app.showMessage "正在刷新基金数据，请稍候..." "info"
  let app2 :=
    match calculatePortfolio env app1 outcome with
    | (app2, none) => app2.showMessage "收益刷新成功！" "success"
    | (app2, some _) => app2
  if hasRefreshButton then app2.emit [Event.setTimeout Callback.restoreRefreshButton 500]
  else app2

/-- The `showFundsList()` method (app.js 220-231); `hasFundsListPage`
tells whether `#fundsListPage` is in the page. -/
def showFundsList (app : FundManagerApp) (hasFundsListPage : Bool) : FundManagerApp :=
  let app1 : FundManagerApp := { app with fundsListVisible := hasFundsListPage }
  app1.emit [Event.call Call.loadFunds]

/-- The `showPortfolioView()` method (app.js 233-243). -/
def showPortfolioView (app : FundManagerApp) : FundManagerApp :=
  let app1 : FundManagerApp := { app with fundsListVisible := false }
  app1.emit [Event.call Call.calculatePortfolio]

/-- The constructor (app.js 2-14): read the stored token and user, then
`checkAuthStatus()` and `init()`.  An exception from either `JSON.parse`
ends it. -/
def construct (env : Env) (now : Int) (page : FundManagerApp) :
    FundManagerApp × Option JsError :=
  let stored := page.storage.getItem "currentUser"
  match env.jsonParse (if truthyStr stored then stored.getD "" else "null") with
  | .error e => ({ page with token := page.storage.getItem "authToken" }, some e)
  | .ok u =>
    let app0 := { page with
      token := page.storage.getItem "authToken", currentUser := u,
      selectedFund := none, chart := none, currentPortfolioSummary := JsVal.null }
    match checkAuthStatus env now app0 with
    | (app1, some e) => (app1, some e)
    | (app1, none) => (app1.init, none)

end FundManagerApp

/-! ## The search box and its debounce timer -/

/-- A pending `setTimeout` of the input listener: its id, the time it
is due, and the keyword its callback passes to `searchFunds`. -/
structure Timer where
  id : Nat
  due : Nat
  keyword : String
deriving DecidableEq, Repr

/-- What the input listener of `initFundSearch` (app.js 927-942) works on:
the variable `searchTimeout` (`none` is `undefined`), the pending timers it
armed, the `#searchResults` element, and the calls of `searchFunds` made
by timers that fired, each with the time of the call.  Times are in ms. -/
structure FundSearch where
  searchTimeout : Option Nat := none
  timers : List Timer := []
  nextTimerId : Nat := 1
  searchResults : SearchResults := {}
  invoked : List (Nat × String) := []
deriving DecidableEq, Repr

namespace FundSearch

/-- The listener of `input` events (app.js 929-942) at time `now` for
the text `value` of the box. -/
def onInput (box : FundSearch) (now : Nat) (value : String) : FundSearch :=
  let pending :=
    match box.searchTimeout with
    | some id => box.timers.filter (fun t => t.id != id)
    | none => box.timers
  let keyword := jsTrim value
  if jsLength keyword < 2 then
    { box with timers := pending, searchResults := { innerHTML := "", shown := false } }
  else
    { box with
      timers := pending ++ [{ id := box.nextTimerId, due := now + 300, keyword := keyword }]
      searchTimeout := some box.nextTimerId
      nextTimerId := box.nextTimerId + 1 }

/-- Time passes until `now`: every pending timer that is due fires, at
the time it is due, and its callback calls `searchFunds(keyword)`. -/
def advance (box : FundSearch) (now : Nat) : FundSearch :=
  { box with
    timers := box.timers.filter (fun t => decide (now < t.due))
    invoked := box.invoked ++
      (box.timers.filter (fun t => decide (t.due ≤ now))).map (fun t => (t.due, t.keyword)) }

/-- An input event at time `event.1` with text `event.2`: the timers due
by then have fired before the listener runs. -/
def handle (box : FundSearch) (event : Nat × String) : FundSearch :=
  (box.advance event.1).onInput event.1 event.2

/-- A sequence of input events. -/
def run (box : FundSearch) (events : List (Nat × String)) : FundSearch :=
  events.foldl handle box

/-- There is at most one pending timer, and it is the one `searchTimeout`
holds. -/
def Tidy (box : FundSearch) : Bool :=
  match box.timers with
  | [] => true
  | [t] => box.searchTimeout == some t.id
  | _ => false

/-- The state `initFundSearch` leaves: nothing pending, nothing called. -/
def initial (searchResults : SearchResults) : FundSearch :=
  { searchResults := searchResults }

end FundSearch

/-! ## The login page (login.js) -/

/-- The state of the login page: `localStorage`, the `value` of
`#username` and of `#password`, `checked` of `#rememberMe` (each `none`
when the element is missing), and the trace of effects. -/
structure LoginManager where
  storage : Storage
  usernameInput : Option String := none
  passwordInput : Option String := none
  rememberMeCheckbox : Option Bool := none
  log : List Event := []

namespace LoginManager

/-- Append effects to the trace. -/
def emit (lm : LoginManager) (es : List Event) : LoginManager :=
  { lm with log := lm.log ++ es }

/-- The request of `handleLogin` (login.js 89-99). -/
def loginRequest (env : Env) (username password : String) : Request :=
  { url := "/api" ++ "/auth/login", method := some "POST",
    body := some (env.formEncode [("username", username), ("password", password)]),
    headers := [("Content-Type", "application/x-www-form-urlencoded")] }

/-- The `catch` block of `handleLogin` (login.js 143-147). -/
def handleLoginCatch (lm : LoginManager) : LoginManager :=
  lm.emit [Event.setLoading false, Event.showError "登录请求失败，请检查网络连接"]

/-- The writes of a successful login (login.js 117-134). -/
def persistLogin (env : Env) (now : Int) (storage : Storage) (data : JsVal)
    (username password : String) (rememberMe : Bool) : Storage :=
  let s1 := storage.setItem "authToken" (env.toStr (data.getProp "access_token"))
  let s2 := s1.setItem "currentUser"
    (env.jsonStringify (JsVal.obj [("username", JsVal.str username)]))
  let s3 := s2.setItem "last_login" (env.toISOString now)
  if rememberMe then
    (s3.setItem "saved_credentials" (env.jsonStringify
      (JsVal.obj [("username", JsVal.str username), ("password", JsVal.str password)]))).setItem
      "remember_me" "true"
  else (s3.removeItem "saved_credentials").setItem "remember_me" "false"

/-- The `handleLogin()` method (login.js 67-148) at time `now`;
`outcome` is what the awaited `fetch` yields. -/
def handleLogin (env : Env) (now : Int) (lm : LoginManager) (outcome : FetchOutcome) :
    LoginManager :=
  match lm.usernameInput, lm.passwordInput with
  | some usernameValue, some password =>
    let username := jsTrim usernameValue
    let rememberMe :=
      match lm.rememberMeCheckbox with
      | some checked => checked
      | none => false
    if username = "" ∨ password = "" then lm.emit [Event.showError "请输入用户名和密码"]
    else
      let lm1 := lm.emit [Event.setLoading true, Event.fetch (loginRequest env username password)]
      match outcome with
      | .error _ => handleLoginCatch lm1
      | .ok response =>
        if response.status = 401 then
          lm1.emit [Event.setLoading false, Event.showError "用户名或密码错误"]
        else
          let lm2 := lm1.emit [Event.readBody]
          match response.body with
          | .error _ => handleLoginCatch lm2
          | .ok JsVal.null => handleLoginCatch lm2
          | .ok JsVal.undefined => handleLoginCatch lm2
          | .ok data =>
            if !response.ok then
              lm2.emit [Event.setLoading false,
                Event.showError (if (data.getProp "detail").truthy
                  then env.toStr (data.getProp "detail") else "登录失败")]
            else
              { lm2 with
                storage := persistLogin env now lm2.storage data username password rememberMe
                log := lm2.log ++ [Event.showSuccess "登录成功，正在跳转...",
                  Event.setTimeout (Callback.navigate "index.html") 500] }
  | _, _ => lm

/-- The `clearAuth()` method (login.js 192-196). -/
def clearAuth (lm : LoginManager) : LoginManager :=
  { lm with
    storage :=
      ((lm.storage.removeItem "authToken").removeItem "currentUser").removeItem "last_login" }

/-- The `checkAutoLogin()` method (login.js 16-35) at clock reading `now`. -/
def checkAutoLogin (env : Env) (now : Int) (lm : LoginManager) : LoginManager :=
  let token := lm.storage.getItem "authToken"
  let user := lm.storage.getItem "currentUser"
  let lastLogin := lm.storage.getItem "last_login"
  if truthyStr token && truthyStr user && truthyStr lastLogin then
    let fresh : Bool :=
      match env.parseDate (lastLogin.getD "") with
      | some t => decide (FundManagerApp.daysDiff now t < 7)
      | none => false
    if fresh then lm.emit [Event.navigate "index.html"] else lm.clearAuth
  else lm

/-- What `input.value = credentials[key] || ''` puts into an input
(login.js 48-49). -/
def savedField (env : Env) (credentials : JsVal) (key : String) : String :=
  if (credentials.getProp key).truthy then env.toStr (credentials.getProp key) else ""

/-- The `loadSavedCredentials()` method (login.js 37-55).  An exception
of `JSON.parse` is caught before anything is filled in.  So is the one of
reading a property of `null`, which the first of the two text inputs that
is in the page raises (login.js 48-49); with neither of them in the page
no property is read and the box is checked (login.js 50). -/
def loadSavedCredentials (env : Env) (lm : LoginManager) : LoginManager :=
  let savedCredentials := lm.storage.getItem "saved_credentials"
  let rememberMe := decide (lm.storage.getItem "remember_me" = some "true")
  let withoutProperties : LoginManager :=
    match lm.usernameInput, lm.passwordInput with
    | none, none => { lm with rememberMeCheckbox := lm.rememberMeCheckbox.map (fun _ => true) }
    | _, _ => lm
  if truthyStr savedCredentials && rememberMe then
    match env.jsonParse (savedCredentials.getD "") with
    | .error _ => lm
    | .ok JsVal.null => withoutProperties
    | .ok JsVal.undefined => withoutProperties
    | .ok credentials =>
      { lm with
        usernameInput := lm.usernameInput.map (fun _ => savedField env credentials "username")
        passwordInput := lm.passwordInput.map (fun _ => savedField env credentials "password")
        rememberMeCheckbox := lm.rememberMeCheckbox.map (fun _ => true) }
  else lm

end LoginManager

/-! ## Runs of the controller -/

/-- One step of the page: a method of the controller (or one of its
listeners) with its arguments and with what the browser answers to it. -/
inductive Op where
  | checkAuthStatus (now : Int)
  | init
  | logout
  | clearAuth
  | showMessage (message type : String)
  | makeRequest (url : String) (options : Options) (outcome : FetchOutcome)
  | loadFunds (outcome : FetchOutcome)
  | addFund (fundData : JsVal) (outcome : FetchOutcome)
  | updateFund (fundId : String) (fundData : JsVal) (outcome : FetchOutcome)
  | deleteFund (fundId : String) (confirmed : Bool) (outcome : FetchOutcome)
  | calculatePortfolio (outcome : FetchOutcome)
  | refreshPortfolioWithMessage (hasRefreshButton : Bool) (outcome : FetchOutcome)
  | displayPortfolioSummary (summary : JsVal)
  | showFundsList (hasFundsListPage : Bool)
  | showPortfolioView
  | showFundTrendModal (fundCode fundName : String)
  | renderTrendChart (fundCode fundName : String) (dates navValues growthValues : List JsVal)
      (hasCanvas : Bool) (construction : Option JsError) (hasContainer : Bool)
  | addFundSubmit (form : List (String × String)) (outcome : FetchOutcome)
  | searchFunds (hasSearchInput : Bool) (keyword : String) (outcome : FetchOutcome)
  | displaySearchResults (hasSearchInput : Bool) (funds : List JsVal)
  | displayLocalCacheResults (hasSearchInput : Bool) (keyword : String)
  | selectFund (fundCode fundName : String)
  | showModal (html modalType : String)
  | closeModal (modalType : String)

/-- The state after one step. -/
def Op.run (env : Env) (op : Op) (app : FundManagerApp) : FundManagerApp :=
  match op with
  | .checkAuthStatus now => (app.checkAuthStatus env now).1
  | .init => app.init
  | .logout => app.logout
  | .clearAuth => app.clearAuth
  | .showMessage message type => app.showMessage message type
  | .makeRequest url options outcome => (app.makeRequest env url options outcome).1
  | .loadFunds outcome => app.loadFunds env outcome
  | .addFund fundData outcome => (app.addFund env fundData outcome).1
  | .updateFund fundId fundData outcome => (app.updateFund env fundId fundData outcome).1
  | .deleteFund fundId confirmed outcome => (app.deleteFund env fundId confirmed outcome).1
  | .calculatePortfolio outcome => (app.calculatePortfolio env outcome).1
  | .refreshPortfolioWithMessage hasRefreshButton outcome =>
    app.refreshPortfolioWithMessage env hasRefreshButton outcome
  | .displayPortfolioSummary summary => (app.displayPortfolioSummary env summary).1
  | .showFundsList hasFundsListPage => app.showFundsList hasFundsListPage
  | .showPortfolioView => app.showPortfolioView
  | .showFundTrendModal fundCode fundName => (app.showFundTrendModal env fundCode fundName).1
  | .renderTrendChart fundCode fundName dates navValues growthValues hasCanvas construction
      hasContainer =>
    app.renderTrendChart fundCode fundName dates navValues growthValues hasCanvas construction
      hasContainer
  | .addFundSubmit form outcome => (app.addFundSubmit env form outcome).1
  | .searchFunds hasSearchInput keyword outcome =>
    app.searchFunds env hasSearchInput keyword outcome
  | .displaySearchResults hasSearchInput funds =>
    match app.displaySearchResults env hasSearchInput funds with
    | .ok app1 => app1
    | .error _ => app
  | .displayLocalCacheResults hasSearchInput keyword =>
    match app.displayLocalCacheResults env hasSearchInput keyword with
    | .ok app1 => app1
    | .error _ => app
  | .selectFund fundCode fundName => app.selectFund fundCode fundName
  | .showModal html modalType => app.showModal html modalType
  | .closeModal modalType => app.closeModal modalType

/-- The state after a sequence of steps. -/
def runOps (env : Env) (ops : List Op) (app : FundManagerApp) : FundManagerApp :=
  ops.foldl (fun state op => op.run env state) app

/-- A step that is `closeModal`, or `renderTrendChart` with a chart
construction that does not throw (the canvas may be missing). -/
def Op.isQuietChartStep : Op → Bool
  | .closeModal _ => true
  | .renderTrendChart _ _ _ _ _ _ none _ => true
  | _ => false

/-- What can clear the session between a login and the next visit of
the login page: `logout`, `clearAuth` and the gate of the main page, a
request answered with 401, the gate and `clearAuth` of the login page. -/
inductive SessionClearing where
  | logout
  | clearAuth
  | checkAuthStatus (now : Int)
  | unauthorized (url : String) (options : Options) (body : Except JsError JsVal)
  | checkAutoLogin (now : Int)
  | loginClearAuth

/-- The store after the method ran on a page with this store. -/
def SessionClearing.run (env : Env) (clearing : SessionClearing) (storage : Storage) : Storage :=
  match clearing with
  | .logout => (FundManagerApp.logout { storage := storage }).storage
  | .clearAuth => (FundManagerApp.clearAuth { storage := storage }).storage
  | .checkAuthStatus now => (FundManagerApp.checkAuthStatus env now { storage := storage }).1.storage
  | .unauthorized url options body =>
    (FundManagerApp.makeRequest env { storage := storage } url options (.ok ⟨401, body⟩)).1.storage
  | .checkAutoLogin now => (LoginManager.checkAutoLogin env now { storage := storage }).storage
  | .loginClearAuth => (LoginManager.clearAuth { storage := storage }).storage

/-- The store after a sequence of clearings. -/
def clearSessions (env : Env) (clearings : List SessionClearing) (storage : Storage) : Storage :=
  clearings.foldl (fun store clearing => clearing.run env store) storage

/-! ## Reading the trace -/

/-- The messages shown, in order: the arguments of every `showMessage`
in a trace. -/
def messagesShown (log : List Event) : List (String × String) :=
  log.filterMap (fun e => match e with
    | Event.showMessage m t => some (m, t)
    | _ => none)

/-- The effects of the 401 branch of `makeRequest` after the request
`req` went out (app.js 262-269): the session is cleared, the expiry
message is shown, the redirect is armed. -/
def unauthorizedTrace (req : Request) : List Event :=
  [Event.fetch req, Event.clearAuth, Event.showMessage "登录已过期，请重新登录" "error",
    Event.setTimeout (Callback.navigate "login.html") 500]

/-- The chart instances constructed and not destroyed, read off a trace
in the order of their construction. -/
def liveCharts (log : List Event) : List Nat :=
  log.foldl (fun live e => match e with
    | Event.createChart id _ _ _ _ => live ++ [id]
    | Event.destroyChart id => live.filter (fun c => c != id)
    | _ => live) []

/-- The keywords `displayLocalCacheResults` was called with, in order. -/
def localFallbacks (log : List Event) : List String :=
  log.filterMap (fun e => match e with
    | Event.call (Call.displayLocalCacheResults keyword) => some keyword
    | _ => none)

/-- The texts `showError` of the login page was called with, in order. -/
def errorsShown (log : List Event) : List String :=
  log.filterMap (fun e => match e with
    | Event.showError message => some message
    | _ => none)

/-- The argument of the call, if the event is a call of
`displayPortfolioSummary`. -/
def displayedBy (e : Event) : Option JsVal :=
  match e with
  | Event.call (Call.displayPortfolioSummary summary) => some summary
  | _ => none

/-- The summary `displayPortfolioSummary` was called with last, `null`
when it was not called. -/
def lastDisplayed (log : List Event) : JsVal :=
  log.foldl (fun last e => (displayedBy e).getD last) JsVal.null

/-- No call of `displayPortfolioSummary` among these events. -/
def noDisplay (events : List Event) : Bool :=
  events.all (fun e => (displayedBy e).isNone)

/-- The requests handed to `fetch`, in order. -/
def requestsSent (log : List Event) : List Request :=
  log.filterMap (fun e => match e with
    | Event.fetch req => some req
    | _ => none)

/-- How often a recalculation of the portfolio was started. -/
def recalculations (log : List Event) : Nat :=
  (log.filter (fun e => match e with
    | Event.call Call.calculatePortfolio => true
    | _ => false)).length

/-- The fallback texts shown in place of the chart, in order. -/
def chartErrorsShown (log : List Event) : List String :=
  log.filterMap (fun e => match e with
    | Event.chartError text => some text
    | _ => none)

/-- How often `destroy` was called on chart instance `id`. -/
def destroyCount (id : Nat) (log : List Event) : Nat :=
  (log.filter (fun e => match e with
    | Event.destroyChart c => c == id
    | _ => false)).length

/-! ## Invariants of the trace and the state -/

/-- What the trace says about the instances when none is destroyed
twice and the slot holds a live one. -/
def chartSlotSound (app : FundManagerApp) : Prop :=
  (∀ id, destroyCount id app.log ≤ 1) ∧
  (∀ c, app.chart = some c →
    destroyCount c app.log = 0 ∧ c < FundManagerApp.newChartId app.log) ∧
  (∀ id, FundManagerApp.newChartId app.log ≤ id → destroyCount id app.log = 0)

/-- The summary slot holds what `displayPortfolioSummary` was called
with last (`null` before its first call), as the trace tells it. -/
def slotSound (app : FundManagerApp) : Prop :=
  app.currentPortfolioSummary = lastDisplayed app.log

/-- From `before` to `after` the summary slot was not written and
`displayPortfolioSummary` was not called. -/
def slotKept (before after : FundManagerApp) : Prop :=
  after.currentPortfolioSummary = before.currentPortfolioSummary ∧
    lastDisplayed after.log = lastDisplayed before.log

/-! ## The words of the specification -/

/-- The filter of the local list in the words of the specification: the
name or the code of the fund contains the keyword, both sides compared in
lower case. -/
def containsIgnoringCase (env : Env) (keyword : String) (fund : JsVal) : Bool :=
  match fund.getProp "fund_name", fund.getProp "fund_code" with
  | JsVal.str name, JsVal.str code =>
    jsIncludes (env.toLowerCase name) (env.toLowerCase keyword) ||
      jsIncludes (env.toLowerCase code) (env.toLowerCase keyword)
  | _, _ => false

/-- A Number, or missing. -/
def isNumberOrMissing : JsVal → Bool
  | JsVal.num _ => true
  | JsVal.undefined => true
  | _ => false

/-- A string, or missing. -/
def isTextOrMissing : JsVal → Bool
  | JsVal.str _ => true
  | JsVal.undefined => true
  | _ => false

/-- An array, or missing. -/
def isListOrMissing : JsVal → Bool
  | JsVal.arr _ => true
  | JsVal.undefined => true
  | _ => false

/-- An entry of `fund_details` as the backend describes it, with any of
its fields missing: an object whose code, name and change rate are strings,
whose seven amounts are Numbers and whose `recent_changes` is an array,
where present. -/
def entryWellFormed (fund : JsVal) : Bool :=
  match fund with
  | JsVal.obj _ =>
    isTextOrMissing (fund.getProp "fund_code") && isTextOrMissing (fund.getProp "fund_name") &&
      isNumberOrMissing (fund.getProp "cost") && isNumberOrMissing (fund.getProp "cost_price") &&
      isNumberOrMissing (fund.getProp "shangrijingzhi") &&
      isNumberOrMissing (fund.getProp "today_value") &&
      isTextOrMissing (fund.getProp "change_rate") &&
      isNumberOrMissing (fund.getProp "today_revenue") &&
      isNumberOrMissing (fund.getProp "total_revenue") &&
      isNumberOrMissing (fund.getProp "profit_loss_ratio") &&
      isListOrMissing (fund.getProp "recent_changes")
  | _ => false

/-- The cells of a row that stand for a missing field hold the dash or
the formatted zero. -/
def defaultsShown (fund : JsVal) (cells : FundManagerApp.RowCells) : Prop :=
  (fund.getProp "fund_code" = JsVal.undefined → cells.code = "-") ∧
  (fund.getProp "fund_name" = JsVal.undefined → cells.name = "-") ∧
  (fund.getProp "cost" = JsVal.undefined → cells.cost = "0.00") ∧
  (fund.getProp "cost_price" = JsVal.undefined → cells.costPrice = "0.0000") ∧
  (fund.getProp "shangrijingzhi" = JsVal.undefined → cells.prior = "0.0000") ∧
  (fund.getProp "today_value" = JsVal.undefined → cells.today = "0.0000") ∧
  (fund.getProp "change_rate" = JsVal.undefined → cells.changeRate = "0.00%") ∧
  (fund.getProp "today_revenue" = JsVal.undefined → cells.todayRevenue = "0.00") ∧
  (fund.getProp "total_revenue" = JsVal.undefined → cells.totalRevenue = "0.00") ∧
  (fund.getProp "profit_loss_ratio" = JsVal.undefined → cells.ratio = "0.00") ∧
  (fund.getProp "recent_changes" = JsVal.undefined →
    cells.trend = FundManagerApp.noTrendHTML)

/-! ## Sample inputs -/

/-- A browser for the examples: one date string and two JSON texts are
understood, the letters A-Z have a lower case. -/
def sampleEnv : Env where
  parseDate := fun s => if s = "1970-01-01T00:00:00.000Z" then some 0 else none
  jsonParse := fun s =>
    if s = "null" then .ok JsVal.null
    else if s = "\x7b\"username\":\"amy\"\x7d" then .ok (JsVal.obj [("username", JsVal.str "amy")])
    else .error ⟨"SyntaxError", "Unexpected token"⟩
  nullPropertyError := ⟨"TypeError", "Cannot read properties of null (reading \"detail\")"⟩
  toStringNonString := fun _ => "?"
  jsonStringify := fun _ => "?"
  encodeURIComponent := fun s => s
  notFunctionError := ⟨"TypeError", "is not a function"⟩
  toNumberOther := fun _ => F64.nan
  toLowerCase := fun s => String.mk (s.data.map Char.toLower)
  toISOString := fun ms => if ms = 0 then "1970-01-01T00:00:00.000Z" else "?"
  formEncode := fun _ => "?"
  trendModalHTML := fun _ _ _ =>
    "<div class=\"trend-chart-container\"><canvas id=\"trendChart\"></canvas></div>"
  random := F64.fin false 4503599627370496 (-53)
  greaterOther := fun _ _ => false
  addOther := fun _ _ => JsVal.num F64.nan
  parseFloat := fun _ => F64.nan

/-- A stored session: token `tok`, user `amy`, logged in at the epoch. -/
def sampleSession (tok : String) : FundManagerApp :=
  { storage := ⟨[("authToken", tok), ("currentUser", "\x7b\"username\":\"amy\"\x7d"),
      ("last_login", "1970-01-01T00:00:00.000Z")]⟩ }

/-- A page in use: in-memory token `tok`, nothing in the trace. -/
def samplePage (tok : Option String) : FundManagerApp :=
  { storage := ⟨[]⟩, token := tok, isAuthenticated := some true }

/-- A stored session with the token and the login time missing. -/
def samplePartial : FundManagerApp :=
  { storage := ⟨[("currentUser", "\x7b\"username\":\"amy\"\x7d")]⟩ }

/-- A stored session whose user entry is not JSON. -/
def sampleGarbledUser : FundManagerApp :=
  { storage := ⟨[("authToken", "tok"), ("currentUser", "amy"),
      ("last_login", "1970-01-01T00:00:00.000Z")]⟩ }

/-- The records of two days, the newer one first. -/
def sampleTrendRecords : List JsVal :=
  [JsVal.obj [("date", JsVal.str "2024-01-02"), ("unit_nav", JsVal.num (F64.fin false 3 (-1))),
      ("daily_growth_value", JsVal.num (F64.fin false 1 0)), ("daily_growth", JsVal.str "1.00%")],
    JsVal.obj [("date", JsVal.str "2024-01-01"), ("unit_nav", JsVal.num (F64.fin false 1 0)),
      ("daily_growth_value", JsVal.num (F64.fin true 1 0)), ("daily_growth", JsVal.str "-1.00%")]]

/-- A fund of the summary with these records. -/
def sampleTrendFund : JsVal :=
  JsVal.obj [("fund_code", JsVal.str "000001"), ("recent_changes", JsVal.arr sampleTrendRecords)]

/-- A summary with one fund that has two records, the newer one first. -/
def sampleTrendPage : FundManagerApp :=
  { samplePage (some "tok") with
    chartModalContainer := some {}
    currentPortfolioSummary := JsVal.obj [("fund_details", JsVal.arr [sampleTrendFund])] }

/-- A page with the search box and an empty result list. -/
def sampleSearchPage : FundManagerApp :=
  { samplePage (some "tok") with searchResults := some {} }

/-- A login page with a stored session of an earlier login, the form
filled in with `amy` / `pw`, the remember-me box as given. -/
def sampleLogin (checked : Bool) : LoginManager :=
  { storage := ⟨[("authToken", "old"), ("remember_me", "true"), ("saved_credentials", "old")]⟩,
    usernameInput := some " amy ", passwordInput := some "pw",
    rememberMeCheckbox := some checked }

/-- A page with the summary container, still empty. -/
def sampleSummaryPage : FundManagerApp :=
  { samplePage (some "tok") with portfolioContainer := some "" }

/-- An entry of `fund_details` with every field missing. -/
def sampleBareEntry : JsVal := JsVal.obj []

/-- An entry with trend data and without a name. -/
def sampleNamelessEntry : JsVal :=
  JsVal.obj [("fund_code", JsVal.str "000001"), ("recent_changes", JsVal.arr sampleTrendRecords)]

/-- An entry valued at 1.5 today after 1 the day before, bought at 2. -/
def sampleRisingEntry : JsVal :=
  JsVal.obj [("fund_code", JsVal.str "000001"), ("fund_name", JsVal.str "a"),
    ("cost_price", JsVal.num (F64.fin false 2 0)),
    ("today_value", JsVal.num (F64.fin false 3 (-1))),
    ("shangrijingzhi", JsVal.num (F64.fin false 1 0))]

/-- A browser for the examples whose `JSON.stringify` and `JSON.parse`
know the credentials of `amy`. -/
def sampleRememberEnv : Env :=
  { sampleEnv with
    jsonStringify := fun v =>
      match v with
      | JsVal.obj [("username", JsVal.str "amy"), ("password", JsVal.str "pw")] =>
        "\x7b\"username\":\"amy\",\"password\":\"pw\"\x7d"
      | JsVal.obj [("username", JsVal.str "amy")] => "\x7b\"username\":\"amy\"\x7d"
      | _ => "?"
    jsonParse := fun s =>
      if s = "\x7b\"username\":\"amy\",\"password\":\"pw\"\x7d" then
        .ok (JsVal.obj [("username", JsVal.str "amy"), ("password", JsVal.str "pw")])
      else sampleEnv.jsonParse s }

/-- The login page visited again after the login of `sampleLogin`, a
logout and two more clearings, with its form empty. -/
def sampleReturn (checked : Bool) : LoginManager :=
  { storage := clearSessions sampleRememberEnv
      [SessionClearing.logout, SessionClearing.checkAutoLogin 0, SessionClearing.loginClearAuth]
      ((sampleLogin checked).handleLogin sampleRememberEnv 0
        (.ok ⟨200, .ok (JsVal.obj [("access_token", JsVal.str "new")])⟩)).storage,
    usernameInput := some "", passwordInput := some "", rememberMeCheckbox := some false }

/-! ## Session gate: lemmas -/

theorem Storage.getItem_removeItem_self (s : Storage) (k : String) :
    (s.removeItem k).getItem k = none := by
  simp [Storage.getItem, Storage.removeItem, List.find?_eq_none]

theorem Storage.getItem_removeItem_of_ne (s : Storage) {k k' : String} (h : k ≠ k') :
    (s.removeItem k').getItem k = s.getItem k := by
  obtain ⟨items⟩ := s
  simp only [Storage.getItem, Storage.removeItem]
  congr 1
  induction items with
  | nil => rfl
  | cons p ps ih =>
    by_cases hp : p.1 = k'
    · have hk : (p.1 == k) = false := by
        simp only [beq_eq_false_iff_ne]
        exact fun h1 => h (h1.symm.trans hp)
      have hf : (p.1 != k') = false := by simp [hp]
      simp only [List.filter_cons, hf, List.find?_cons, hk, ih, Bool.false_eq_true, if_false]
    · have hf : (p.1 != k') = true := by simp [hp]
      simp only [List.filter_cons, hf, if_true, List.find?_cons, ih]

theorem FundManagerApp.daysDiff_lt_seven_iff (now t : Int) :
    FundManagerApp.daysDiff now t < 7 ↔ now - t < 7 * 86400000 := by
  unfold FundManagerApp.daysDiff
  rw [div_lt_iff₀ (by norm_num)]
  have h : (7 : ℚ) * (1000 * 60 * 60 * 24) = ((7 * 86400000 : Int) : ℚ) := by norm_num
  rw [h, Int.cast_lt]

/-- The three session keys are gone after `clearAuth`. -/
theorem FundManagerApp.clearAuth_storage (app : FundManagerApp) :
    app.clearAuth.storage.getItem "authToken" = none ∧
    app.clearAuth.storage.getItem "currentUser" = none ∧
    app.clearAuth.storage.getItem "last_login" = none := by
  refine ⟨?_, ?_, ?_⟩
  · show (((app.storage.removeItem "authToken").removeItem "currentUser").removeItem
      "last_login").getItem "authToken" = none
    rw [Storage.getItem_removeItem_of_ne _ (by decide),
      Storage.getItem_removeItem_of_ne _ (by decide), Storage.getItem_removeItem_self]
  · show (((app.storage.removeItem "authToken").removeItem "currentUser").removeItem
      "last_login").getItem "currentUser" = none
    rw [Storage.getItem_removeItem_of_ne _ (by decide), Storage.getItem_removeItem_self]
  · exact Storage.getItem_removeItem_self _ _

/-! ## Session gate (C1 - C3) -/

/-- C1, as amended.  When `authToken`, `currentUser` and `last_login` are
all stored with a non-empty value and `last_login` reads as a time at
least 7 days (7 x 86,400,000 ms) before now, `checkAuthStatus` completes,
the three keys are gone from storage, the in-memory token and user are
null and `isAuthenticated` is false. -/
theorem checkAuthStatus_expired_clears (env : Env) (now t : Int) (app : FundManagerApp)
    (tok usr ll : String)
    (hTok : app.storage.getItem "authToken" = some tok) (hTokNE : tok ≠ "")
    (hUsr : app.storage.getItem "currentUser" = some usr) (hUsrNE : usr ≠ "")
    (hLl : app.storage.getItem "last_login" = some ll) (hLlNE : ll ≠ "")
    (hDate : env.parseDate ll = some t) (hAge : 7 * 86400000 ≤ now - t) :
    (app.checkAuthStatus env now).2 = none ∧
    (app.checkAuthStatus env now).1.storage.getItem "authToken" = none ∧
    (app.checkAuthStatus env now).1.storage.getItem "currentUser" = none ∧
    (app.checkAuthStatus env now).1.storage.getItem "last_login" = none ∧
    (app.checkAuthStatus env now).1.token = none ∧
    (app.checkAuthStatus env now).1.currentUser = JsVal.null ∧
    (app.checkAuthStatus env now).1.isAuthenticated = some false := by
  have hOld : ¬ FundManagerApp.daysDiff now t < 7 := by
    rw [FundManagerApp.daysDiff_lt_seven_iff]; omega
  have hrun : app.checkAuthStatus env now =
      ({ app.clearAuth with isAuthenticated := some false }, none) := by
    simp [FundManagerApp.checkAuthStatus, hTok, hUsr, hLl, truthyStr, hTokNE, hUsrNE, hLlNE,
      hDate, hOld]
  rw [hrun]
  have hs := FundManagerApp.clearAuth_storage app
  exact ⟨rfl, hs.1, hs.2.1, hs.2.2, rfl, rfl, rfl⟩

/-- C1 at a stored session that is exactly 7 days old. -/
theorem checkAuthStatus_expired_clears_witness :
    ((sampleSession "tok").checkAuthStatus sampleEnv 604800000).1.storage.getItem "authToken" = none ∧
    ((sampleSession "tok").checkAuthStatus sampleEnv 604800000).1.isAuthenticated = some false :=
  have h := checkAuthStatus_expired_clears sampleEnv 604800000 0 (sampleSession "tok")
    "tok" "\x7b\"username\":\"amy\"\x7d" "1970-01-01T00:00:00.000Z"
    (by decide) (by decide) (by decide) (by decide) (by decide) (by decide) (by decide)
    (by decide)
  ⟨h.2.1, h.2.2.2.2.2.2⟩

/-- C1 as stated fails: with `authToken` stored as the empty string (so
all three keys are present) and a login 7 days old, `checkAuthStatus`
removes nothing. -/
theorem checkAuthStatus_expired_empty_token_kept :
    (sampleSession "").storage.getItem "authToken" = some "" ∧
    (sampleSession "").storage.getItem "currentUser" = some "\x7b\"username\":\"amy\"\x7d" ∧
    (sampleSession "").storage.getItem "last_login" = some "1970-01-01T00:00:00.000Z" ∧
    sampleEnv.parseDate "1970-01-01T00:00:00.000Z" = some 0 ∧
    (7 * 86400000 : Int) ≤ 604800000 - 0 ∧
    ((sampleSession "").checkAuthStatus sampleEnv 604800000).1.storage.getItem "currentUser"
      = some "\x7b\"username\":\"amy\"\x7d" ∧
    ((sampleSession "").checkAuthStatus sampleEnv 604800000).1.storage.getItem "last_login"
      = some "1970-01-01T00:00:00.000Z" := by
  refine ⟨by decide, by decide, by decide, by decide, by decide, ?_, ?_⟩ <;>
    simp [FundManagerApp.checkAuthStatus, sampleSession, Storage.getItem, truthyStr]

/-- C2, as amended.  When the three session keys are stored with a
non-empty value, `last_login` reads as a time less than 7 days before
now and the stored user is JSON, `checkAuthStatus` completes with
`isAuthenticated` true, the token set to the stored token, the user set
to the parsed stored user, and storage untouched. -/
theorem checkAuthStatus_fresh_authenticates (env : Env) (now t : Int) (app : FundManagerApp)
    (tok usr ll : String) (u : JsVal)
    (hTok : app.storage.getItem "authToken" = some tok) (hTokNE : tok ≠ "")
    (hUsr : app.storage.getItem "currentUser" = some usr) (hUsrNE : usr ≠ "")
    (hLl : app.storage.getItem "last_login" = some ll) (hLlNE : ll ≠ "")
    (hDate : env.parseDate ll = some t) (hAge : now - t < 7 * 86400000)
    (hParse : env.jsonParse usr = .ok u) :
    (app.checkAuthStatus env now).2 = none ∧
    (app.checkAuthStatus env now).1.isAuthenticated = some true ∧
    (app.checkAuthStatus env now).1.token = some tok ∧
    (app.checkAuthStatus env now).1.currentUser = u ∧
    (app.checkAuthStatus env now).1.storage = app.storage ∧
    (app.checkAuthStatus env now).1.log = app.log := by
  have hNew : FundManagerApp.daysDiff now t < 7 :=
    (FundManagerApp.daysDiff_lt_seven_iff now t).2 hAge
  have hrun : app.checkAuthStatus env now =
      ({ app with token := some tok, currentUser := u, isAuthenticated := some true }, none) := by
    simp [FundManagerApp.checkAuthStatus, hTok, hUsr, hLl, truthyStr, hTokNE, hUsrNE, hLlNE,
      hDate, hNew, hParse]
  rw [hrun]
  exact ⟨rfl, rfl, rfl, rfl, rfl, rfl⟩

/-- C2 at a stored session one millisecond short of 7 days old. -/
theorem checkAuthStatus_fresh_authenticates_witness :
    ((sampleSession "tok").checkAuthStatus sampleEnv 604799999).1.isAuthenticated = some true ∧
    ((sampleSession "tok").checkAuthStatus sampleEnv 604799999).1.token = some "tok" ∧
    ((sampleSession "tok").checkAuthStatus sampleEnv 604799999).1.currentUser
      = JsVal.obj [("username", JsVal.str "amy")] :=
  have h := checkAuthStatus_fresh_authenticates sampleEnv 604799999 0 (sampleSession "tok")
    "tok" "\x7b\"username\":\"amy\"\x7d" "1970-01-01T00:00:00.000Z"
    (JsVal.obj [("username", JsVal.str "amy")])
    (by decide) (by decide) (by decide) (by decide) (by decide) (by decide) (by decide)
    (by decide) (by simp [sampleEnv])
  ⟨h.2.1, h.2.2.1, h.2.2.2.1⟩

/-- C2 as stated fails: with `authToken` stored as the empty string (all
three keys present) and a login one millisecond old, `checkAuthStatus`
leaves `isAuthenticated` false and the token unset.  And with all three
keys non-empty but a stored user that is not JSON, it ends with the
exception of `JSON.parse` and `isAuthenticated` is never assigned. -/
theorem checkAuthStatus_fresh_empty_token_refused :
    (sampleSession "").storage.getItem "authToken" = some "" ∧
    (sampleSession "").storage.getItem "currentUser" = some "\x7b\"username\":\"amy\"\x7d" ∧
    (sampleSession "").storage.getItem "last_login" = some "1970-01-01T00:00:00.000Z" ∧
    sampleEnv.parseDate "1970-01-01T00:00:00.000Z" = some 0 ∧
    (1 - 0 : Int) < 7 * 86400000 ∧
    ((sampleSession "").checkAuthStatus sampleEnv 1).1.isAuthenticated = some false ∧
    ((sampleSession "").checkAuthStatus sampleEnv 1).1.token = none ∧
    (sampleGarbledUser.checkAuthStatus sampleEnv 1).2
      = some ⟨"SyntaxError", "Unexpected token"⟩ ∧
    (sampleGarbledUser.checkAuthStatus sampleEnv 1).1.isAuthenticated = none := by
  have hfresh : FundManagerApp.daysDiff 1 0 < 7 :=
    (FundManagerApp.daysDiff_lt_seven_iff 1 0).2 (by decide)
  refine ⟨by decide, by decide, by decide, by decide, by decide, ?_, ?_, ?_, ?_⟩
  · simp [FundManagerApp.checkAuthStatus, sampleSession, Storage.getItem, truthyStr]
  · simp [FundManagerApp.checkAuthStatus, sampleSession, Storage.getItem, truthyStr]
  · simp [FundManagerApp.checkAuthStatus, sampleGarbledUser, Storage.getItem, truthyStr,
      sampleEnv, hfresh]
  · simp [FundManagerApp.checkAuthStatus, sampleGarbledUser, Storage.getItem, truthyStr,
      sampleEnv, hfresh]

/-- C3, as amended.  Whenever the gate does not authenticate (a session
key is missing or empty, or `last_login` does not read as a time less
than 7 days before now), `checkAuthStatus` completes with
`isAuthenticated` false and `init` does nothing but navigate to
`login.html`.  The three session keys are gone from storage when all
three were stored non-empty; when one was missing or empty storage is
left exactly as it was. -/
theorem gate_refusal_redirects (env : Env) (now : Int) (app : FundManagerApp)
    (hRefuse : ¬ ((truthyStr (app.storage.getItem "authToken") &&
        truthyStr (app.storage.getItem "currentUser") &&
        truthyStr (app.storage.getItem "last_login")) = true ∧
      ∃ t, env.parseDate ((app.storage.getItem "last_login").getD "") = some t ∧
        now - t < 7 * 86400000)) :
    (app.checkAuthStatus env now).2 = none ∧
    (app.checkAuthStatus env now).1.isAuthenticated = some false ∧
    (app.checkAuthStatus env now).1.init.log =
      (app.checkAuthStatus env now).1.log ++ [Event.navigate "login.html"] ∧
    ((truthyStr (app.storage.getItem "authToken") &&
        truthyStr (app.storage.getItem "currentUser") &&
        truthyStr (app.storage.getItem "last_login")) = true →
      (app.checkAuthStatus env now).1.init.storage.getItem "authToken" = none ∧
      (app.checkAuthStatus env now).1.init.storage.getItem "currentUser" = none ∧
      (app.checkAuthStatus env now).1.init.storage.getItem "last_login" = none) ∧
    ((truthyStr (app.storage.getItem "authToken") &&
        truthyStr (app.storage.getItem "currentUser") &&
        truthyStr (app.storage.getItem "last_login")) = false →
      (app.checkAuthStatus env now).1.init.storage = app.storage) := by
  by_cases hAll : (truthyStr (app.storage.getItem "authToken") &&
        truthyStr (app.storage.getItem "currentUser") &&
        truthyStr (app.storage.getItem "last_login")) = true
  · have hStale : (match env.parseDate ((app.storage.getItem "last_login").getD "") with
        | some t => decide (FundManagerApp.daysDiff now t < 7)
        | none => false) = false := by
      cases hd : env.parseDate ((app.storage.getItem "last_login").getD "") with
      | none => rfl
      | some t =>
        have hge : ¬ now - t < 7 * 86400000 := fun hlt => hRefuse ⟨hAll, t, hd, hlt⟩
        have hno : ¬ FundManagerApp.daysDiff now t < 7 :=
          fun h => hge ((FundManagerApp.daysDiff_lt_seven_iff now t).1 h)
        simp only [hno, decide_False]
    have hrun : app.checkAuthStatus env now =
        ({ app.clearAuth with isAuthenticated := some false }, none) := by
      simp only [FundManagerApp.checkAuthStatus, hAll, hStale, if_true, Bool.false_eq_true,
        if_false]
    rw [hrun]
    have hs := FundManagerApp.clearAuth_storage app
    refine ⟨rfl, rfl, rfl, fun _ => ⟨hs.1, hs.2.1, hs.2.2⟩, fun hf => ?_⟩
    rw [hAll] at hf
    exact absurd hf (by decide)
  · have hrun : app.checkAuthStatus env now =
        ({ app with isAuthenticated := some false }, none) := by
      simp only [FundManagerApp.checkAuthStatus, hAll, if_false, Bool.false_eq_true]
    rw [hrun]
    exact ⟨rfl, rfl, rfl, fun ht => absurd ht hAll, fun _ => rfl⟩

/-- C3 at a stored session that is exactly 7 days old. -/
theorem gate_refusal_redirects_witness :
    ((sampleSession "tok").checkAuthStatus sampleEnv 604800000).1.init.log =
      ((sampleSession "tok").checkAuthStatus sampleEnv 604800000).1.log ++
        [Event.navigate "login.html"] :=
  (gate_refusal_redirects sampleEnv 604800000 (sampleSession "tok")
    (by
      rintro ⟨_, t, ht, hlt⟩
      have h0 : t = 0 := by
        have : sampleEnv.parseDate "1970-01-01T00:00:00.000Z" = some t := ht
        simpa [sampleEnv] using this.symm
      subst h0
      exact absurd hlt (by decide))).2.2.1

/-- C3 as stated fails: with only `currentUser` stored (token and login
time missing) the gate refuses and `init` redirects, yet `currentUser`
is still in storage afterwards. -/
theorem gate_refusal_keeps_partial_session :
    samplePartial.storage.getItem "authToken" = none ∧
    samplePartial.storage.getItem "last_login" = none ∧
    (samplePartial.checkAuthStatus sampleEnv 0).2 = none ∧
    (samplePartial.checkAuthStatus sampleEnv 0).1.isAuthenticated = some false ∧
    (samplePartial.checkAuthStatus sampleEnv 0).1.init.log = [Event.navigate "login.html"] ∧
    (samplePartial.checkAuthStatus sampleEnv 0).1.init.storage.getItem "currentUser"
      = some "\x7b\"username\":\"amy\"\x7d" := by
  refine ⟨by decide, by decide, ?_, ?_, ?_, ?_⟩ <;>
    simp [FundManagerApp.checkAuthStatus, FundManagerApp.init, FundManagerApp.emit,
      Storage.getItem, truthyStr, samplePartial]

/-! ## Header bags: lemmas -/

theorem objGet_cons (p : String × String) (rest : List (String × String)) (k : String) :
    objGet (p :: rest) k
      = (objGet rest k).orElse (fun _ => if p.1 = k then some p.2 else none) := rfl

theorem objGet_eq_none_of_not_any (o : List (String × String)) (k : String)
    (h : ¬ o.any (fun p => decide (p.1 = k)) = true) : objGet o k = none := by
  induction o with
  | nil => rfl
  | cons p ps ih =>
    simp only [List.any_cons, Bool.or_eq_true, not_or, decide_eq_true_eq] at h
    rw [objGet_cons, ih h.2]
    simp only [Option.orElse, if_neg h.1]

theorem objGet_map_set (o : List (String × String)) (k v : String)
    (h : o.any (fun p => decide (p.1 = k)) = true) :
    objGet (o.map (fun p => if p.1 = k then (k, v) else p)) k = some v := by
  induction o with
  | nil => simp at h
  | cons p ps ih =>
    rw [List.map_cons, objGet_cons]
    by_cases hps : ps.any (fun p => decide (p.1 = k)) = true
    · rw [ih hps]; rfl
    · have hp : p.1 = k := by
        simp only [List.any_cons, Bool.or_eq_true, decide_eq_true_eq] at h
        exact h.resolve_right hps
      have hnone : objGet (ps.map (fun p => if p.1 = k then (k, v) else p)) k = none := by
        apply objGet_eq_none_of_not_any
        intro hany
        apply hps
        simp only [List.any_map, List.any_eq_true, Function.comp, decide_eq_true_eq] at hany ⊢
        obtain ⟨q, hq, hqk⟩ := hany
        refine ⟨q, hq, ?_⟩
        by_cases hq1 : q.1 = k
        · exact hq1
        · rw [if_neg hq1] at hqk; exact hqk
      rw [hnone]
      simp only [Option.orElse, if_pos hp]
      rw [if_pos trivial]

theorem objGet_append_singleton (o : List (String × String)) (k v k' : String) :
    objGet (o ++ [(k, v)]) k' = if k = k' then some v else objGet o k' := by
  induction o with
  | nil =>
    by_cases hk : k = k'
    · simp [objGet, hk]
    · simp [objGet, hk]
  | cons p ps ih =>
    rw [List.cons_append, objGet_cons, objGet_cons, ih]
    by_cases hk : k = k'
    · simp [hk]
    · simp [hk]

theorem objGet_objSet_self (o : List (String × String)) (k v : String) :
    objGet (objSet o k v) k = some v := by
  unfold objSet
  by_cases h : o.any (fun p => decide (p.1 = k)) = true
  · rw [if_pos h]; exact objGet_map_set o k v h
  · rw [if_neg h, objGet_append_singleton]; simp

theorem objGet_map_set_of_ne (o : List (String × String)) {k k' : String} (v : String)
    (hne : k ≠ k') :
    objGet (o.map (fun p => if p.1 = k then (k, v) else p)) k' = objGet o k' := by
  induction o with
  | nil => rfl
  | cons p ps ih =>
    rw [List.map_cons, objGet_cons, objGet_cons, ih]
    by_cases hp : p.1 = k
    · have hpk : ¬ p.1 = k' := fun h => hne (hp.symm.trans h)
      rw [if_pos hp, if_neg hne, if_neg hpk]
    · rw [if_neg hp]

theorem objGet_objSet_of_ne (o : List (String × String)) {k k' : String} (v : String)
    (hne : k ≠ k') : objGet (objSet o k v) k' = objGet o k' := by
  unfold objSet
  by_cases h : o.any (fun p => decide (p.1 = k)) = true
  · rw [if_pos h]; exact objGet_map_set_of_ne o v hne
  · rw [if_neg h, objGet_append_singleton, if_neg hne]

theorem objGet_objSpread (base extra : List (String × String)) (k : String) :
    objGet (objSpread base extra) k = (objGet extra k).orElse (fun _ => objGet base k) := by
  induction extra generalizing base with
  | nil => simp [objSpread, objGet]
  | cons p ps ih =>
    have hstep : objSpread base (p :: ps) = objSpread (objSet base p.1 p.2) ps := rfl
    rw [hstep, ih, objGet_cons]
    cases hps : objGet ps k with
    | some w => rfl
    | none =>
      by_cases hp : p.1 = k
      · subst hp; simp [objGet_objSet_self]
      · simp [hp, objGet_objSet_of_ne _ _ hp]

/-! ## Request dispatcher (C4 - C9) -/

theorem jsIncludes_authFailure :
    jsIncludes "认证失败，请重新登录" "认证失败" = true := by decide

theorem jsIncludes_authFailure_404 :
    jsIncludes "认证失败，请重新登录" "404" = false := by decide

theorem messagesShown_append (a b : List Event) :
    messagesShown (a ++ b) = messagesShown a ++ messagesShown b := by
  simp [messagesShown, List.filterMap_append]

/-- What `makeRequest` does on a 401 answer, whatever the body. -/
theorem FundManagerApp.makeRequest_unauthorized_eq (env : Env) (app : FundManagerApp)
    (url : String) (options : Options) (body : Except JsError JsVal) :
    app.makeRequest env url options (.ok ⟨401, body⟩) =
      ({ app.clearAuth with
          log := app.log ++ unauthorizedTrace (FundManagerApp.buildRequest app.token url options) },
        .error ⟨"Error", "认证失败，请重新登录"⟩) := by
  simp [FundManagerApp.makeRequest, FundManagerApp.makeRequestTry, FundManagerApp.emit,
    FundManagerApp.showMessage, FundManagerApp.clearAuth, unauthorizedTrace,
    jsIncludes_authFailure]

/-- C4.  On a response with status 401, whatever its body,
`makeRequest` fails with the auth-failure error instead of returning
data, and the effects after the request went out are exactly: one
`clearAuth`, the expiry message, one timer of 500 ms that navigates to
`login.html`; the body is not read and nothing else is shown.  Afterwards
the three session keys are gone from storage, token and user are null and
`isAuthenticated` is false. -/
theorem makeRequest_unauthorized (env : Env) (app : FundManagerApp) (url : String)
    (options : Options) (body : Except JsError JsVal) :
    (app.makeRequest env url options (.ok ⟨401, body⟩)).2
      = .error ⟨"Error", "认证失败，请重新登录"⟩ ∧
    (app.makeRequest env url options (.ok ⟨401, body⟩)).1.log
      = app.log ++ [Event.fetch (FundManagerApp.buildRequest app.token url options),
          Event.clearAuth, Event.showMessage "登录已过期，请重新登录" "error",
          Event.setTimeout (Callback.navigate "login.html") 500] ∧
    (app.makeRequest env url options (.ok ⟨401, body⟩)).1.storage.getItem "authToken" = none ∧
    (app.makeRequest env url options (.ok ⟨401, body⟩)).1.storage.getItem "currentUser" = none ∧
    (app.makeRequest env url options (.ok ⟨401, body⟩)).1.storage.getItem "last_login" = none ∧
    (app.makeRequest env url options (.ok ⟨401, body⟩)).1.token = none ∧
    (app.makeRequest env url options (.ok ⟨401, body⟩)).1.currentUser = JsVal.null ∧
    (app.makeRequest env url options (.ok ⟨401, body⟩)).1.isAuthenticated = some false := by
  rw [FundManagerApp.makeRequest_unauthorized_eq]
  have hs := FundManagerApp.clearAuth_storage app
  exact ⟨rfl, rfl, hs.1, hs.2.1, hs.2.2, rfl, rfl, rfl⟩

/-- C5, as amended.  For the five operations that go through
`makeRequest`, a 401 answer leaves exactly the trace of the 401 branch
after the one request (one `clearAuth`, no second request, no further
operation started; `deleteFund` adds only its `confirm` dialog before and
one message after).  `searchFunds` calls `fetch` itself: on a 401 answer
it sends no further request either, but it does not clear the session:
token and storage stay as they were and the search-failure text is
shown in the result list. -/
theorem unauthorized_operations (env : Env) (app : FundManagerApp)
    (body : Except JsError JsVal) (fundData : JsVal) (fundId keyword : String)
    (hasSearchInput : Bool) (results : SearchResults) :
    (app.loadFunds env (.ok ⟨401, body⟩)).log
      = app.log ++ unauthorizedTrace (FundManagerApp.buildRequest app.token "/funds/" {}) ∧
    (app.addFund env fundData (.ok ⟨401, body⟩)).1.log
      = app.log ++ unauthorizedTrace (FundManagerApp.buildRequest app.token "/funds/"
          { method := some "POST", body := some (env.jsonStringify fundData) }) ∧
    (app.updateFund env fundId fundData (.ok ⟨401, body⟩)).1.log
      = app.log ++ unauthorizedTrace (FundManagerApp.buildRequest app.token ("/funds/" ++ fundId)
          { method := some "PUT", body := some (env.jsonStringify fundData) }) ∧
    (app.deleteFund env fundId true (.ok ⟨401, body⟩)).1.log
      = app.log ++ Event.confirm "确定要删除这只基金吗？" ::
          unauthorizedTrace (FundManagerApp.buildRequest app.token ("/funds/" ++ fundId)
            { method := some "DELETE" }) ++
          [Event.showMessage "认证失败，请重新登录" "error"] ∧
    (app.calculatePortfolio env (.ok ⟨401, body⟩)).1.log
      = app.log ++ unauthorizedTrace
          (FundManagerApp.buildRequest app.token "/funds/calculate" {}) ∧
    (FundManagerApp.searchFunds env { app with searchResults := some results } hasSearchInput
        keyword (.ok ⟨401, body⟩)).log
      = app.log ++ [Event.fetch (FundManagerApp.searchRequest env app.token keyword)] ∧
    (FundManagerApp.searchFunds env { app with searchResults := some results } hasSearchInput
        keyword (.ok ⟨401, body⟩)).storage = app.storage ∧
    (FundManagerApp.searchFunds env { app with searchResults := some results } hasSearchInput
        keyword (.ok ⟨401, body⟩)).token = app.token ∧
    (FundManagerApp.searchFunds env { app with searchResults := some results } hasSearchInput
        keyword (.ok ⟨401, body⟩)).searchResults
      = some { innerHTML := "<div class=\"search-error\">搜索失败，请稍后重试</div>",
               shown := true } := by
  refine ⟨?_, ?_, ?_, ?_, ?_, ?_, ?_, ?_, ?_⟩
  · simp [FundManagerApp.loadFunds, FundManagerApp.makeRequest_unauthorized_eq]
  · simp [FundManagerApp.addFund, FundManagerApp.makeRequest_unauthorized_eq]
  · simp [FundManagerApp.updateFund, FundManagerApp.makeRequest_unauthorized_eq]
  · simp [FundManagerApp.deleteFund, FundManagerApp.makeRequest_unauthorized_eq,
      FundManagerApp.emit, FundManagerApp.showMessage, FundManagerApp.clearAuth]
  · simp [FundManagerApp.calculatePortfolio, FundManagerApp.makeRequest_unauthorized_eq,
      FundManagerApp.calculatePortfolioCatch, jsIncludes_authFailure, jsIncludes_authFailure_404]
  · simp [FundManagerApp.searchFunds, FundManagerApp.emit, Response.ok]
  · simp [FundManagerApp.searchFunds, FundManagerApp.emit, Response.ok]
  · simp [FundManagerApp.searchFunds, FundManagerApp.emit, Response.ok]
  · simp [FundManagerApp.searchFunds, FundManagerApp.emit, Response.ok]

/-- C5 as stated fails for `searchFunds`: on a page with a stored
session, the token in memory and the result list in the DOM, a search
answered with 401 leaves the stored token, the in-memory token and
`isAuthenticated` as they were; the trace holds the request and no
`clearAuth`. -/
theorem searchFunds_unauthorized_keeps_session :
    (FundManagerApp.searchFunds sampleEnv
        { sampleSession "tok" with token := some "tok", isAuthenticated := some true,
                                   searchResults := some {} }
        true "hx" (.ok ⟨401, .ok JsVal.null⟩)).storage.getItem "authToken" = some "tok" ∧
    (FundManagerApp.searchFunds sampleEnv
        { sampleSession "tok" with token := some "tok", isAuthenticated := some true,
                                   searchResults := some {} }
        true "hx" (.ok ⟨401, .ok JsVal.null⟩)).token = some "tok" ∧
    (FundManagerApp.searchFunds sampleEnv
        { sampleSession "tok" with token := some "tok", isAuthenticated := some true,
                                   searchResults := some {} }
        true "hx" (.ok ⟨401, .ok JsVal.null⟩)).isAuthenticated = some true ∧
    (FundManagerApp.searchFunds sampleEnv
        { sampleSession "tok" with token := some "tok", isAuthenticated := some true,
                                   searchResults := some {} }
        true "hx" (.ok ⟨401, .ok JsVal.null⟩)).log
      = [Event.fetch ⟨"/api/funds/search?q=hx&limit=10", some "GET", none,
          [("Content-Type", "application/json"), ("Authorization", "Bearer tok")]⟩] := by
  refine ⟨?_, ?_, ?_, ?_⟩ <;>
    simp [FundManagerApp.searchFunds, FundManagerApp.emit, Response.ok, sampleSession,
      Storage.getItem, FundManagerApp.searchRequest, sampleEnv]

/-- The trace of the `try` block of `makeRequest`. -/
theorem FundManagerApp.makeRequestTry_log (env : Env) (app : FundManagerApp) (url : String)
    (options : Options) (outcome : FetchOutcome) :
    (app.makeRequestTry env url options outcome).1.log
      = app.log ++ Event.fetch (FundManagerApp.buildRequest app.token url options) ::
          (match outcome with
            | .error _ => []
            | .ok response =>
              if response.status = 401 then
                [Event.clearAuth, Event.showMessage "登录已过期，请重新登录" "error",
                  Event.setTimeout (Callback.navigate "login.html") 500]
              else [Event.readBody]) := by
  unfold FundManagerApp.makeRequestTry
  rcases outcome with e | response
  · simp [FundManagerApp.emit]
  · by_cases h401 : response.status = 401
    · simp [h401, FundManagerApp.emit, FundManagerApp.showMessage, FundManagerApp.clearAuth]
    · simp only [h401, if_false]
      rcases hb : response.body with e | data
      · simp [FundManagerApp.emit]
      · by_cases hok : response.ok = true
        · simp [hok, FundManagerApp.emit]
        · simp only [hok, Bool.not_false, if_true, Bool.not_eq_true]
          cases data <;> simp [FundManagerApp.emit]

/-- The `catch` block of `makeRequest` adds at most one message and
passes the exception of the `try` block on unchanged. -/
theorem FundManagerApp.makeRequest_catch (env : Env) (app : FundManagerApp) (url : String)
    (options : Options) (outcome : FetchOutcome) :
    (app.makeRequest env url options outcome).2 = (app.makeRequestTry env url options outcome).2 ∧
    (app.makeRequest env url options outcome).1.log
      = (app.makeRequestTry env url options outcome).1.log ++
          (match (app.makeRequestTry env url options outcome).2 with
            | .ok _ => []
            | .error error =>
              if jsIncludes error.message "认证失败" then []
              else [Event.showMessage error.message "error"]) := by
  unfold FundManagerApp.makeRequest
  rcases app.makeRequestTry env url options outcome with ⟨a, e | data⟩
  · by_cases h : jsIncludes e.message "认证失败" = true
    · simp [h]
    · simp [h, FundManagerApp.showMessage, FundManagerApp.emit]
  · simp

/-- C6, as amended.  Every `makeRequest` first sends the request built
from the in-memory token and the caller's options.  When the token is a
non-empty string `t`, that request carries `Authorization: Bearer t`
whatever headers the caller supplied; its `Content-Type` is the caller's
when the caller supplied one and `application/json` otherwise; when the
token is null the headers are the default `Content-Type` overlaid with the
caller's headers, so no `Authorization` is added. -/
theorem makeRequest_headers (env : Env) (app : FundManagerApp) (url : String)
    (options : Options) (outcome : FetchOutcome) :
    (∃ rest, (app.makeRequest env url options outcome).1.log
      = app.log ++ Event.fetch (FundManagerApp.buildRequest app.token url options) :: rest) ∧
    (∀ t, app.token = some t → t ≠ "" →
      objGet (FundManagerApp.buildRequest app.token url options).headers "Authorization"
        = some ("Bearer " ++ t)) ∧
    objGet (FundManagerApp.buildRequest app.token url options).headers "Content-Type"
      = some ((objGet (options.headers.getD []) "Content-Type").getD "application/json") ∧
    (app.token = none →
      (FundManagerApp.buildRequest app.token url options).headers
        = objSpread [("Content-Type", "application/json")] (options.headers.getD []) ∧
      objGet (FundManagerApp.buildRequest app.token url options).headers "Authorization"
        = objGet (options.headers.getD []) "Authorization") := by
  have hCT : objGet (objSpread [("Content-Type", "application/json")] (options.headers.getD []))
      "Content-Type"
      = some ((objGet (options.headers.getD []) "Content-Type").getD "application/json") := by
    rw [objGet_objSpread]
    cases objGet (options.headers.getD []) "Content-Type" <;> simp [objGet]
  refine ⟨?_, ?_, ?_, ?_⟩
  · have h1 := (FundManagerApp.makeRequest_catch env app url options outcome).2
    rw [FundManagerApp.makeRequestTry_log] at h1
    exact ⟨_, by rw [h1, List.append_assoc, List.cons_append]⟩
  · intro t ht hne
    simp only [FundManagerApp.buildRequest, FundManagerApp.requestHeaders, ht, truthyStr,
      Option.getD_some]
    have : (t != "") = true := by simpa using hne
    rw [if_pos this, objGet_objSet_self]
  · simp only [FundManagerApp.buildRequest, FundManagerApp.requestHeaders]
    split
    · rw [objGet_objSet_of_ne _ _ (by decide), hCT]
    · exact hCT
  · intro hnone
    have hh : (FundManagerApp.buildRequest app.token url options).headers
        = objSpread [("Content-Type", "application/json")] (options.headers.getD []) := by
      simp [FundManagerApp.buildRequest, FundManagerApp.requestHeaders, hnone, truthyStr]
    refine ⟨hh, ?_⟩
    rw [hh, objGet_objSpread]
    cases objGet (options.headers.getD []) "Authorization" <;> simp [objGet]

/-- C6 at a caller who supplies an `Authorization` and a `Content-Type`
of its own: the first is overridden, the second is kept. -/
theorem makeRequest_headers_witness :
    objGet (FundManagerApp.buildRequest (some "tok") "/funds/"
        { headers := some [("Authorization", "Basic x"), ("Content-Type", "text/plain")] }).headers
      "Authorization" = some "Bearer tok" ∧
    objGet (FundManagerApp.buildRequest (some "tok") "/funds/"
        { headers := some [("Authorization", "Basic x"), ("Content-Type", "text/plain")] }).headers
      "Content-Type" = some "text/plain" :=
  have h := makeRequest_headers sampleEnv (samplePage (some "tok")) "/funds/"
    { headers := some [("Authorization", "Basic x"), ("Content-Type", "text/plain")] }
    (.ok ⟨200, .ok (JsVal.arr [])⟩)
  ⟨h.2.1 "tok" rfl (by decide), h.2.2.1⟩

/-- C6 as stated fails: with the in-memory token the empty string (not
null) the request goes out with the default `Content-Type` only and no
`Authorization` header. -/
theorem makeRequest_empty_token_no_header :
    (samplePage (some "")).token = some "" ∧
    ((samplePage (some "")).makeRequest sampleEnv "/funds/" {}
        (.ok ⟨200, .ok (JsVal.arr [])⟩)).1.log
      = [Event.fetch ⟨"/api/funds/", none, none, [("Content-Type", "application/json")]⟩,
          Event.readBody] ∧
    objGet (FundManagerApp.buildRequest (samplePage (some "")).token "/funds/" {}).headers
      "Authorization" = none := by
  refine ⟨rfl, ?_, by decide⟩
  simp [FundManagerApp.makeRequest, FundManagerApp.makeRequestTry, FundManagerApp.emit,
    FundManagerApp.buildRequest, FundManagerApp.requestHeaders, FundManagerApp.baseURL,
    samplePage, truthyStr, Response.ok, objSpread]

/-- The `try` block on a response that is not a 401 and whose body is JSON. -/
theorem FundManagerApp.makeRequestTry_json (env : Env) (app : FundManagerApp) (url : String)
    (options : Options) (response : Response) (data : JsVal)
    (h401 : response.status ≠ 401) (hBody : response.body = .ok data) :
    (app.makeRequestTry env url options (.ok response)).2 =
      if response.ok then .ok data
      else match data with
        | JsVal.null => .error env.nullPropertyError
        | JsVal.undefined => .error env.nullPropertyError
        | _ => .error ⟨"Error", env.toStr (if (data.getProp "detail").truthy
            then data.getProp "detail" else JsVal.str "请求失败")⟩ := by
  unfold FundManagerApp.makeRequestTry
  simp only [h401, if_false, hBody]
  by_cases hok : response.ok = true
  · simp [hok]
  · simp only [hok, Bool.not_false, if_true, Bool.not_eq_true, Bool.false_eq_true, if_false]
    cases data <;> rfl

/-- C7, as amended.  For a response that is not a 401 and whose body is
the JSON value `data`: a 2xx response makes `makeRequest` return `data`
unchanged; a non-2xx response with `data` other than `null` makes it fail
with the error whose message is exactly `data.detail` when that is a
non-empty string, and with the default message when `data.detail` is
absent or falsy (`null`, `false`, `0`, the empty string). -/
theorem makeRequest_error_detail (env : Env) (app : FundManagerApp) (url : String)
    (options : Options) (response : Response) (data : JsVal)
    (h401 : response.status ≠ 401) (hBody : response.body = .ok data) :
    (response.ok = true → (app.makeRequest env url options (.ok response)).2 = .ok data) ∧
    (response.ok = false → data ≠ JsVal.null → data ≠ JsVal.undefined →
      (∀ d, data.getProp "detail" = JsVal.str d → d ≠ "" →
        (app.makeRequest env url options (.ok response)).2 = .error ⟨"Error", d⟩) ∧
      ((data.getProp "detail").truthy = false →
        (app.makeRequest env url options (.ok response)).2 = .error ⟨"Error", "请求失败"⟩)) := by
  have hc := (FundManagerApp.makeRequest_catch env app url options (.ok response)).1
  have ht := FundManagerApp.makeRequestTry_json env app url options response data h401 hBody
  rw [hc, ht]
  refine ⟨fun hok => by simp [hok], fun hok hnull hundef => ⟨fun d hd hne => ?_, fun hf => ?_⟩⟩
  · have htr : (JsVal.str d).truthy = true := by simpa [JsVal.truthy] using hne
    cases data <;> simp_all [Env.toStr]
  · cases data <;> simp_all [Env.toStr]

/-- C7 at a 400 answer with a detail text. -/
theorem makeRequest_error_detail_witness :
    ((samplePage (some "tok")).makeRequest sampleEnv "/funds/" {}
        (.ok ⟨400, .ok (JsVal.obj [("detail", JsVal.str "基金代码已存在")])⟩)).2
      = .error ⟨"Error", "基金代码已存在"⟩ :=
  ((makeRequest_error_detail sampleEnv (samplePage (some "tok")) "/funds/" {}
      ⟨400, .ok (JsVal.obj [("detail", JsVal.str "基金代码已存在")])⟩
      (JsVal.obj [("detail", JsVal.str "基金代码已存在")]) (by decide) rfl).2
    (by decide) (by simp) (by simp)).1 "基金代码已存在"
    (by simp [JsVal.getProp, JsVal.lookupField]) (by decide)

/-- C7 as stated fails: a 500 answer whose JSON body carries an object
as `detail` (present and not empty) makes `makeRequest` fail with the
message "[object Object]", which is not the detail; and a 500 answer whose
JSON body is `null` (no detail) makes it fail with the engine's
`TypeError` for reading a property of `null`, not with the default
message. -/
theorem makeRequest_object_detail_message :
    (JsVal.obj [("detail", JsVal.obj [("msg", JsVal.str "bad")])]).getProp "detail"
      = JsVal.obj [("msg", JsVal.str "bad")] ∧
    ((samplePage (some "tok")).makeRequest sampleEnv "/funds/" {}
        (.ok ⟨500, .ok (JsVal.obj [("detail", JsVal.obj [("msg", JsVal.str "bad")])])⟩)).2
      = .error ⟨"Error", "[object Object]"⟩ ∧
    ((samplePage (some "tok")).makeRequest sampleEnv "/funds/" {} (.ok ⟨500, .ok JsVal.null⟩)).2
      = .error ⟨"TypeError", "Cannot read properties of null (reading \"detail\")"⟩ := by
  refine ⟨by simp [JsVal.getProp, JsVal.lookupField], ?_, ?_⟩
  · have hc := (FundManagerApp.makeRequest_catch sampleEnv (samplePage (some "tok")) "/funds/" {}
      (.ok ⟨500, .ok (JsVal.obj [("detail", JsVal.obj [("msg", JsVal.str "bad")])])⟩)).1
    rw [hc, FundManagerApp.makeRequestTry_json _ _ _ _ _ _ (by decide) rfl]
    simp [Response.ok, JsVal.getProp, JsVal.lookupField, JsVal.truthy, Env.toStr]
  · have hc := (FundManagerApp.makeRequest_catch sampleEnv (samplePage (some "tok")) "/funds/" {}
      (.ok ⟨500, .ok JsVal.null⟩)).1
    rw [hc, FundManagerApp.makeRequestTry_json _ _ _ _ _ _ (by decide) rfl]
    simp [Response.ok, sampleEnv]

/-- C8, as amended.  When `makeRequest` fails with an error that does not
come from a 401 answer and whose message does not contain the auth-failure
marker, the error is the one raised in the `try` block (the rejection of
`fetch`, the rejection of `response.json()`, or the error built from the
server detail), its message is passed to `showMessage` exactly once, as
the last effect, and that same error is rethrown. -/
theorem makeRequest_failure_shown_once (env : Env) (app : FundManagerApp) (url : String)
    (options : Options) (outcome : FetchOutcome) (error : JsError)
    (hNot401 : ∀ response, outcome = .ok response → response.status ≠ 401)
    (hFail : (app.makeRequest env url options outcome).2 = .error error)
    (hText : jsIncludes error.message "认证失败" = false) :
    (app.makeRequestTry env url options outcome).2 = .error error ∧
    (∀ e, outcome = .error e → error = e) ∧
    (∀ response e, outcome = .ok response → response.body = .error e → error = e) ∧
    (app.makeRequest env url options outcome).1.log
      = (app.makeRequestTry env url options outcome).1.log ++
          [Event.showMessage error.message "error"] ∧
    messagesShown (app.makeRequest env url options outcome).1.log
      = messagesShown app.log ++ [(error.message, "error")] := by
  obtain ⟨hc2, hcl⟩ := FundManagerApp.makeRequest_catch env app url options outcome
  have hTry : (app.makeRequestTry env url options outcome).2 = .error error := by
    rw [← hc2]; exact hFail
  have hlog : (app.makeRequest env url options outcome).1.log
      = (app.makeRequestTry env url options outcome).1.log ++
          [Event.showMessage error.message "error"] := by
    rw [hcl, hTry]; simp [hText]
  refine ⟨hTry, ?_, ?_, hlog, ?_⟩
  · intro e he
    subst he
    have : (app.makeRequestTry env url options (.error e)).2 = .error e := rfl
    rw [this] at hTry
    exact (Except.error.inj hTry).symm
  · intro response e he hb
    subst he
    have : (app.makeRequestTry env url options (.ok response)).2 = .error e := by
      simp [FundManagerApp.makeRequestTry, hNot401 response rfl, hb]
    rw [this] at hTry
    exact (Except.error.inj hTry).symm
  · rw [hlog, FundManagerApp.makeRequestTry_log]
    rcases outcome with e | response
    · simp [messagesShown, List.filterMap_append]
    · simp [messagesShown, List.filterMap_append, hNot401 response rfl]

/-- C8 at a rejected `fetch`. -/
theorem makeRequest_failure_shown_once_witness :
    messagesShown ((samplePage (some "tok")).makeRequest sampleEnv "/funds/" {}
        (.error ⟨"TypeError", "Failed to fetch"⟩)).1.log
      = [("Failed to fetch", "error")] :=
  (makeRequest_failure_shown_once sampleEnv (samplePage (some "tok")) "/funds/" {}
    (.error ⟨"TypeError", "Failed to fetch"⟩) ⟨"TypeError", "Failed to fetch"⟩
    (by intro response h; cases h)
    (by
      have h : jsIncludes "Failed to fetch" "认证失败" = false := by decide
      simp [FundManagerApp.makeRequest, FundManagerApp.makeRequestTry, h])
    (by decide)).2.2.2.2

/-- C8 as stated fails: a 403 answer whose server detail text contains
the auth-failure marker makes `makeRequest` fail without any call of
`showMessage`. -/
theorem makeRequest_marked_detail_not_shown :
    ((samplePage (some "tok")).makeRequest sampleEnv "/funds/" {}
        (.ok ⟨403, .ok (JsVal.obj [("detail", JsVal.str "认证失败")])⟩)).2
      = .error ⟨"Error", "认证失败"⟩ ∧
    messagesShown ((samplePage (some "tok")).makeRequest sampleEnv "/funds/" {}
        (.ok ⟨403, .ok (JsVal.obj [("detail", JsVal.str "认证失败")])⟩)).1.log = [] := by
  have hinc : jsIncludes "认证失败" "认证失败" = true := by decide
  obtain ⟨hc2, hcl⟩ := FundManagerApp.makeRequest_catch sampleEnv (samplePage (some "tok"))
    "/funds/" {} (.ok ⟨403, .ok (JsVal.obj [("detail", JsVal.str "认证失败")])⟩)
  have ht := FundManagerApp.makeRequestTry_json sampleEnv (samplePage (some "tok")) "/funds/" {}
    ⟨403, .ok (JsVal.obj [("detail", JsVal.str "认证失败")])⟩
    (JsVal.obj [("detail", JsVal.str "认证失败")]) (by decide) rfl
  have ht2 : ((samplePage (some "tok")).makeRequestTry sampleEnv "/funds/" {}
      (.ok ⟨403, .ok (JsVal.obj [("detail", JsVal.str "认证失败")])⟩)).2
      = .error ⟨"Error", "认证失败"⟩ := by
    rw [ht]
    simp [Response.ok, JsVal.getProp, JsVal.lookupField, JsVal.truthy, Env.toStr]
  refine ⟨by rw [hc2, ht2], ?_⟩
  rw [hcl, ht2, FundManagerApp.makeRequestTry_log]
  simp [hinc, messagesShown, samplePage]

/-- C9.  On a 401 answer `loadFunds`, `addFund`, `updateFund` and
`calculatePortfolio` show exactly one message, the expiry message of
`makeRequest`; `deleteFund` (confirmed by the user) shows two: its own
`catch` block shows the auth-failure error after it. -/
theorem unauthorized_messages (env : Env) (app : FundManagerApp)
    (body : Except JsError JsVal) (fundData : JsVal) (fundId : String) :
    messagesShown (app.loadFunds env (.ok ⟨401, body⟩)).log
      = messagesShown app.log ++ [("登录已过期，请重新登录", "error")] ∧
    messagesShown (app.addFund env fundData (.ok ⟨401, body⟩)).1.log
      = messagesShown app.log ++ [("登录已过期，请重新登录", "error")] ∧
    messagesShown (app.updateFund env fundId fundData (.ok ⟨401, body⟩)).1.log
      = messagesShown app.log ++ [("登录已过期，请重新登录", "error")] ∧
    messagesShown (app.calculatePortfolio env (.ok ⟨401, body⟩)).1.log
      = messagesShown app.log ++ [("登录已过期，请重新登录", "error")] ∧
    messagesShown (app.deleteFund env fundId true (.ok ⟨401, body⟩)).1.log
      = messagesShown app.log ++
          [("登录已过期，请重新登录", "error"), ("认证失败，请重新登录", "error")] := by
  refine ⟨?_, ?_, ?_, ?_, ?_⟩
  · simp [FundManagerApp.loadFunds, FundManagerApp.makeRequest_unauthorized_eq,
      messagesShown_append, messagesShown, unauthorizedTrace]
  · simp [FundManagerApp.addFund, FundManagerApp.makeRequest_unauthorized_eq,
      messagesShown_append, messagesShown, unauthorizedTrace]
  · simp [FundManagerApp.updateFund, FundManagerApp.makeRequest_unauthorized_eq,
      messagesShown_append, messagesShown, unauthorizedTrace]
  · simp [FundManagerApp.calculatePortfolio, FundManagerApp.makeRequest_unauthorized_eq,
      FundManagerApp.calculatePortfolioCatch, jsIncludes_authFailure,
      jsIncludes_authFailure_404, messagesShown_append, messagesShown, unauthorizedTrace]
  · simp [FundManagerApp.deleteFund, FundManagerApp.makeRequest_unauthorized_eq,
      FundManagerApp.emit, FundManagerApp.showMessage, FundManagerApp.clearAuth,
      messagesShown, unauthorizedTrace, List.filterMap_append]

/-! ## Binary64 arithmetic: the model of `*` is correctly rounded -/

theorem F64.bitLengthFuel_zero (fuel : Nat) : F64.bitLengthFuel fuel 0 = 0 := by
  cases fuel <;> simp [F64.bitLengthFuel]

theorem F64.bitLengthFuel_spec (fuel n : Nat) (hfuel : n ≤ fuel) (hn : n ≠ 0) :
    2 ^ (F64.bitLengthFuel fuel n - 1) ≤ n ∧ n < 2 ^ F64.bitLengthFuel fuel n := by
  induction fuel generalizing n with
  | zero => omega
  | succ fuel ih =>
    simp only [F64.bitLengthFuel, hn, if_false]
    by_cases h2 : n / 2 = 0
    · have h1 : n = 1 := by omega
      subst h1
      simp [F64.bitLengthFuel_zero]
    · have hle : n / 2 ≤ fuel := by omega
      obtain ⟨hlo, hhi⟩ := ih (n / 2) hle h2
      have hpos : 0 < F64.bitLengthFuel fuel (n / 2) := by
        rcases Nat.eq_zero_or_pos (F64.bitLengthFuel fuel (n / 2)) with h0 | h0
        · rw [h0] at hhi; omega
        · exact h0
      obtain ⟨k, hk⟩ : ∃ k, F64.bitLengthFuel fuel (n / 2) = k + 1 := ⟨_, (Nat.succ_pred_eq_of_pos hpos).symm⟩
      rw [hk] at hlo hhi ⊢
      simp only [Nat.add_sub_cancel] at hlo ⊢
      constructor
      · rw [pow_succ]; omega
      · rw [pow_succ]; omega

theorem F64.bitLength_spec (n : Nat) (hn : n ≠ 0) :
    2 ^ (F64.bitLength n - 1) ≤ n ∧ n < 2 ^ F64.bitLength n :=
  F64.bitLengthFuel_spec n n (le_refl n) hn

theorem F64.divRoundEven_spec (a b : Nat) (hb : 0 < b) :
    |((F64.divRoundEven a b : Nat) : ℚ) - (a : ℚ) / b| ≤ 1 / 2 := by
  have hbq : (0 : ℚ) < b := by exact_mod_cast hb
  have hdm : b * (a / b) + a % b = a := Nat.div_add_mod a b
  have hlt : a % b < b := Nat.mod_lt a hb
  have hdmq : (b : ℚ) * ((a / b : Nat) : ℚ) + ((a % b : Nat) : ℚ) = a := by exact_mod_cast hdm
  have hltq : ((a % b : Nat) : ℚ) < b := by exact_mod_cast hlt
  have hr0 : (0 : ℚ) ≤ ((a % b : Nat) : ℚ) := by positivity
  have hval : (a : ℚ) / b = ((a / b : Nat) : ℚ) + ((a % b : Nat) : ℚ) / b := by
    field_simp
    linarith
  simp only [F64.divRoundEven]
  split
  · rename_i h
    have h2 : b ≤ 2 * (a % b) := by omega
    have h2q : (b : ℚ) ≤ 2 * ((a % b : Nat) : ℚ) := by exact_mod_cast h2
    rw [hval, abs_le]
    push_cast
    have hfrac : (1 : ℚ) / 2 ≤ ((a % b : Nat) : ℚ) / b := by
      rw [le_div_iff₀ hbq]; linarith
    have hfrac1 : ((a % b : Nat) : ℚ) / b < 1 := by
      rw [div_lt_one hbq]; exact hltq
    constructor <;> linarith
  · rename_i h
    have h2 : 2 * (a % b) ≤ b := by omega
    have h2q : 2 * ((a % b : Nat) : ℚ) ≤ b := by exact_mod_cast h2
    rw [hval, abs_le]
    have hfrac : ((a % b : Nat) : ℚ) / b ≤ 1 / 2 := by
      rw [div_le_iff₀ hbq]; linarith
    have hfrac0 : (0 : ℚ) ≤ ((a % b : Nat) : ℚ) / b := by positivity
    constructor <;> linarith

theorem F64.floorLog2_spec (num den : Nat) (hnum : 0 < num) (hden : 0 < den) :
    (den : ℚ) * 2 ^ F64.floorLog2 num den ≤ num ∧
    (num : ℚ) < den * 2 ^ (F64.floorLog2 num den + 1) := by
  obtain ⟨ha1, ha2⟩ := F64.bitLength_spec num (by omega)
  obtain ⟨hb1, hb2⟩ := F64.bitLength_spec den (by omega)
  simp only [F64.floorLog2]
  have hapos : 0 < F64.bitLength num := by
    rcases Nat.eq_zero_or_pos (F64.bitLength num) with h | h
    · rw [h] at ha2; omega
    · exact h
  have hbpos : 0 < F64.bitLength den := by
    rcases Nat.eq_zero_or_pos (F64.bitLength den) with h | h
    · rw [h] at hb2; omega
    · exact h
  generalize F64.bitLength num = a at *
  generalize F64.bitLength den = b at *
  have two_pos : ∀ z : Int, (0 : ℚ) < 2 ^ z := fun z => by positivity
  have ha1q : (2 : ℚ) ^ ((a : Int) - 1) ≤ num := by
    have : ((2 ^ (a - 1) : Nat) : ℚ) ≤ num := by exact_mod_cast ha1
    have e1 : ((a : Int) - 1) = ((a - 1 : Nat) : Int) := by omega
    rw [e1, zpow_natCast]; exact_mod_cast ha1
  have ha2q : (num : ℚ) < 2 ^ (a : Int) := by
    rw [zpow_natCast]; exact_mod_cast ha2
  have hb1q : (2 : ℚ) ^ ((b : Int) - 1) ≤ den := by
    have e1 : ((b : Int) - 1) = ((b - 1 : Nat) : Int) := by omega
    rw [e1, zpow_natCast]; exact_mod_cast hb1
  have hb2q : (den : ℚ) < 2 ^ (b : Int) := by
    rw [zpow_natCast]; exact_mod_cast hb2
  have hdenq : (0 : ℚ) < den := by exact_mod_cast hden
  -- the coarse bracket
  have hlow : (den : ℚ) * 2 ^ ((a : Int) - b - 1) ≤ num := by
    have h1 : (den : ℚ) * 2 ^ ((a : Int) - b - 1) ≤ 2 ^ (b : Int) * 2 ^ ((a : Int) - b - 1) :=
      mul_le_mul_of_nonneg_right hb2q.le (two_pos _).le
    have h2 : (2 : ℚ) ^ (b : Int) * 2 ^ ((a : Int) - b - 1) = 2 ^ ((a : Int) - 1) := by
      rw [← zpow_add₀ (by norm_num : (2 : ℚ) ≠ 0)]; congr 1; ring
    linarith
  have hhigh : (num : ℚ) < den * 2 ^ ((a : Int) - b + 1) := by
    have h1 : (2 : ℚ) ^ ((b : Int) - 1) * 2 ^ ((a : Int) - b + 1) ≤ den * 2 ^ ((a : Int) - b + 1) :=
      mul_le_mul_of_nonneg_right hb1q (two_pos _).le
    have h2 : (2 : ℚ) ^ ((b : Int) - 1) * 2 ^ ((a : Int) - b + 1) = 2 ^ (a : Int) := by
      rw [← zpow_add₀ (by norm_num : (2 : ℚ) ≠ 0)]; congr 1; ring
    linarith
  by_cases hk : (0 : Int) ≤ (a : Int) - b
  · simp only [hk, if_true]
    obtain ⟨k, hkk⟩ := Int.eq_ofNat_of_zero_le hk
    rw [hkk] at hlow hhigh ⊢
    simp only [Int.toNat_ofNat]
    by_cases ht : den * 2 ^ k ≤ num
    · simp only [ht, if_true]
      refine ⟨?_, hhigh⟩
      rw [zpow_natCast]; exact_mod_cast ht
    · simp only [ht, if_false]
      refine ⟨hlow, ?_⟩
      have : num < den * 2 ^ k := by omega
      rw [sub_add_cancel, zpow_natCast]; exact_mod_cast this
  · simp only [hk, if_false]
    have hneg : (a : Int) - b = -((-((a : Int) - b)).toNat : Int) := by omega
    generalize (-((a : Int) - b)).toNat = k at hneg
    rw [hneg] at hlow hhigh ⊢
    have hkq : (0 : ℚ) < 2 ^ k := by positivity
    by_cases ht : den ≤ num * 2 ^ k
    · simp only [ht, if_true]
      refine ⟨?_, hhigh⟩
      rw [zpow_neg, zpow_natCast, ← div_eq_mul_inv, div_le_iff₀ hkq]
      exact_mod_cast ht
    · simp only [ht, if_false]
      refine ⟨hlow, ?_⟩
      have : num * 2 ^ k < den := by omega
      rw [sub_add_cancel, zpow_neg, zpow_natCast, ← div_eq_mul_inv, lt_div_iff₀ hkq]
      exact_mod_cast this

/-- The significand `round` computes before renormalising is within one
half of the scaled value. -/
theorem F64.round_significand (num den : Nat) (hden : 0 < den) (e : Int) :
    |(((if 0 ≤ e then F64.divRoundEven num (den * 2 ^ e.toNat)
        else F64.divRoundEven (num * 2 ^ (-e).toNat) den : Nat)) : ℚ)
      - (num : ℚ) / den / 2 ^ e| ≤ 1 / 2 := by
  have hdenq : (0 : ℚ) < den := by exact_mod_cast hden
  by_cases he : 0 ≤ e
  · obtain ⟨k, rfl⟩ := Int.eq_ofNat_of_zero_le he
    simp only [he, if_true, Int.toNat_ofNat, zpow_natCast]
    have h := F64.divRoundEven_spec num (den * 2 ^ k) (by positivity)
    have hcast : ((den * 2 ^ k : Nat) : ℚ) = (den : ℚ) * 2 ^ k := by push_cast; ring
    rw [hcast] at h
    rwa [div_div]
  · have hneg : e = -((-e).toNat : Int) := by omega
    generalize (-e).toNat = k at hneg
    subst hneg
    simp only [he, if_false, zpow_neg, zpow_natCast]
    have h := F64.divRoundEven_spec (num * 2 ^ k) den hden
    have hcast : ((num * 2 ^ k : Nat) : ℚ) / den = (num : ℚ) / den / (2 ^ k)⁻¹ := by
      push_cast
      field_simp
    rwa [hcast] at h

theorem F64.round_spec (neg : Bool) (num den : Nat) (hnum : 0 < num) (hden : 0 < den) :
    (F64.round neg num den = F64.inf neg ∧ (2 : ℚ) ^ 1024 - 2 ^ 970 ≤ (num : ℚ) / den) ∨
    ∃ m e, F64.round neg num den = F64.fin neg m e ∧ m < 2 ^ 53 ∧ -1074 ≤ e ∧ e ≤ 971 ∧
      (-1074 < e → 2 ^ 52 ≤ m) ∧ |(m : ℚ) * 2 ^ e - (num : ℚ) / den| ≤ 2 ^ e / 2 := by
  have hdenq : (0 : ℚ) < den := by exact_mod_cast hden
  obtain ⟨hE1, hE2⟩ := F64.floorLog2_spec num den hnum hden
  have two_pos : ∀ z : Int, (0 : ℚ) < 2 ^ z := fun z => by positivity
  have two_ne : (2 : ℚ) ≠ 0 := by norm_num
  have hq1 : (2 : ℚ) ^ F64.floorLog2 num den ≤ (num : ℚ) / den := by
    rw [le_div_iff₀ hdenq]; linarith
  have hq2 : (num : ℚ) / den < 2 ^ (F64.floorLog2 num den + 1) := by
    rw [div_lt_iff₀ hdenq]; linarith
  simp only [F64.round, Nat.ne_of_gt hnum, if_false]
  generalize F64.floorLog2 num den = E at hq1 hq2
  have hsig := F64.round_significand num den hden (max (E - 52) (-1074))
  have hemin : (-1074 : Int) ≤ max (E - 52) (-1074) := le_max_right _ _
  have heE : E - 52 ≤ max (E - 52) (-1074) := le_max_left _ _
  have hchoice : max (E - 52) (-1074) = E - 52 ∨ max (E - 52) (-1074) = -1074 :=
    max_choice _ _
  generalize max (E - 52) (-1074) = e at hsig hemin heE hchoice ⊢
  generalize (if 0 ≤ e then F64.divRoundEven num (den * 2 ^ e.toNat)
      else F64.divRoundEven (num * 2 ^ (-e).toNat) den) = m0 at hsig ⊢
  have hpe := two_pos e
  -- the scaled value is below 2^53
  have hx53 : (num : ℚ) / den / 2 ^ e < 2 ^ 53 := by
    rw [div_lt_iff₀ hpe]
    have h1 : (2 : ℚ) ^ (E + 1) ≤ 2 ^ (53 + e) := zpow_le_zpow_right₀ (by norm_num) (by omega)
    have h2 : (2 : ℚ) ^ (53 + e) = 2 ^ 53 * 2 ^ e := by
      rw [zpow_add₀ two_ne]; norm_num
    linarith
  have hm53 : m0 ≤ 2 ^ 53 := by
    have h := (abs_le.1 hsig).2
    have : (m0 : ℚ) < 2 ^ 53 + 1 := by linarith
    have h3 : m0 < 2 ^ 53 + 1 := by exact_mod_cast this
    omega
  have herr : |(m0 : ℚ) * 2 ^ e - (num : ℚ) / den| ≤ 2 ^ e / 2 := by
    have h : (m0 : ℚ) * 2 ^ e - (num : ℚ) / den
        = ((m0 : ℚ) - (num : ℚ) / den / 2 ^ e) * 2 ^ e := by
      rw [sub_mul, div_mul_cancel₀ _ hpe.ne']
    rw [h, abs_mul, abs_of_pos hpe]
    calc |(m0 : ℚ) - (num : ℚ) / den / 2 ^ e| * 2 ^ e ≤ 1 / 2 * 2 ^ e :=
          mul_le_mul_of_nonneg_right hsig hpe.le
      _ = 2 ^ e / 2 := by ring
  have hnorm : -1074 < e → 2 ^ 52 ≤ m0 := by
    intro hsub
    have hEe : E - 52 = e := by omega
    have hx52 : (2 : ℚ) ^ 52 ≤ (num : ℚ) / den / 2 ^ e := by
      rw [le_div_iff₀ hpe]
      have h2 : (2 : ℚ) ^ 52 * 2 ^ e = 2 ^ E := by
        have : E = 52 + e := by omega
        rw [this, zpow_add₀ two_ne]; norm_num
      linarith
    have h := (abs_le.1 hsig).1
    have : (2 : ℚ) ^ 52 - 1 < m0 := by linarith
    have h3 : 2 ^ 52 - 1 < m0 := by
      have h4 : ((2 ^ 52 - 1 : Nat) : ℚ) < m0 := by
        have : ((2 ^ 52 - 1 : Nat) : ℚ) = 2 ^ 52 - 1 := by norm_num
        linarith
      exact_mod_cast h4
    omega
  by_cases hm : m0 = 2 ^ 53
  · simp only [hm, if_true]
    have hval : ((2 ^ 52 : Nat) : ℚ) * 2 ^ (e + 1) = (m0 : ℚ) * 2 ^ e := by
      rw [hm, zpow_add₀ two_ne]; push_cast; ring
    by_cases hov : 971 < e + 1
    · left
      refine ⟨by simp [hov], ?_⟩
      have h := (abs_le.1 herr).2
      have hge : (2 : ℚ) ^ (971 : Nat) ≤ 2 ^ e := by
        rw [← zpow_natCast]
        exact zpow_le_zpow_right₀ (by norm_num) (by omega)
      have hm0 : (m0 : ℚ) = 2 ^ 53 := by rw [hm]; norm_num
      rw [hm0] at h
      have h1024 : (2 : ℚ) ^ 1024 = 2 ^ 53 * 2 ^ 971 := by norm_num
      have h970 : (2 : ℚ) ^ 970 = 2 ^ 971 / 2 := by norm_num
      rw [h1024, h970]
      nlinarith
    · right
      refine ⟨2 ^ 52, e + 1, by simp [hov], by norm_num, by omega, by omega,
        fun _ => le_refl _, ?_⟩
      rw [hval]
      have hle : (2 : ℚ) ^ e / 2 ≤ 2 ^ (e + 1) / 2 := by
        rw [zpow_add₀ two_ne]; linarith
      exact le_trans herr hle
  · simp only [hm, if_false]
    have hlt : m0 < 2 ^ 53 := by omega
    by_cases hov : 971 < e
    · left
      refine ⟨by simp [hov], ?_⟩
      have hE : E = 52 + e := by omega
      have hge : (2 : ℚ) ^ (1024 : Nat) ≤ 2 ^ E := by
        rw [← zpow_natCast]
        exact zpow_le_zpow_right₀ (by norm_num) (by omega)
      have h970 : (0 : ℚ) < 2 ^ 970 := by positivity
      linarith
    · right
      exact ⟨m0, e, by simp [hov], hlt, hemin, by omega, hnorm, herr⟩

/-- The model of `*` on finite Numbers is the exact product rounded to
a nearest binary64 number: a zero when a factor is zero, otherwise
either an overflow to infinity (the exact product is at least
`2^1024 - 2^970`) or a number with a significand below `2^53`, an exponent
between -1074 and 971 (normalised above -1074) and at most half a unit in
the last place away from the exact product. -/
theorem F64.mul_spec (n1 n2 : Bool) (m1 m2 : Nat) (e1 e2 : Int) :
    (m1 * m2 = 0 → F64.mul (F64.fin n1 m1 e1) (F64.fin n2 m2 e2) = F64.fin (xor n1 n2) 0 0) ∧
    (m1 * m2 ≠ 0 →
      (F64.mul (F64.fin n1 m1 e1) (F64.fin n2 m2 e2) = F64.inf (xor n1 n2) ∧
        (2 : ℚ) ^ 1024 - 2 ^ 970 ≤ ((m1 : ℚ) * 2 ^ e1) * ((m2 : ℚ) * 2 ^ e2)) ∨
      ∃ m e, F64.mul (F64.fin n1 m1 e1) (F64.fin n2 m2 e2) = F64.fin (xor n1 n2) m e ∧
        m < 2 ^ 53 ∧ -1074 ≤ e ∧ e ≤ 971 ∧ (-1074 < e → 2 ^ 52 ≤ m) ∧
        |(m : ℚ) * 2 ^ e - ((m1 : ℚ) * 2 ^ e1) * ((m2 : ℚ) * 2 ^ e2)| ≤ 2 ^ e / 2) := by
  have two_ne : (2 : ℚ) ≠ 0 := by norm_num
  constructor
  · intro h0
    by_cases he : 0 ≤ e1 + e2
    · simp [F64.mul, he, F64.round, h0]
    · simp [F64.mul, he, F64.round, h0]
  · intro hne
    have hpos : 0 < m1 * m2 := Nat.pos_of_ne_zero hne
    by_cases he : 0 ≤ e1 + e2
    · obtain ⟨k, hk⟩ := Int.eq_ofNat_of_zero_le he
      have hexact : ((m1 * m2 * 2 ^ k : Nat) : ℚ) / ((1 : Nat) : ℚ)
          = ((m1 : ℚ) * 2 ^ e1) * ((m2 : ℚ) * 2 ^ e2) := by
        have : (2 : ℚ) ^ e1 * 2 ^ e2 = 2 ^ k := by
          rw [← zpow_add₀ two_ne, hk, zpow_natCast]
        push_cast
        rw [div_one]
        calc (m1 : ℚ) * m2 * 2 ^ k = (m1 : ℚ) * m2 * (2 ^ e1 * 2 ^ e2) := by rw [this]
          _ = _ := by ring
      have hmul : F64.mul (F64.fin n1 m1 e1) (F64.fin n2 m2 e2)
          = F64.round (xor n1 n2) (m1 * m2 * 2 ^ k) 1 := by
        simp [F64.mul, he, hk]
      rw [hmul, ← hexact]
      exact F64.round_spec (xor n1 n2) (m1 * m2 * 2 ^ k) 1 (by positivity) (by norm_num)
    · have hneg : e1 + e2 = -((-(e1 + e2)).toNat : Int) := by omega
      generalize hkdef : (-(e1 + e2)).toNat = k at hneg
      have hexact : ((m1 * m2 : Nat) : ℚ) / ((2 ^ k : Nat) : ℚ)
          = ((m1 : ℚ) * 2 ^ e1) * ((m2 : ℚ) * 2 ^ e2) := by
        have : (2 : ℚ) ^ e1 * 2 ^ e2 = (2 ^ k)⁻¹ := by
          rw [← zpow_add₀ two_ne, hneg, zpow_neg, zpow_natCast]
        push_cast
        rw [div_eq_mul_inv]
        calc (m1 : ℚ) * m2 * (2 ^ k)⁻¹ = (m1 : ℚ) * m2 * (2 ^ e1 * 2 ^ e2) := by rw [this]
          _ = _ := by ring
      have hmul : F64.mul (F64.fin n1 m1 e1) (F64.fin n2 m2 e2)
          = F64.round (xor n1 n2) (m1 * m2) (2 ^ k) := by
        simp only [F64.mul, he, if_false, hkdef]
      rw [hmul, ← hexact]
      exact F64.round_spec (xor n1 n2) (m1 * m2) (2 ^ k) hpos (by positivity)

/-! ## Purchase cost (C10) -/

/-- The integer `toFixed` prints is the floor of the scaled value plus one half. -/
theorem F64.scaledNearest_spec (f m : Nat) (e : Int) :
    ((F64.scaledNearest f m e : Nat) : ℚ) ≤ 10 ^ f * ((m : ℚ) * 2 ^ e) + 1 / 2 ∧
    10 ^ f * ((m : ℚ) * 2 ^ e) + 1 / 2 < (F64.scaledNearest f m e : Nat) + 1 := by
  unfold F64.scaledNearest
  by_cases he : 0 ≤ e
  · obtain ⟨k, rfl⟩ := Int.eq_ofNat_of_zero_le he
    simp only [he, if_true, Int.toNat_ofNat, zpow_natCast]
    push_cast
    constructor <;> nlinarith [show (0 : ℚ) ≤ 1 from by norm_num]
  · have hneg : e = -((-e).toNat : Int) := by omega
    generalize (-e).toNat = k at hneg
    subst hneg
    simp only [he, if_false, zpow_neg, zpow_natCast]
    have hd : (0 : ℚ) < 2 ^ (k + 1) := by positivity
    have hk : (0 : ℚ) < 2 ^ k := by positivity
    have hval : (10 : ℚ) ^ f * ((m : ℚ) * (2 ^ k)⁻¹) + 1 / 2
        = ((2 * (m * 10 ^ f) + 2 ^ k : Nat) : ℚ) / 2 ^ (k + 1) := by
      push_cast
      field_simp
      ring
    rw [hval]
    have hdn : 0 < 2 ^ (k + 1) := by positivity
    constructor
    · rw [le_div_iff₀ hd]
      have := Nat.div_mul_le_self (2 * (m * 10 ^ f) + 2 ^ k) (2 ^ (k + 1))
      exact_mod_cast this
    · rw [div_lt_iff₀ hd]
      have h2 := Nat.lt_mul_div_succ (2 * (m * 10 ^ f) + 2 ^ k) hdn
      have h3 : 2 * (m * 10 ^ f) + 2 ^ k
          < ((2 * (m * 10 ^ f) + 2 ^ k) / 2 ^ (k + 1) + 1) * 2 ^ (k + 1) :=
        lt_of_lt_of_eq h2 (Nat.mul_comm _ _)
      exact_mod_cast h3

theorem F64.atLeastTenPow21_eq_false_iff (m : Nat) (e : Int) :
    F64.atLeastTenPow21 m e = false ↔ (m : ℚ) * 2 ^ e < 10 ^ 21 := by
  unfold F64.atLeastTenPow21
  by_cases he : 0 ≤ e
  · obtain ⟨k, rfl⟩ := Int.eq_ofNat_of_zero_le he
    simp only [he, if_true, Int.toNat_ofNat, zpow_natCast, decide_eq_false_iff_not, not_le]
    constructor
    · intro h; exact_mod_cast h
    · intro h; exact_mod_cast h
  · have hneg : e = -((-e).toNat : Int) := by omega
    generalize (-e).toNat = k at hneg
    subst hneg
    have hk : (0 : ℚ) < 2 ^ k := by positivity
    simp only [he, if_false, zpow_neg, zpow_natCast, decide_eq_false_iff_not, not_le]
    rw [← div_eq_mul_inv, div_lt_iff₀ hk]
    constructor
    · intro h; exact_mod_cast h
    · intro h; exact_mod_cast h

set_option maxRecDepth 100000 in
/-- The double product of the literals 1.2345 and 1000 is 1234.5. -/
theorem F64.mul_sample :
    F64.ofDecimal 12345 4 = F64.fin false 5559693739988877 (-52) ∧
    F64.ofDecimal 1000 0 = F64.fin false 8796093022208000 (-43) ∧
    F64.mul (F64.ofDecimal 12345 4) (F64.ofDecimal 1000 0)
      = F64.fin false 5429388417957888 (-42) := by decide

/-- C10, as amended.  The purchase cost printed for a holding is
`toFixed(2)` of the double-precision product `cost_price * shares`
(`F64.mul`, the exact product rounded to nearest, see `F64.mul_spec`).
Whenever that product is finite, `(-1)^neg * m * 2^e`, and below `10^21`
in magnitude, the text is the sign, the decimal digits of `n / 100`, a
point and exactly two digits, where `n` is the integer nearest to one
hundred times the magnitude of the product (the larger one on a tie).
In particular the literals 1.2345 and 1000 print as 1234.50. -/
theorem purchaseCost_two_decimals (env : Env) (c s : F64) :
    (∀ (neg : Bool) (m : Nat) (e : Int), F64.mul c s = F64.fin neg m e →
      (m : ℚ) * 2 ^ e < 10 ^ 21 →
      FundManagerApp.purchaseCost env c s
        = (if neg && m != 0 then "-" else "") ++ Nat.repr (F64.scaledNearest 2 m e / 100) ++
            ("." ++ String.mk [F64.digitChar (F64.scaledNearest 2 m e / 10),
              F64.digitChar (F64.scaledNearest 2 m e)]) ∧
      ((F64.scaledNearest 2 m e : Nat) : ℚ) ≤ 100 * ((m : ℚ) * 2 ^ e) + 1 / 2 ∧
      100 * ((m : ℚ) * 2 ^ e) + 1 / 2 < (F64.scaledNearest 2 m e : Nat) + 1) ∧
    FundManagerApp.purchaseCost env (F64.ofDecimal 12345 4) (F64.ofDecimal 1000 0)
      = "1234.50" := by
  constructor
  · intro neg m e hProd hSmall
    have hbig := (F64.atLeastTenPow21_eq_false_iff m e).2 hSmall
    have hspec := F64.scaledNearest_spec 2 m e
    refine ⟨?_, by simpa using hspec.1, by simpa using hspec.2⟩
    simp [FundManagerApp.purchaseCost, hProd, F64.toFixed, hbig, F64.fractionDigits,
      List.range_succ]
  · have hProd := F64.mul_sample.2.2
    have hbig : F64.atLeastTenPow21 5429388417957888 (-42) = false := by decide
    have hn : F64.scaledNearest 2 5429388417957888 (-42) = 123450 := by decide
    have hstr : Nat.repr (123450 / 10 ^ 2) ++ ("." ++ String.mk (F64.fractionDigits 2 123450))
        = "1234.50" := by decide
    simp only [FundManagerApp.purchaseCost, hProd, F64.toFixed, hbig, hn]
    simpa using hstr

set_option maxRecDepth 100000 in
/-- C10 at the holding 0.1 x 3, whose double product is
0.30000000000000004. -/
theorem purchaseCost_two_decimals_witness :
    FundManagerApp.purchaseCost sampleEnv (F64.ofDecimal 1 1) (F64.ofDecimal 3 0) = "0.30" :=
  ((purchaseCost_two_decimals sampleEnv (F64.ofDecimal 1 1) (F64.ofDecimal 3 0)).1
    false 5404319552844596 (-54) (by decide) (by norm_num)).1.trans (by decide)

set_option maxRecDepth 100000 in
set_option exponentiation.threshold 4000 in
/-- C10 as stated fails in two ways.  The holding with cost price 1e200
and shares 1e200 (both finite) prints as "Infinity", the double product
having overflowed.  The holding with cost price 0.9999999999999998 and
shares 0.12500000000000003 prints as "0.13" although the exact product of
the two Numbers is below 0.125, so that rounded to two places it is
0.12: the double product is exactly 0.125, which `toFixed` rounds up. -/
theorem purchaseCost_not_exact_rounding :
    F64.ofDecimal (10 ^ 200) 0 = F64.fin false 5883593420661338 612 ∧
    FundManagerApp.purchaseCost sampleEnv (F64.ofDecimal (10 ^ 200) 0)
      (F64.ofDecimal (10 ^ 200) 0) = "Infinity" ∧
    F64.ofDecimal 9999999999999998 16 = F64.fin false 9007199254740990 (-53) ∧
    F64.ofDecimal 12500000000000003 17 = F64.fin false 4503599627370497 (-55) ∧
    (9007199254740990 * 4503599627370497 : Nat) < 2 ^ 108 / 8 ∧
    FundManagerApp.purchaseCost sampleEnv (F64.ofDecimal 9999999999999998 16)
      (F64.ofDecimal 12500000000000003 17) = "0.13" := by
  decide

/-! ## Captions of the summary (C11) -/

theorem F64.lengthNumber_five :
    FundManagerApp.lengthNumber 5 = F64.fin false 5629499534213120 (-50) := by decide

theorem F64.lengthNumber_six :
    FundManagerApp.lengthNumber 6 = F64.fin false 6755399441055744 (-50) := by decide

/-- Rounding a positive value that is at most `n * (1 - 2^-53)`, for `n`
between 4 and 6, gives a finite number below `n`. -/
theorem F64.round_lt (num den : Nat) (hnum : 0 < num) (hden : 0 < den) (n : ℚ)
    (hn4 : 4 < n) (hn6 : n ≤ 6) (hx : (num : ℚ) / den ≤ n * (1 - 1 / 2 ^ 53)) :
    ∃ m e, F64.round false num den = F64.fin false m e ∧ (m : ℚ) * 2 ^ e < n := by
  have two_ne : (2 : ℚ) ≠ 0 := by norm_num
  rcases F64.round_spec false num den hnum hden with ⟨_, hbig⟩ | ⟨m, e, hr, hm, he1, he2, hnorm, herr⟩
  · exfalso
    have h1 : (2 : ℚ) ^ 1024 - 2 ^ 970 ≤ 6 := by
      have : n * (1 - 1 / 2 ^ 53) ≤ 6 := by nlinarith
      linarith
    norm_num at h1
  · refine ⟨m, e, hr, ?_⟩
    by_contra hge
    push_neg at hge
    have hpe : (0 : ℚ) < 2 ^ e := by positivity
    have hmq : (m : ℚ) < 2 ^ 53 := by exact_mod_cast hm
    have hlow := (abs_le.1 herr).2
    rcases lt_trichotomy e (-50) with hlt | heq | hgt
    · -- the value is below 4
      have h1 : (2 : ℚ) ^ e ≤ 2 ^ (-51 : Int) := zpow_le_zpow_right₀ (by norm_num) (by omega)
      have h2 : (m : ℚ) * 2 ^ e < 2 ^ 53 * 2 ^ (-51 : Int) := by
        calc (m : ℚ) * 2 ^ e ≤ m * 2 ^ (-51 : Int) := by
              apply mul_le_mul_of_nonneg_left h1; positivity
          _ < 2 ^ 53 * 2 ^ (-51 : Int) := by
              apply mul_lt_mul_of_pos_right hmq; positivity
      have h3 : (2 : ℚ) ^ 53 * 2 ^ (-51 : Int) = 4 := by norm_num
      linarith
    · subst heq
      have h51 : (2 : ℚ) ^ (-50 : Int) / 2 = 1 / 2 ^ 51 := by norm_num
      rw [h51] at hlow
      have h4 : (1 : ℚ) / 2 ^ 51 = 4 * (1 / 2 ^ 53) := by norm_num
      have h5 : (4 : ℚ) * (1 / 2 ^ 53) < n * (1 / 2 ^ 53) := by
        apply mul_lt_mul_of_pos_right hn4; positivity
      have h6 : n * (1 - 1 / 2 ^ 53) = n - n * (1 / 2 ^ 53) := by ring
      rw [h6] at hx
      rw [h4] at hlow
      generalize (m : ℚ) * 2 ^ (-50 : Int) = V at hge hlow
      generalize (num : ℚ) / den = x at hx hlow
      generalize n * (1 / 2 ^ 53) = c at hx h5
      generalize (4 : ℚ) * (1 / 2 ^ 53) = d at hlow h5
      linarith
    · have hm52 : (2 : ℚ) ^ 52 ≤ m := by exact_mod_cast hnorm (by omega)
      have h1 : (2 : ℚ) ^ (-49 : Int) ≤ 2 ^ e := zpow_le_zpow_right₀ (by norm_num) (by omega)
      have h2 : (2 : ℚ) ^ (-49 : Int) * (2 ^ 52 - 1 / 2) ≤ (m : ℚ) * 2 ^ e - 2 ^ e / 2 := by
        have : (m : ℚ) * 2 ^ e - 2 ^ e / 2 = 2 ^ e * (m - 1 / 2) := by ring
        rw [this]
        apply mul_le_mul h1 (by linarith) (by norm_num) hpe.le
      have h3 : (2 : ℚ) ^ (-49 : Int) * (2 ^ 52 - 1 / 2) = 8 - 1 / 2 ^ 50 := by norm_num
      have h4 : n * (1 - 1 / 2 ^ 53) < 8 - 1 / 2 ^ 50 := by
        have : n * (1 - 1 / 2 ^ 53) ≤ 6 := by nlinarith
        have : (6 : ℚ) < 8 - 1 / 2 ^ 50 := by norm_num
        linarith
      linarith

/-- A value of `Math.random()` is at most `1 - 2^-53`. -/
theorem F64.isRandomValue_le (m : Nat) (e : Int)
    (hr : (F64.fin false m e).isRandomValue = true) :
    (m : ℚ) * 2 ^ e ≤ 1 - 1 / 2 ^ 53 ∧ (m ≠ 0 → e < 0) := by
  simp only [F64.isRandomValue, Bool.and_eq_true, decide_eq_true_eq] at hr
  obtain ⟨⟨hm, he⟩, hv⟩ := hr
  by_cases h0 : 0 ≤ e
  · simp only [h0, if_true, beq_iff_eq] at hv
    subst hv
    refine ⟨by norm_num, fun h => absurd rfl h⟩
  · simp only [h0, if_false, decide_eq_true_eq] at hv
    refine ⟨?_, fun _ => by omega⟩
    have hneg : e = -((-e).toNat : Int) := by omega
    generalize (-e).toNat = k at hneg hv
    subst hneg
    rw [zpow_neg, zpow_natCast]
    have hk : (0 : ℚ) < 2 ^ k := by positivity
    rw [← div_eq_mul_inv, div_le_iff₀ hk]
    by_cases hk53 : k ≤ 53
    · have h1 : m + 1 ≤ 2 ^ k := hv
      have h1q : (m : ℚ) + 1 ≤ 2 ^ k := by exact_mod_cast h1
      have h2 : (2 : ℚ) ^ k ≤ 2 ^ 53 := pow_le_pow_right₀ (by norm_num) hk53
      have h3 : (1 : ℚ) / 2 ^ 53 * 2 ^ k ≤ 1 := by
        rw [div_mul_eq_mul_div, one_mul, div_le_one (by positivity)]
        exact h2
      nlinarith
    · have hmq : (m : ℚ) < 2 ^ 53 := by exact_mod_cast hm
      have h2 : (2 : ℚ) ^ 54 ≤ 2 ^ k := pow_le_pow_right₀ (by norm_num) (by omega)
      have h3 : (2 : ℚ) ^ 53 ≤ (1 - 1 / 2 ^ 53) * 2 ^ 54 := by norm_num
      have h4 : (1 - 1 / 2 ^ 53) * (2 : ℚ) ^ 54 ≤ (1 - 1 / 2 ^ 53) * 2 ^ k :=
        mul_le_mul_of_nonneg_left h2 (by norm_num)
      linarith

/-- The index `Math.floor(Math.random() * n)` is below `n`, for `n` five or six. -/
theorem F64.randomIndex_lt (random : F64) (hr : random.isRandomValue = true) (n : Nat)
    (hn : n = 5 ∨ n = 6) :
    ∃ i, (F64.mul random (FundManagerApp.lengthNumber n)).floorIndex = some i ∧ i < n := by
  obtain ⟨M, hM, hMn⟩ : ∃ M : Nat, FundManagerApp.lengthNumber n = F64.fin false M (-50) ∧
      (M : ℚ) = n * 2 ^ 50 := by
    rcases hn with rfl | rfl
    · exact ⟨_, F64.lengthNumber_five, by norm_num⟩
    · exact ⟨_, F64.lengthNumber_six, by norm_num⟩
  have hnq : (4 : ℚ) < n ∧ (n : ℚ) ≤ 6 := by
    rcases hn with rfl | rfl <;> norm_num
  have hMpos : 0 < M := by
    have : (0 : ℚ) < M := by rw [hMn]; rcases hn with rfl | rfl <;> norm_num
    exact_mod_cast this
  rw [hM]
  match random, hr with
  | F64.fin false m e, hr =>
    obtain ⟨hle, hneg⟩ := F64.isRandomValue_le m e hr
    by_cases hm0 : m = 0
    · subst hm0
      have := (F64.mul_spec false false 0 M e (-50)).1 (by simp)
      rw [this]
      refine ⟨0, by simp [F64.floorIndex], by rcases hn with rfl | rfl <;> norm_num⟩
    · have he : e < 0 := hneg hm0
      have hsum : ¬ (0 ≤ e + -50) := by omega
      have hmul : F64.mul (F64.fin false m e) (F64.fin false M (-50))
          = F64.round false (m * M) (2 ^ (-(e + -50)).toNat) := by
        simp only [F64.mul, hsum, if_false, Bool.xor_false]
      have hk : e + -50 = -((-(e + -50)).toNat : Int) := by omega
      generalize (-(e + -50)).toNat = k at hmul hk
      have hexact : ((m * M : Nat) : ℚ) / ((2 ^ k : Nat) : ℚ) = (m : ℚ) * 2 ^ e * n := by
        have h2 : (2 : ℚ) ^ e * 2 ^ (-50 : Int) = (2 ^ k)⁻¹ := by
          rw [← zpow_add₀ (by norm_num : (2 : ℚ) ≠ 0), hk, zpow_neg, zpow_natCast]
        have h50 : (2 : ℚ) ^ (-50 : Int) * 2 ^ 50 = 1 := by norm_num
        push_cast
        rw [hMn, div_eq_mul_inv, ← h2]
        calc (m : ℚ) * (n * 2 ^ 50) * (2 ^ e * 2 ^ (-50 : Int))
            = (m : ℚ) * 2 ^ e * n * (2 ^ (-50 : Int) * 2 ^ 50) := by ring
          _ = (m : ℚ) * 2 ^ e * n := by rw [h50, mul_one]
      have hx : ((m * M : Nat) : ℚ) / ((2 ^ k : Nat) : ℚ) ≤ (n : ℚ) * (1 - 1 / 2 ^ 53) := by
        rw [hexact, mul_comm]
        exact mul_le_mul_of_nonneg_left hle (by linarith)
      obtain ⟨m', e', hround, hV⟩ := F64.round_lt (m * M) (2 ^ k)
        (Nat.mul_pos (Nat.pos_of_ne_zero hm0) hMpos) (by positivity) (n : ℚ) hnq.1 hnq.2 hx
      rw [hmul, hround]
      simp only [F64.floorIndex, Bool.false_and, Bool.false_eq_true, if_false]
      refine ⟨_, rfl, ?_⟩
      by_cases he' : 0 ≤ e'
      · obtain ⟨j, rfl⟩ := Int.eq_ofNat_of_zero_le he'
        simp only [he', if_true, Int.toNat_ofNat]
        rw [zpow_natCast] at hV
        exact_mod_cast hV
      · simp only [he', if_false]
        have hj : e' = -((-e').toNat : Int) := by omega
        generalize (-e').toNat = j at hj
        rw [hj, zpow_neg, zpow_natCast, ← div_eq_mul_inv,
          div_lt_iff₀ (by positivity : (0 : ℚ) < 2 ^ j)] at hV
        have hV' : m' < n * 2 ^ j := by exact_mod_cast hV
        exact (Nat.div_lt_iff_lt_mul (by positivity)).2 hV'

/-- The element `list[Math.floor(Math.random() * list.length)]` of a list
of five or six elements is one of its elements. -/
theorem FundManagerApp.randomElement_mem (list : List String) (random : F64)
    (hr : random.isRandomValue = true) (hlen : list.length = 5 ∨ list.length = 6) :
    ∃ s, s ∈ list ∧ FundManagerApp.randomElement list random = some s := by
  obtain ⟨i, hi, hlt⟩ := F64.randomIndex_lt random hr list.length hlen
  refine ⟨list.get ⟨i, hlt⟩, List.get_mem _ _ _, ?_⟩
  simp only [FundManagerApp.randomElement, hi]
  exact List.get?_eq_get hlt

theorem FundManagerApp.greetings_disjoint :
    ∀ s, s ∈ FundManagerApp.positiveGreetings → s ∉ FundManagerApp.negativeGreetings := by
  have h : FundManagerApp.positiveGreetings.all
      (fun s => !FundManagerApp.negativeGreetings.contains s) = true := by decide
  intro s hs hn
  have := List.all_eq_true.1 h s hs
  simp only [Bool.not_eq_true', List.contains_eq_any_beq, List.any_eq_false, beq_iff_eq] at this
  exact this s hn rfl

/-- A falsy value is not below zero. -/
theorem FundManagerApp.toNumber_falsy (env : Env) (v : JsVal) (hv : v.truthy = false) :
    (FundManagerApp.toNumber env v).ltZero = false := by
  cases v with
  | undefined => rfl
  | null => rfl
  | bool b => cases b <;> simp_all [JsVal.truthy, FundManagerApp.toNumber, F64.ltZero]
  | num x =>
    cases x with
    | nan => rfl
    | inf neg => simp [JsVal.truthy] at hv
    | fin neg m e =>
      simp only [JsVal.truthy, bne_eq_false_iff_eq] at hv
      simp [FundManagerApp.toNumber, F64.ltZero, hv]
  | str s =>
    have hs : s = "" := by simpa [JsVal.truthy] using hv
    simp [FundManagerApp.toNumber, hs, F64.ltZero]
  | arr items => simp [JsVal.truthy] at hv
  | obj fields => simp [JsVal.truthy] at hv

theorem F64.geZero_of_ltZero (x : F64) (h : x.ltZero = true) : x.geZero = false := by
  cases x with
  | nan => simp [F64.ltZero] at h
  | inf neg => simp_all [F64.ltZero, F64.geZero]
  | fin neg m e =>
    simp only [F64.ltZero, Bool.and_eq_true, bne_iff_ne] at h
    simp [F64.geZero, h.1, h.2]

/-- C11.  For every summary object and every value `Math.random()` can
return, the caption `displayPortfolioSummary` picks is an element of the
six negative captions when `today_revenue < 0`, and an element of the
five positive captions when `today_revenue >= 0` or the field is missing;
so it is never `undefined`, and as the two lists share no caption it is
never from the other list. -/
theorem greetingText_in_bucket (env : Env) (fields : List (String × JsVal)) (random : F64)
    (hr : random.isRandomValue = true) :
    ((FundManagerApp.toNumber env ((JsVal.obj fields).getProp "today_revenue")).ltZero = true →
      ∃ s, s ∈ FundManagerApp.negativeGreetings ∧
        FundManagerApp.greetingText env (JsVal.obj fields) random = some s) ∧
    ((FundManagerApp.toNumber env ((JsVal.obj fields).getProp "today_revenue")).geZero = true ∨
        (JsVal.obj fields).getProp "today_revenue" = JsVal.undefined →
      ∃ s, s ∈ FundManagerApp.positiveGreetings ∧
        FundManagerApp.greetingText env (JsVal.obj fields) random = some s) ∧
    (∃ s, FundManagerApp.greetingText env (JsVal.obj fields) random = some s) ∧
    FundManagerApp.positiveGreetings.length = 5 ∧
    FundManagerApp.negativeGreetings.length = 6 ∧
    (∀ s, s ∈ FundManagerApp.positiveGreetings → s ∉ FundManagerApp.negativeGreetings) := by
  have hpos := FundManagerApp.randomElement_mem FundManagerApp.positiveGreetings random hr
    (Or.inl rfl)
  have hneg := FundManagerApp.randomElement_mem FundManagerApp.negativeGreetings random hr
    (Or.inr rfl)
  generalize hv : (JsVal.obj fields).getProp "today_revenue" = v
  have hrev : FundManagerApp.todayRevenue (JsVal.obj fields)
      = if v.truthy then v else JsVal.num (F64.fin false 0 0) := by
    simp only [FundManagerApp.todayRevenue, hv]
  refine ⟨fun hlt => ?_, fun hge => ?_, ?_, rfl, rfl, FundManagerApp.greetings_disjoint⟩
  · have htr : v.truthy = true := by
      by_contra hf
      have := FundManagerApp.toNumber_falsy env v (by simpa using hf)
      rw [this] at hlt
      exact absurd hlt (by decide)
    have hnp : FundManagerApp.isPositive env (JsVal.obj fields) = false := by
      simp only [FundManagerApp.isPositive, hrev, htr, if_true]
      exact F64.geZero_of_ltZero _ hlt
    simpa only [FundManagerApp.greetingText, hnp, Bool.false_eq_true, if_false] using hneg
  · have hp : FundManagerApp.isPositive env (JsVal.obj fields) = true := by
      simp only [FundManagerApp.isPositive, hrev]
      by_cases htr : v.truthy = true
      · simp only [htr, if_true]
        rcases hge with hge | hge
        · exact hge
        · rw [hge] at htr; simp [JsVal.truthy] at htr
      · simp only [htr, if_false]
        rfl
    simpa only [FundManagerApp.greetingText, hp, if_true] using hpos
  · by_cases hp : FundManagerApp.isPositive env (JsVal.obj fields) = true
    · obtain ⟨s, _, hs⟩ := hpos
      exact ⟨s, by simpa only [FundManagerApp.greetingText, hp, if_true] using hs⟩
    · obtain ⟨s, _, hs⟩ := hneg
      exact ⟨s, by simpa only [FundManagerApp.greetingText, hp, if_false] using hs⟩

set_option maxRecDepth 100000 in
/-- C11 at a summary with `today_revenue = -5` and the draw 0.5: the
fourth negative caption. -/
theorem greetingText_in_bucket_witness :
    ∃ s, s ∈ FundManagerApp.negativeGreetings ∧
      FundManagerApp.greetingText sampleEnv
        (JsVal.obj [("today_revenue", JsVal.num (F64.fin true 5629499534213120 (-50)))])
        (F64.fin false 4503599627370496 (-53)) = some s :=
  (greetingText_in_bucket sampleEnv
    [("today_revenue", JsVal.num (F64.fin true 5629499534213120 (-50)))]
    (F64.fin false 4503599627370496 (-53)) (by decide)).1 (by decide)

/-! ## Modals and the trend chart (C12, C15, C16) -/

theorem liveCharts_append_one (log : List Event) (e : Event) :
    liveCharts (log ++ [e]) = match e with
      | Event.createChart id _ _ _ _ => liveCharts log ++ [id]
      | Event.destroyChart id => (liveCharts log).filter (fun c => c != id)
      | _ => liveCharts log := by
  simp only [liveCharts, List.foldl_append, List.foldl_cons, List.foldl_nil]

theorem newChartId_append_destroy (log : List Event) (c : Nat) :
    FundManagerApp.newChartId (log ++ [Event.destroyChart c]) = FundManagerApp.newChartId log := by
  simp [FundManagerApp.newChartId, List.filter_append]

theorem newChartId_append_create (log : List Event) (id : Nat) (title : String)
    (labels navData growthData : List JsVal) :
    FundManagerApp.newChartId (log ++ [Event.createChart id title labels navData growthData])
      = FundManagerApp.newChartId log + 1 := by
  simp [FundManagerApp.newChartId, List.filter_append]

/-- When every live chart instance is the one in the slot, destroying
the one in the slot leaves none alive. -/
theorem liveCharts_after_destroy (app : FundManagerApp)
    (hInv : ∀ c, c ∈ liveCharts app.log → app.chart = some c) :
    liveCharts (match app.chart with
      | some c => app.log ++ [Event.destroyChart c]
      | none => app.log) = [] := by
  cases hc : app.chart with
  | none =>
    simp only
    cases hl : liveCharts app.log with
    | nil => rfl
    | cons c cs =>
      have := hInv c (by rw [hl]; exact List.mem_cons_self _ _)
      rw [hc] at this
      exact absurd this (by simp)
  | some c =>
    simp only [liveCharts_append_one]
    rw [List.filter_eq_nil_iff]
    intro d hd
    have := hInv d hd
    rw [hc] at this
    simp [Option.some.inj this]

/-- C16.  After `closeModal`, for any modal kind: the selected fund and
the chart slot are null; the trace gains exactly one `destroy` of the
instance that was in the slot, and nothing when the slot was empty;
closing the kind `chart` hides and empties the chart container and
leaves the normal container as it was, closing any other kind empties the
normal container and leaves the chart container as it was.  When every
live chart instance was the one in the slot, none is alive afterwards. -/
theorem closeModal_spec (app : FundManagerApp) (modalType : String) :
    (app.closeModal modalType).selectedFund = none ∧
    (app.closeModal modalType).chart = none ∧
    (app.closeModal modalType).log = app.log ++ (match app.chart with
      | some c => [Event.destroyChart c]
      | none => []) ∧
    (modalType = "chart" →
      (app.closeModal modalType).chartModalContainer = app.chartModalContainer.map
        (fun c => { c with display := "none", shown := false, innerHTML := "" }) ∧
      (app.closeModal modalType).modalContainer = app.modalContainer) ∧
    (modalType ≠ "chart" →
      (app.closeModal modalType).modalContainer = app.modalContainer.map
        (fun c => { c with innerHTML := "" }) ∧
      (app.closeModal modalType).chartModalContainer = app.chartModalContainer) ∧
    ((∀ c, c ∈ liveCharts app.log → app.chart = some c) →
      liveCharts (app.closeModal modalType).log = []) := by
  have hlog : (app.closeModal modalType).log = app.log ++ (match app.chart with
      | some c => [Event.destroyChart c]
      | none => []) := by
    unfold FundManagerApp.closeModal
    by_cases hm : modalType = "chart" <;> cases hc : app.chart <;> simp [hm, hc]
  refine ⟨?_, ?_, hlog, ?_, ?_, ?_⟩
  · unfold FundManagerApp.closeModal
    by_cases hm : modalType = "chart" <;> cases hc : app.chart <;> simp [hm, hc]
  · unfold FundManagerApp.closeModal
    by_cases hm : modalType = "chart" <;> cases hc : app.chart <;> simp [hm, hc]
  · intro hm
    unfold FundManagerApp.closeModal
    cases hc : app.chart <;> simp [hm, hc]
  · intro hm
    unfold FundManagerApp.closeModal
    cases hc : app.chart <;> simp [hm, hc]
  · intro hInv
    rw [hlog]
    have := liveCharts_after_destroy app hInv
    cases hc : app.chart with
    | none => simpa [hc] using this
    | some c => simpa [hc] using this

/-- C16 at a page with the trend modal open over chart instance 0. -/
theorem closeModal_spec_witness :
    liveCharts (FundManagerApp.closeModal
      { storage := ⟨[]⟩, chart := some 0, selectedFund := some ("000001", "华夏成长混合"),
        chartModalContainer := some { display := "block", shown := true, innerHTML := "x" },
        modalContainer := some { innerHTML := "y" },
        log := [Event.createChart 0 "t" [] [] []] } "chart").log = [] :=
  (closeModal_spec
    { storage := ⟨[]⟩, chart := some 0, selectedFund := some ("000001", "华夏成长混合"),
      chartModalContainer := some { display := "block", shown := true, innerHTML := "x" },
      modalContainer := some { innerHTML := "y" },
      log := [Event.createChart 0 "t" [] [] []] } "chart").2.2.2.2.2
    (by
      intro c hc
      have h0 : c = 0 := by simpa [liveCharts] using hc
      rw [h0])

/-- One successful rendering: the instance in the slot is destroyed,
then a new one is constructed and put in the slot. -/
theorem FundManagerApp.renderTrendChart_success (app : FundManagerApp)
    (fundCode fundName : String) (dates navValues growthValues : List JsVal)
    (hasContainer : Bool) :
    (app.renderTrendChart fundCode fundName dates navValues growthValues true none
        hasContainer).chart
      = some (FundManagerApp.newChartId app.log) ∧
    (app.renderTrendChart fundCode fundName dates navValues growthValues true none
        hasContainer).log
      = app.log ++ (match app.chart with
          | some c => [Event.destroyChart c]
          | none => []) ++
        [Event.createChart (FundManagerApp.newChartId app.log)
          (fundName ++ " (" ++ fundCode ++ ") 净值走势") dates navValues growthValues] := by
  unfold FundManagerApp.renderTrendChart
  cases hc : app.chart with
  | none => simp [hc]
  | some c => simp [hc, FundManagerApp.emit, newChartId_append_destroy]

/-- C15.  Two successive renderings with the canvas present and the
construction succeeding, whether or not the page has an element for the
fallback text: the trace gains, in this order, the destruction
of the instance that was in the slot (if any), the construction of a first
instance, its destruction, the construction of a second instance.  The
second instance is another one than the first and is the one in the slot;
when beforehand every live instance was the one in the slot, it is the only
instance alive afterwards. -/
theorem renderTrendChart_twice (app : FundManagerApp) (code1 name1 code2 name2 : String)
    (dates1 navs1 growth1 dates2 navs2 growth2 : List JsVal) (container1 container2 : Bool) :
    ((app.renderTrendChart code1 name1 dates1 navs1 growth1 true none
        container1).renderTrendChart code2 name2 dates2 navs2 growth2 true none container2).log
      = app.log ++ (match app.chart with
          | some c => [Event.destroyChart c]
          | none => []) ++
        [Event.createChart (FundManagerApp.newChartId app.log)
            (name1 ++ " (" ++ code1 ++ ") 净值走势") dates1 navs1 growth1,
          Event.destroyChart (FundManagerApp.newChartId app.log),
          Event.createChart (FundManagerApp.newChartId app.log + 1)
            (name2 ++ " (" ++ code2 ++ ") 净值走势") dates2 navs2 growth2] ∧
    ((app.renderTrendChart code1 name1 dates1 navs1 growth1 true none
        container1).renderTrendChart code2 name2 dates2 navs2 growth2 true none container2).chart
      = some (FundManagerApp.newChartId app.log + 1) ∧
    ((∀ c, c ∈ liveCharts app.log → app.chart = some c) →
      liveCharts ((app.renderTrendChart code1 name1 dates1 navs1 growth1 true none
        container1).renderTrendChart code2 name2 dates2 navs2 growth2 true none container2).log
        = [FundManagerApp.newChartId app.log + 1]) := by
  obtain ⟨hc1, hl1⟩ := FundManagerApp.renderTrendChart_success app code1 name1 dates1 navs1 growth1
    container1
  obtain ⟨hc2, hl2⟩ := FundManagerApp.renderTrendChart_success
    (app.renderTrendChart code1 name1 dates1 navs1 growth1 true none container1)
    code2 name2 dates2 navs2 growth2 container2
  have hid : FundManagerApp.newChartId
      (app.renderTrendChart code1 name1 dates1 navs1 growth1 true none container1).log
      = FundManagerApp.newChartId app.log + 1 := by
    rw [hl1, newChartId_append_create]
    cases app.chart with
    | none => simp
    | some c => simp [newChartId_append_destroy]
  have hlog : ((app.renderTrendChart code1 name1 dates1 navs1 growth1 true none
        container1).renderTrendChart code2 name2 dates2 navs2 growth2 true none container2).log
      = app.log ++ (match app.chart with
          | some c => [Event.destroyChart c]
          | none => []) ++
        [Event.createChart (FundManagerApp.newChartId app.log)
            (name1 ++ " (" ++ code1 ++ ") 净值走势") dates1 navs1 growth1,
          Event.destroyChart (FundManagerApp.newChartId app.log),
          Event.createChart (FundManagerApp.newChartId app.log + 1)
            (name2 ++ " (" ++ code2 ++ ") 净值走势") dates2 navs2 growth2] := by
    rw [hl2, hc1, hid, hl1]
    simp
  refine ⟨hlog, by rw [hc2, hid], fun hInv => ?_⟩
  rw [hlog]
  have h0 := liveCharts_after_destroy app hInv
  have hsplit : ∀ (l : List Event) (a b c : Event), l ++ [a, b, c] = ((l ++ [a]) ++ [b]) ++ [c] := by
    intro l a b c; simp
  have h0' : liveCharts (app.log ++ (match app.chart with
      | some c => [Event.destroyChart c]
      | none => [])) = [] := by
    cases hc : app.chart with
    | none => simpa [hc] using h0
    | some c => simpa [hc] using h0
  rw [hsplit, liveCharts_append_one, liveCharts_append_one, liveCharts_append_one, h0']
  simp

/-- C15 at a freshly loaded page: instances 0 and 1 are constructed, 0
is destroyed in between, 1 is alive. -/
theorem renderTrendChart_twice_witness :
    liveCharts (((samplePage (some "tok")).renderTrendChart "000001" "a" [] [] [] true
      none true).renderTrendChart "000002" "b" [] [] [] true none true).log = [0 + 1] :=
  (renderTrendChart_twice (samplePage (some "tok")) "000001" "a" "000002" "b" [] [] [] [] [] []
    true true).2.2
    (by intro c hc; simp [liveCharts, samplePage] at hc)

/-- A value with an array among its properties is an object, hence truthy. -/
theorem JsVal.truthy_of_getProp_arr {v : JsVal} {k : String} {l : List JsVal}
    (h : v.getProp k = JsVal.arr l) : v.truthy = true := by
  cases v <;> simp [JsVal.getProp] at h
  rfl

/-- C12.  Let the fund with the code asked for be in the current summary
and let its `recent_changes` be a non-empty array `r`.  When no record of
`r` makes the method throw, `showFundTrendModal` opens the chart modal and
hands `renderTrendChart`, 100 ms later, the `date`, `unit_nav` and
`daily_growth_value` fields of the reversal of `r`: each series is as long
as `r` and position `i` of all three comes from the one record
`r[len(r)-1-i]`; a successful rendering passes them on unchanged as labels
and datasets of the chart.  When a record makes it throw, nothing is handed
over. -/
theorem showFundTrendModal_series (env : Env) (app : FundManagerApp) (fundCode fundName : String)
    (funds : List JsVal) (fund : JsVal) (r : List JsVal)
    (hSummary : app.currentPortfolioSummary.getProp "fund_details" = JsVal.arr funds)
    (hFund : FundManagerApp.findFund env fundCode funds = .ok (some fund))
    (hRecent : fund.getProp "recent_changes" = JsVal.arr r)
    (hNonEmpty : r ≠ []) :
    (FundManagerApp.trendRecordsError env r = none →
      app.showFundTrendModal env fundCode fundName
        = ((app.showModal (env.trendModalHTML fundName fundCode r) "chart").emit
            [Event.setTimeout (Callback.renderTrendChart fundCode fundName
              (r.reverse.map (fun item => item.getProp "date"))
              (r.reverse.map (fun item => item.getProp "unit_nav"))
              (r.reverse.map (fun item => item.getProp "daily_growth_value"))) 100], none)) ∧
    (∀ e, FundManagerApp.trendRecordsError env r = some e →
      app.showFundTrendModal env fundCode fundName = (app, some e)) ∧
    (r.reverse.map (fun item => item.getProp "date")).length = r.length ∧
    (r.reverse.map (fun item => item.getProp "unit_nav")).length = r.length ∧
    (r.reverse.map (fun item => item.getProp "daily_growth_value")).length = r.length ∧
    (∀ i, i < r.length → ∃ item, r[r.length - 1 - i]? = some item ∧
      (r.reverse.map (fun item => item.getProp "date"))[i]? = some (item.getProp "date") ∧
      (r.reverse.map (fun item => item.getProp "unit_nav"))[i]?
        = some (item.getProp "unit_nav") ∧
      (r.reverse.map (fun item => item.getProp "daily_growth_value"))[i]?
        = some (item.getProp "daily_growth_value")) ∧
    (∀ (page : FundManagerApp) (hasContainer : Bool),
      (page.renderTrendChart fundCode fundName
        (r.reverse.map (fun item => item.getProp "date"))
        (r.reverse.map (fun item => item.getProp "unit_nav"))
        (r.reverse.map (fun item => item.getProp "daily_growth_value")) true none
        hasContainer).log
      = page.log ++ (match page.chart with
          | some c => [Event.destroyChart c]
          | none => []) ++
        [Event.createChart (FundManagerApp.newChartId page.log)
          (fundName ++ " (" ++ fundCode ++ ") 净值走势")
          (r.reverse.map (fun item => item.getProp "date"))
          (r.reverse.map (fun item => item.getProp "unit_nav"))
          (r.reverse.map (fun item => item.getProp "daily_growth_value"))]) := by
  have hT : app.currentPortfolioSummary.truthy = true := JsVal.truthy_of_getProp_arr hSummary
  obtain ⟨x, xs, rfl⟩ := List.exists_cons_of_ne_nil hNonEmpty
  have hA : ∀ l : List JsVal, (JsVal.arr l).truthy = true := fun _ => rfl
  refine ⟨?_, ?_, by simp, by simp, by simp, ?_, ?_⟩
  · intro hErr
    unfold FundManagerApp.showFundTrendModal
    simp only [hT, hSummary, hFund, hRecent, hErr, hA, Bool.not_true,
      Bool.false_eq_true, if_false, List.map_reverse]
  · intro e hErr
    unfold FundManagerApp.showFundTrendModal
    simp only [hT, hSummary, hFund, hRecent, hErr, hA, Bool.not_true,
      Bool.false_eq_true, if_false]
  · intro i hi
    have hlt : (x :: xs).length - 1 - i < (x :: xs).length := by omega
    refine ⟨(x :: xs)[(x :: xs).length - 1 - i], List.getElem?_eq_getElem hlt, ?_, ?_, ?_⟩ <;>
    · rw [List.getElem?_map, List.getElem?_reverse hi, List.getElem?_eq_getElem hlt]
      rfl
  · intro page hasContainer
    exact (FundManagerApp.renderTrendChart_success page fundCode fundName _ _ _ hasContainer).2

/-- C12 on a fund with the records of two days: the older one comes
first in what is handed over. -/
theorem showFundTrendModal_series_witness :
    sampleTrendPage.showFundTrendModal sampleEnv "000001" "a"
      = ((sampleTrendPage.showModal
            (sampleEnv.trendModalHTML "a" "000001" sampleTrendRecords) "chart").emit
          [Event.setTimeout (Callback.renderTrendChart "000001" "a"
            (sampleTrendRecords.reverse.map (fun item => item.getProp "date"))
            (sampleTrendRecords.reverse.map (fun item => item.getProp "unit_nav"))
            (sampleTrendRecords.reverse.map (fun item => item.getProp "daily_growth_value")))
            100], none) :=
  (showFundTrendModal_series sampleEnv sampleTrendPage "000001" "a" [sampleTrendFund]
    sampleTrendFund sampleTrendRecords rfl rfl rfl (by simp [sampleTrendRecords])).1 rfl

/-! ## Debounced search (C13, C14) -/

theorem FundSearch.tidy_initial (searchResults : SearchResults) :
    (FundSearch.initial searchResults).Tidy = true := rfl

theorem FundSearch.tidy_iff (box : FundSearch) :
    box.Tidy = true ↔
      (box.timers = [] ∨ ∃ t, box.timers = [t] ∧ box.searchTimeout = some t.id) := by
  unfold FundSearch.Tidy
  rcases hl : box.timers with _ | ⟨t, _ | ⟨u, rest⟩⟩ <;> simp

theorem FundSearch.tidy_pending (box : FundSearch) (h : box.Tidy = true) :
    (match box.searchTimeout with
      | some id => box.timers.filter (fun t => t.id != id)
      | none => box.timers) = [] := by
  rcases (FundSearch.tidy_iff box).1 h with h | ⟨t, ht, hs⟩
  · rw [h]; cases box.searchTimeout <;> rfl
  · rw [ht, hs]; simp

/-- The listener leaves no timer but the one it arms. -/
theorem FundSearch.onInput_tidy (box : FundSearch) (h : box.Tidy = true) (now : Nat)
    (value : String) :
    (box.onInput now value).timers
      = (if jsLength (jsTrim value) < 2 then []
        else [{ id := box.nextTimerId, due := now + 300, keyword := jsTrim value }]) ∧
    (box.onInput now value).invoked = box.invoked ∧
    (box.onInput now value).Tidy = true := by
  have hp := FundSearch.tidy_pending box h
  by_cases hk : jsLength (jsTrim value) < 2
  · have e : box.onInput now value
        = { box with timers := [], searchResults := { innerHTML := "", shown := false } } := by
      unfold FundSearch.onInput
      simp only [hp, hk, if_true]
    rw [e, if_pos hk]
    exact ⟨rfl, rfl, rfl⟩
  · have e : box.onInput now value
        = { box with
            timers := [{ id := box.nextTimerId, due := now + 300, keyword := jsTrim value }]
            searchTimeout := some box.nextTimerId
            nextTimerId := box.nextTimerId + 1 } := by
      unfold FundSearch.onInput
      simp only [hp, hk, if_false, List.nil_append]
    rw [e, if_neg hk]
    refine ⟨rfl, rfl, ?_⟩
    simp [FundSearch.Tidy]

theorem FundSearch.advance_tidy (box : FundSearch) (h : box.Tidy = true) (now : Nat) :
    (box.advance now).Tidy = true := by
  rw [FundSearch.tidy_iff] at h ⊢
  rcases h with h | ⟨t, ht, hs⟩
  · left; simp [FundSearch.advance, h]
  · by_cases hd : now < t.due
    · right; exact ⟨t, by simp [FundSearch.advance, ht, hd], hs⟩
    · left; simp [FundSearch.advance, ht, hd]

theorem FundSearch.handle_tidy (box : FundSearch) (h : box.Tidy = true) (event : Nat × String) :
    (box.handle event).Tidy = true :=
  (FundSearch.onInput_tidy _ (FundSearch.advance_tidy box h event.1) event.1 event.2).2.2

theorem FundSearch.run_tidy (events : List (Nat × String)) (box : FundSearch)
    (h : box.Tidy = true) : (box.run events).Tidy = true := by
  induction events generalizing box with
  | nil => exact h
  | cons e es ih => exact ih _ (FundSearch.handle_tidy box h e)

/-- With nothing pending, the passing of time calls nothing. -/
theorem FundSearch.advance_of_no_timer (box : FundSearch) (h : box.timers = []) (now : Nat) :
    box.advance now = box := by
  obtain ⟨a, b, c, d, e⟩ := box
  simp only at h
  subst h
  simp [FundSearch.advance]

/-- C13.  At any state the search box can be in (after any sequence of
earlier input events), an input event whose trimmed value has fewer than 2
characters (`length`, UTF-16 code units) leaves no timer pending: none is
armed and the one that was pending is cancelled; the listener itself calls
`searchFunds` for nothing, nor does the passing of time afterwards; the
result list has empty content and is without the class `show`. -/
theorem short_keyword_cancels_search (searchResults : SearchResults)
    (earlier : List (Nat × String)) (now : Nat) (value : String) (later : Nat)
    (hShort : jsLength (jsTrim value) < 2) :
    (((FundSearch.initial searchResults).run earlier).handle (now, value)).timers = [] ∧
    (((FundSearch.initial searchResults).run earlier).handle (now, value)).invoked
      = (((FundSearch.initial searchResults).run earlier).advance now).invoked ∧
    ((((FundSearch.initial searchResults).run earlier).handle (now, value)).advance later).invoked
      = (((FundSearch.initial searchResults).run earlier).advance now).invoked ∧
    (((FundSearch.initial searchResults).run earlier).handle (now, value)).searchResults
      = { innerHTML := "", shown := false } := by
  have hT := FundSearch.advance_tidy _
    (FundSearch.run_tidy earlier _ (FundSearch.tidy_initial searchResults)) now
  obtain ⟨h1, h2, _⟩ := FundSearch.onInput_tidy _ hT now value
  simp only [hShort, if_true] at h1
  have h1' : (((FundSearch.initial searchResults).run earlier).handle (now, value)).timers = [] := h1
  refine ⟨h1', h2, ?_, ?_⟩
  · rw [FundSearch.advance_of_no_timer _ h1']
    exact h2
  · simp only [FundSearch.handle, FundSearch.onInput, hShort, if_true]

/-- C13 on a box where the search for `ab` is pending: typing a single
`a` 100 ms later cancels it, and nothing is called even a second later. -/
theorem short_keyword_cancels_search_witness :
    (((FundSearch.initial { innerHTML := "x", shown := true }).run [(0, "ab")]).handle
        (100, " a ")).timers = [] ∧
    ((((FundSearch.initial { innerHTML := "x", shown := true }).run [(0, "ab")]).handle
        (100, " a ")).advance 1100).invoked = [] ∧
    (((FundSearch.initial { innerHTML := "x", shown := true }).run [(0, "ab")]).handle
        (100, " a ")).searchResults = { innerHTML := "", shown := false } :=
  have h := short_keyword_cancels_search { innerHTML := "x", shown := true } [(0, "ab")] 100
    " a " 1100 (by decide)
  ⟨h.1, h.2.2.1.trans (by decide), h.2.2.2⟩

/-- While no pending timer is due, the passing of time changes nothing. -/
theorem FundSearch.advance_of_not_due (box : FundSearch) (now : Nat)
    (h : ∀ t ∈ box.timers, now < t.due) : box.advance now = box := by
  obtain ⟨a, timers, c, d, invoked⟩ := box
  simp only at h
  have h1 : timers.filter (fun t => decide (now < t.due)) = timers :=
    List.filter_eq_self.2 (fun t ht => by simpa using h t ht)
  have h2 : timers.filter (fun t => decide (t.due ≤ now)) = [] :=
    List.filter_eq_nil_iff.2 (fun t ht => by simpa using h t ht)
  simp [FundSearch.advance, h1, h2]

/-- A burst of input events, each less than 300 ms after the one before:
after the listener ran for the first of them, the rest of the burst calls
nothing, and what is pending at its end is the timer of its last event. -/
theorem FundSearch.run_burst (rest : List (Nat × String)) (box : FundSearch)
    (hTidy : box.Tidy = true) (t : Nat) (v : String)
    (hGaps : List.Chain (fun a b => a.1 ≤ b.1 ∧ b.1 < a.1 + 300) (t, v) rest) :
    ((box.onInput t v).run rest).invoked = box.invoked ∧
    ((box.onInput t v).run rest).timers.map (fun tm => (tm.due, tm.keyword))
      = (if jsLength (jsTrim (((t, v) :: rest).getLast (List.cons_ne_nil _ _)).2) < 2 then []
        else [((((t, v) :: rest).getLast (List.cons_ne_nil _ _)).1 + 300,
          jsTrim (((t, v) :: rest).getLast (List.cons_ne_nil _ _)).2)]) := by
  induction rest generalizing box t v with
  | nil =>
    obtain ⟨h1, h2, _⟩ := FundSearch.onInput_tidy box hTidy t v
    refine ⟨h2, ?_⟩
    show (box.onInput t v).timers.map _ = _
    rw [h1]
    simp only [List.getLast_singleton]
    split <;> rfl
  | cons e es ih =>
    obtain ⟨t', v'⟩ := e
    obtain ⟨h1, h2, h3⟩ := FundSearch.onInput_tidy box hTidy t v
    rw [List.chain_cons] at hGaps
    obtain ⟨⟨_, hlt⟩, hrest⟩ := hGaps
    simp only at hlt
    have hnd : ∀ tm ∈ (box.onInput t v).timers, t' < tm.due := by
      intro tm htm
      rw [h1] at htm
      split at htm
      · simp at htm
      · simp only [List.mem_singleton] at htm
        rw [htm]
        exact hlt
    have hadv := FundSearch.advance_of_not_due (box.onInput t v) t' hnd
    have hstep : (box.onInput t v).run ((t', v') :: es)
        = ((box.onInput t v).onInput t' v').run es := by
      show (((box.onInput t v).advance t').onInput t' v').run es = _
      rw [hadv]
    rw [hstep]
    obtain ⟨i1, i2⟩ := ih (box.onInput t v) h3 t' v' hrest
    refine ⟨i1.trans h2, ?_⟩
    rw [i2, List.getLast_cons (List.cons_ne_nil _ _)]

/-- C14.  At any state the search box can be in, let a sequence of input
events arrive in which each event comes less than 300 ms after the one
before (and not before it).  Up to any time `later`, `searchFunds` is
called by this sequence at most once: the calls
made are those made before the first event reached the listener, followed
by one call at 300 ms after the last event with that event's trimmed
keyword if `later` has reached that time and the keyword has at least 2
characters (`length`), and by nothing otherwise.  So no timer armed by an
earlier event of the sequence ever fires. -/
theorem debounce_burst (searchResults : SearchResults) (earlier : List (Nat × String))
    (t : Nat) (v : String) (rest : List (Nat × String)) (later : Nat)
    (hGaps : List.Chain (fun a b => a.1 ≤ b.1 ∧ b.1 < a.1 + 300) (t, v) rest) :
    ((((FundSearch.initial searchResults).run earlier).run ((t, v) :: rest)).advance later).invoked
      = (((FundSearch.initial searchResults).run earlier).advance t).invoked ++
        (if (((t, v) :: rest).getLast (List.cons_ne_nil _ _)).1 + 300 ≤ later ∧
            2 ≤ jsLength (jsTrim (((t, v) :: rest).getLast (List.cons_ne_nil _ _)).2)
          then [((((t, v) :: rest).getLast (List.cons_ne_nil _ _)).1 + 300,
            jsTrim (((t, v) :: rest).getLast (List.cons_ne_nil _ _)).2)]
          else []) := by
  have hT := FundSearch.advance_tidy _
    (FundSearch.run_tidy earlier _ (FundSearch.tidy_initial searchResults)) t
  obtain ⟨h1, h2⟩ := FundSearch.run_burst rest _ hT t v hGaps
  have hrun : ((FundSearch.initial searchResults).run earlier).run ((t, v) :: rest)
      = ((((FundSearch.initial searchResults).run earlier).advance t).onInput t v).run rest := rfl
  rw [hrun]
  generalize ((((FundSearch.initial searchResults).run earlier).advance t).onInput t v).run rest
    = final at h1 h2
  generalize ((t, v) :: rest).getLast (List.cons_ne_nil _ _) = last at h2 ⊢
  have hinv : (final.advance later).invoked = final.invoked ++
      ((final.timers.map (fun tm => (tm.due, tm.keyword))).filter
        (fun p => decide (p.1 ≤ later))) := by
    simp [FundSearch.advance, List.filter_map, Function.comp_def]
  rw [hinv, h1, h2]
  congr 1
  by_cases hk : jsLength (jsTrim last.2) < 2
  · have hk' : ¬ 2 ≤ jsLength (jsTrim last.2) := by omega
    simp [hk, hk']
  · have hk' : 2 ≤ jsLength (jsTrim last.2) := by omega
    by_cases hd : last.1 + 300 ≤ later
    · simp [hk, hk', hd]
    · simp [hk, hk', hd]

/-- C14 on three keystrokes 100 ms apart: one call, for the last text,
300 ms after the last keystroke. -/
theorem debounce_burst_witness :
    ((((FundSearch.initial {}).run []).run [(0, "a"), (100, "ab"), (200, "abc ")]).advance
      1000).invoked = [(500, "abc")] :=
  (debounce_burst {} [] 0 "a" [(100, "ab"), (200, "abc ")] 1000 (by simp)).trans
    (by decide)

/-! ## Search results and the local list (C17, C18) -/

theorem includesChars_subset (needle : List Char) (hay : List Char)
    (h : includesChars needle hay = true) : ∀ c ∈ needle, c ∈ hay := by
  induction hay with
  | nil =>
    simp only [includesChars, List.isEmpty_iff] at h
    simp [h]
  | cons x xs ih =>
    simp only [includesChars, Bool.or_eq_true] at h
    rcases h with h | h
    · exact fun c hc => (List.isPrefixOf_iff_prefix.1 h).subset hc
    · exact fun c hc => List.mem_cons_of_mem _ (ih h c hc)

/-- A string of digits includes no string that has another character. -/
theorem jsIncludes_digits_eq_false (s t : String) (hs : ∀ c ∈ s.data, c.isDigit = true)
    (ht : ∃ c ∈ t.data, c.isDigit = false) : jsIncludes s t = false := by
  obtain ⟨c, hc, hd⟩ := ht
  by_contra h
  have := hs c (includesChars_subset t.data s.data (by simpa [jsIncludes] using h) c hc)
  rw [this] at hd
  exact absurd hd (by decide)

/-- On a code of digits, containment does not depend on case. -/
theorem jsIncludes_code (env : Env) (code keyword : String)
    (hDigits : ∀ s : String, (∀ c ∈ s.data, c.isDigit = true) → env.toLowerCase s = s)
    (hOther : ∀ s : String, (∃ c ∈ s.data, c.isDigit = false) →
      ∃ c ∈ (env.toLowerCase s).data, c.isDigit = false)
    (hcode : ∀ c ∈ code.data, c.isDigit = true) :
    jsIncludes code keyword = jsIncludes (env.toLowerCase code) (env.toLowerCase keyword) := by
  rw [hDigits code hcode]
  by_cases hk : ∀ c ∈ keyword.data, c.isDigit = true
  · rw [hDigits keyword hk]
  · have hk' : ∃ c ∈ keyword.data, c.isDigit = false := by
      push_neg at hk
      obtain ⟨c, hc, hd⟩ := hk
      exact ⟨c, hc, by simpa using hd⟩
    rw [jsIncludes_digits_eq_false code keyword hcode hk',
      jsIncludes_digits_eq_false code _ hcode (hOther keyword hk')]

theorem FundManagerApp.localFundMatches_eq (env : Env) (keyword : String)
    (hDigits : ∀ s : String, (∀ c ∈ s.data, c.isDigit = true) → env.toLowerCase s = s)
    (hOther : ∀ s : String, (∃ c ∈ s.data, c.isDigit = false) →
      ∃ c ∈ (env.toLowerCase s).data, c.isDigit = false) :
    FundManagerApp.localFunds.filter (FundManagerApp.localFundMatches env keyword)
      = FundManagerApp.localFunds.filter (containsIgnoringCase env keyword) := by
  apply List.filter_congr
  intro fund hfund
  simp only [FundManagerApp.localFunds, List.mem_cons, List.mem_singleton, List.not_mem_nil,
    or_false] at hfund
  rcases hfund with rfl | rfl | rfl | rfl | rfl
  · show (_ || jsIncludes "000001" keyword) = (_ || jsIncludes (env.toLowerCase "000001") _)
    rw [jsIncludes_code env "000001" keyword hDigits hOther (by decide)]
  · show (_ || jsIncludes "000002" keyword) = (_ || jsIncludes (env.toLowerCase "000002") _)
    rw [jsIncludes_code env "000002" keyword hDigits hOther (by decide)]
  · show (_ || jsIncludes "000003" keyword) = (_ || jsIncludes (env.toLowerCase "000003") _)
    rw [jsIncludes_code env "000003" keyword hDigits hOther (by decide)]
  · show (_ || jsIncludes "110011" keyword) = (_ || jsIncludes (env.toLowerCase "110011") _)
    rw [jsIncludes_code env "110011" keyword hDigits hOther (by decide)]
  · show (_ || jsIncludes "161725" keyword) = (_ || jsIncludes (env.toLowerCase "161725") _)
    rw [jsIncludes_code env "161725" keyword hDigits hOther (by decide)]

theorem FundManagerApp.localFunds_filter_not_nullish (p : JsVal → Bool) :
    (FundManagerApp.localFunds.filter p).any (fun x => match x with
      | JsVal.null => true
      | JsVal.undefined => true
      | _ => false) = false := by
  rw [List.any_eq_false]
  intro x hx
  have hx := List.mem_of_mem_filter hx
  simp only [FundManagerApp.localFunds, List.mem_cons, List.mem_singleton, List.not_mem_nil,
    or_false] at hx
  rcases hx with rfl | rfl | rfl | rfl | rfl <;> simp

/-- C17.  Let the page have the result list and the search box, and let
lower-casing leave every string of digits as it is and turn no string with
a character other than a digit into a string of digits.  For a non-empty
keyword let `shown` be the entries of the five-fund list whose name or
code contains the keyword when both sides are lower-cased, in the order of
that list.  When `shown` is not empty, `displayLocalCacheResults` writes
the markup of the entries of `shown`, in this order, followed by the note
on the local source, and shows the list; when it is empty, the list holds
the "not found" message alone. -/
theorem displayLocalCacheResults_spec (env : Env) (app : FundManagerApp) (sr : SearchResults)
    (keyword : String)
    (hPage : app.searchResults = some sr) (hKeyword : keyword ≠ "")
    (hDigits : ∀ s : String, (∀ c ∈ s.data, c.isDigit = true) → env.toLowerCase s = s)
    (hOther : ∀ s : String, (∃ c ∈ s.data, c.isDigit = false) →
      ∃ c ∈ (env.toLowerCase s).data, c.isDigit = false) :
    (FundManagerApp.localFunds.filter (containsIgnoringCase env keyword) ≠ [] →
      app.displayLocalCacheResults env true keyword
        = .ok { app with
            searchResults := some
              { innerHTML := String.join ((FundManagerApp.localFunds.filter
                    (containsIgnoringCase env keyword)).map (FundManagerApp.searchItemHTML env))
                  ++ "<div class=\"search-note\">使用本地缓存数据</div>",
                shown := true } }) ∧
    (FundManagerApp.localFunds.filter (containsIgnoringCase env keyword) = [] →
      app.displayLocalCacheResults env true keyword
        = .ok { app with
            searchResults := some
              { sr with innerHTML := "<div class=\"search-empty\">未找到相关基金</div>" } }) ∧
    (FundManagerApp.localFunds.filter (containsIgnoringCase env keyword)).Sublist
      FundManagerApp.localFunds := by
  have hEq := FundManagerApp.localFundMatches_eq env keyword hDigits hOther
  have hk : (keyword != "") = true := by simpa using hKeyword
  refine ⟨fun hne => ?_, fun hnil => ?_, List.filter_sublist _⟩
  · have hne' : (FundManagerApp.localFunds.filter (containsIgnoringCase env keyword)).isEmpty
        = false := by
      cases h : FundManagerApp.localFunds.filter (containsIgnoringCase env keyword) with
      | nil => exact absurd h hne
      | cons _ _ => rfl
    have hnn := FundManagerApp.localFunds_filter_not_nullish (containsIgnoringCase env keyword)
    simp only [FundManagerApp.displayLocalCacheResults, FundManagerApp.displaySearchResults,
      hPage, hEq, hk, hne', hnn, Bool.not_false, Bool.not_true, Bool.and_true,
      Bool.false_eq_true, if_true, if_false, Option.map_some']
  · simp only [FundManagerApp.displayLocalCacheResults, hPage, hEq, hnil, List.isEmpty_nil,
      Bool.not_true, Bool.and_false, Bool.false_eq_true, if_false]

theorem Char.toLower_of_isDigit (c : Char) (h : c.isDigit = true) : c.toLower = c := by
  simp only [Char.isDigit, Bool.and_eq_true, decide_eq_true_eq] at h
  have h2 : c.toNat ≤ 57 := h.2
  simp only [Char.toLower]
  rw [if_neg (by omega)]

theorem Char.toLower_not_isDigit (c : Char) (h : c.isDigit = false) :
    c.toLower.isDigit = false := by
  simp only [Char.toLower]
  split
  · next hu =>
    have hv : ∀ n : Nat, 65 ≤ n → n ≤ 90 → (Char.ofNat (n + 32)).isDigit = false := by
      intro n h1 h2
      interval_cases n <;> rfl
    exact hv _ hu.1 hu.2
  · exact h

/-- Lower-casing of the letters A-Z is as C17 asks. -/
theorem sampleEnv_toLowerCase :
    (∀ s : String, (∀ c ∈ s.data, c.isDigit = true) → sampleEnv.toLowerCase s = s) ∧
    (∀ s : String, (∃ c ∈ s.data, c.isDigit = false) →
      ∃ c ∈ (sampleEnv.toLowerCase s).data, c.isDigit = false) := by
  constructor
  · intro s hs
    show String.mk (s.data.map Char.toLower) = s
    have : s.data.map Char.toLower = s.data := by
      conv_rhs => rw [← List.map_id s.data]
      exact List.map_congr_left (fun c hc => Char.toLower_of_isDigit c (hs c hc))
    rw [this]
  · rintro s ⟨c, hc, hd⟩
    refine ⟨c.toLower, ?_, Char.toLower_not_isDigit c hd⟩
    show c.toLower ∈ s.data.map Char.toLower
    exact List.mem_map_of_mem _ hc

set_option maxRecDepth 100000 in
/-- C17 for the keyword `lof`: the one fund whose name has `LOF` is
shown, then the note. -/
theorem displayLocalCacheResults_spec_witness :
    sampleSearchPage.displayLocalCacheResults sampleEnv true "lof"
      = .ok { sampleSearchPage with
          searchResults := some
            { innerHTML := String.join ((FundManagerApp.localFunds.filter
                  (containsIgnoringCase sampleEnv "lof")).map
                  (FundManagerApp.searchItemHTML sampleEnv))
                ++ "<div class=\"search-note\">使用本地缓存数据</div>",
              shown := true } } :=
  (displayLocalCacheResults_spec sampleEnv sampleSearchPage {} "lof" rfl (by decide)
    sampleEnv_toLowerCase.1 sampleEnv_toLowerCase.2).1
    (List.ne_nil_of_length_pos (by decide))

theorem localFallbacks_append (a b : List Event) :
    localFallbacks (a ++ b) = localFallbacks a ++ localFallbacks b := by
  simp [localFallbacks, List.filterMap_append]

/-- C18, as amended.  On a page with the result list, `searchFunds` calls
`displayLocalCacheResults(keyword)`, once, when the `fetch` itself throws,
when a 2xx answer has a body that is not JSON, and when showing the body of
a 2xx answer throws.  On an answer with a status outside 2xx it does not:
the list then holds the "search failed" message, and the local fund list is
not consulted. -/
theorem searchFunds_fallback (env : Env) (app : FundManagerApp) (sr : SearchResults)
    (hasSearchInput : Bool) (keyword : String) (hPage : app.searchResults = some sr) :
    (∀ error, localFallbacks (app.searchFunds env hasSearchInput keyword (.error error)).log
      = localFallbacks app.log ++ [keyword]) ∧
    (∀ response error, response.ok = true → response.body = .error error →
      localFallbacks (app.searchFunds env hasSearchInput keyword (.ok response)).log
        = localFallbacks app.log ++ [keyword]) ∧
    (∀ response data, response.ok = true → response.body = .ok data →
      FundManagerApp.searchDisplayThrows hasSearchInput data = true →
      localFallbacks (app.searchFunds env hasSearchInput keyword (.ok response)).log
        = localFallbacks app.log ++ [keyword]) ∧
    (∀ response, response.ok = false →
      localFallbacks (app.searchFunds env hasSearchInput keyword (.ok response)).log
        = localFallbacks app.log ∧
      (app.searchFunds env hasSearchInput keyword (.ok response)).searchResults
        = some { innerHTML := "<div class=\"search-error\">搜索失败，请稍后重试</div>",
                 shown := true }) := by
  refine ⟨fun error => ?_, fun response error hok hbody => ?_,
    fun response data hok hbody hthrow => ?_, fun response hok => ⟨?_, ?_⟩⟩
  · simp [FundManagerApp.searchFunds, hPage, FundManagerApp.emit, localFallbacks_append,
      localFallbacks]
  · simp [FundManagerApp.searchFunds, hPage, FundManagerApp.emit, localFallbacks_append,
      localFallbacks, hok, hbody]
  · simp [FundManagerApp.searchFunds, hPage, FundManagerApp.emit, localFallbacks_append,
      localFallbacks, hok, hbody, hthrow]
  · simp [FundManagerApp.searchFunds, hPage, FundManagerApp.emit, localFallbacks_append,
      localFallbacks, hok]
  · simp [FundManagerApp.searchFunds, hPage, FundManagerApp.emit, hok]

/-- C18 on a search the network refuses: the fallback is called with
the keyword. -/
theorem searchFunds_fallback_witness :
    localFallbacks (sampleSearchPage.searchFunds sampleEnv true "hx"
      (.error ⟨"TypeError", "Failed to fetch"⟩)).log
      = localFallbacks sampleSearchPage.log ++ ["hx"] :=
  (searchFunds_fallback sampleEnv sampleSearchPage {} true "hx" rfl).1
    ⟨"TypeError", "Failed to fetch"⟩

/-- C18 as stated fails for an answer with a status outside 2xx: a
search answered with 500 calls `displayLocalCacheResults` for nothing and
leaves the "search failed" message in the list. -/
theorem searchFunds_server_error_no_fallback :
    localFallbacks (sampleSearchPage.searchFunds sampleEnv true "hx"
      (.ok ⟨500, .ok (JsVal.obj [("detail", JsVal.str "Internal Server Error")])⟩)).log = [] ∧
    (sampleSearchPage.searchFunds sampleEnv true "hx"
      (.ok ⟨500, .ok (JsVal.obj [("detail", JsVal.str "Internal Server Error")])⟩)).searchResults
      = some { innerHTML := "<div class=\"search-error\">搜索失败，请稍后重试</div>",
               shown := true } := by
  constructor <;>
    simp [FundManagerApp.searchFunds, sampleSearchPage, samplePage, FundManagerApp.emit,
      Response.ok, localFallbacks]

/-! ## Login (C19, C20) -/

theorem Storage.getItem_setItem_self (s : Storage) (k v : String) :
    (s.setItem k v).getItem k = some v := by
  obtain ⟨items⟩ := s
  unfold Storage.setItem Storage.getItem
  by_cases h : (items.any (fun p => p.1 == k)) = true
  · simp only [h, if_true]
    induction items with
    | nil => simp at h
    | cons p ps ih =>
      by_cases hp : p.1 = k
      · simp [List.find?_cons, hp]
      · have hps : (ps.any (fun p => p.1 == k)) = true := by
          simpa [List.any_cons, hp] using h
        simpa [List.find?_cons, hp] using ih hps
  · simp only [h, Bool.false_eq_true, if_false]
    have hnone : items.find? (fun p => p.1 == k) = none := by
      rw [List.find?_eq_none]
      intro p hp hpk
      exact h (List.any_eq_true.2 ⟨p, hp, hpk⟩)
    simp [List.find?_append, hnone]

theorem Storage.find_map_set_of_ne {k k' : String} (v : String) (h : k ≠ k')
    (items : List (String × String)) :
    (items.map (fun p => if p.1 == k' then (k', v) else p)).find? (fun p => p.1 == k)
      = (items.find? (fun p => p.1 == k)).map (fun p => p) := by
  have hk : (k' == k) = false := by simpa using fun e => h e.symm
  induction items with
  | nil => rfl
  | cons p ps ih =>
    by_cases hp : (p.1 == k') = true
    · have hpk : (p.1 == k) = false := by rw [beq_iff_eq.1 hp]; exact hk
      rw [List.map_cons, if_pos hp, List.find?_cons, List.find?_cons]
      simp only [hk, hpk]
      exact ih
    · rw [List.map_cons, if_neg hp, List.find?_cons, List.find?_cons, ih]
      cases p.1 == k <;> simp

theorem Storage.getItem_setItem_of_ne (s : Storage) {k k' : String} (v : String) (h : k ≠ k') :
    (s.setItem k' v).getItem k = s.getItem k := by
  obtain ⟨items⟩ := s
  unfold Storage.setItem Storage.getItem
  have hk : (k' == k) = false := by simpa using fun e => h e.symm
  by_cases ha : (items.any (fun p => p.1 == k')) = true
  · simp only [ha, if_true]
    rw [Storage.find_map_set_of_ne v h]
    simp
  · simp only [ha, Bool.false_eq_true, if_false]
    congr 1
    rw [List.find?_append]
    cases items.find? (fun p => p.1 == k) with
    | some _ => rfl
    | none => simp [List.find?_cons, hk]

theorem errorsShown_append (a b : List Event) :
    errorsShown (a ++ b) = errorsShown a ++ errorsShown b := by
  simp [errorsShown, List.filterMap_append]

/-- The `catch` block of `handleLogin` shows one error and stores nothing. -/
theorem LoginManager.handleLoginCatch_spec (lm : LoginManager) :
    lm.handleLoginCatch.storage = lm.storage ∧
    errorsShown lm.handleLoginCatch.log
      = errorsShown lm.log ++ ["登录请求失败，请检查网络连接"] := by
  simp [LoginManager.handleLoginCatch, LoginManager.emit, errorsShown_append, errorsShown]

/-- C19.  On a login page with both input fields, a login attempt that
does not succeed (the trimmed username or the password is empty, the
`fetch` is rejected, the answer has status 401 or another status outside
2xx, or its body is not JSON) ends with the persisted store as it was,
every key with its previous value, and with exactly one inline error
shown. -/
theorem handleLogin_failure_stores_nothing (env : Env) (now : Int) (lm : LoginManager)
    (usernameValue password : String) (outcome : FetchOutcome)
    (hUser : lm.usernameInput = some usernameValue) (hPass : lm.passwordInput = some password)
    (hFail : jsTrim usernameValue = "" ∨ password = "" ∨ (∃ error, outcome = .error error) ∨
      (∃ response, outcome = .ok response ∧
        (response.status = 401 ∨ response.ok = false ∨ ∃ error, response.body = .error error))) :
    (lm.handleLogin env now outcome).storage = lm.storage ∧
    (∀ key, (lm.handleLogin env now outcome).storage.getItem key = lm.storage.getItem key) ∧
    ∃ message, errorsShown (lm.handleLogin env now outcome).log
      = errorsShown lm.log ++ [message] := by
  have key : (lm.handleLogin env now outcome).storage = lm.storage ∧
      ∃ message, errorsShown (lm.handleLogin env now outcome).log
        = errorsShown lm.log ++ [message] := by
    unfold LoginManager.handleLogin
    simp only [hUser, hPass]
    by_cases hEmpty : jsTrim usernameValue = "" ∨ password = ""
    · rw [if_pos hEmpty]
      exact ⟨rfl, "请输入用户名和密码",
        by simp [LoginManager.emit, errorsShown_append, errorsShown]⟩
    · rw [if_neg hEmpty]
      have hcatch : ∀ l : LoginManager, l.storage = lm.storage →
          errorsShown l.log = errorsShown lm.log →
          l.handleLoginCatch.storage = lm.storage ∧
          ∃ message, errorsShown l.handleLoginCatch.log = errorsShown lm.log ++ [message] := by
        intro l hs hl
        obtain ⟨h1, h2⟩ := LoginManager.handleLoginCatch_spec l
        exact ⟨h1.trans hs, _, by rw [h2, hl]⟩
      have hl1 : errorsShown (lm.emit [Event.setLoading true,
          Event.fetch (LoginManager.loginRequest env (jsTrim usernameValue) password)]).log
          = errorsShown lm.log := by
        simp [LoginManager.emit, errorsShown_append, errorsShown]
      have hl2 : errorsShown ((lm.emit [Event.setLoading true,
          Event.fetch (LoginManager.loginRequest env (jsTrim usernameValue) password)]).emit
            [Event.readBody]).log = errorsShown lm.log := by
        simp [LoginManager.emit, errorsShown_append, errorsShown]
      have hemit : ∀ (l : LoginManager), errorsShown l.log = errorsShown lm.log →
          ∀ message, errorsShown (l.emit [Event.setLoading false, Event.showError message]).log
            = errorsShown lm.log ++ [message] := by
        intro l hl message
        show errorsShown (l.log ++ _) = _
        rw [errorsShown_append, hl]
        rfl
      rcases hFail with h | h | ⟨error, rfl⟩ | ⟨response, rfl, hresp⟩
      · exact absurd (Or.inl h) hEmpty
      · exact absurd (Or.inr h) hEmpty
      · exact hcatch _ rfl hl1
      · by_cases h401 : response.status = 401
        · simp only [h401, if_true]
          exact ⟨rfl, "用户名或密码错误",
            by simp [LoginManager.emit, errorsShown_append, errorsShown]⟩
        · simp only [h401, if_false]
          rcases hb : response.body with e | d
          · exact hcatch _ rfl hl2
          · have hok : response.ok = false := by
              rcases hresp with h | h | ⟨e, he⟩
              · exact absurd h h401
              · exact h
              · rw [hb] at he; cases he
            cases d <;> simp only [hok, Bool.not_false, if_true] <;>
              first
              | exact hcatch _ rfl hl2
              | exact ⟨rfl, _, hemit _ hl2 _⟩
  exact ⟨key.1, fun k => by rw [key.1], key.2⟩

/-- C19 on a wrong password: the session stored by an earlier login
stays, one error is shown. -/
theorem handleLogin_failure_stores_nothing_witness :
    ((sampleLogin true).handleLogin sampleEnv 0 (.ok ⟨401, .ok JsVal.null⟩)).storage
      = (sampleLogin true).storage :=
  (handleLogin_failure_stores_nothing sampleEnv 0 (sampleLogin true) " amy " "pw"
    (.ok ⟨401, .ok JsVal.null⟩) rfl rfl
    (Or.inr (Or.inr (Or.inr ⟨_, rfl, Or.inl rfl⟩)))).1

/-- What `handleLogin` does on a 2xx answer whose body is a JSON value
other than `null`. -/
theorem LoginManager.handleLogin_success_eq (env : Env) (now : Int) (lm : LoginManager)
    (usernameValue password : String) (response : Response) (data : JsVal)
    (hUser : lm.usernameInput = some usernameValue) (hPass : lm.passwordInput = some password)
    (hName : jsTrim usernameValue ≠ "") (hWord : password ≠ "")
    (hOk : response.ok = true) (hBody : response.body = .ok data)
    (hNull : data ≠ JsVal.null) (hUndef : data ≠ JsVal.undefined) :
    (lm.handleLogin env now (.ok response)).storage
      = LoginManager.persistLogin env now lm.storage data (jsTrim usernameValue) password
          (match lm.rememberMeCheckbox with
            | some checked => checked
            | none => false) := by
  have h401 : response.status ≠ 401 := by
    intro h
    simp [Response.ok, h] at hOk
  have hEmpty : ¬ (jsTrim usernameValue = "" ∨ password = "") := by
    rintro (h | h)
    · exact hName h
    · exact hWord h
  unfold LoginManager.handleLogin
  simp only [hUser, hPass]
  rw [if_neg hEmpty]
  simp only [h401, if_false, hBody]
  cases data <;> first
    | exact absurd rfl hNull
    | exact absurd rfl hUndef
    | simp only [hOk, Bool.not_true, Bool.false_eq_true, if_false, LoginManager.emit]

/-- A 2xx answer whose body is the JSON value `null` (or any answer but
401 with that body): reading a property of it throws, the `catch` block
shows the error for a failed request and the store stays as it was. -/
theorem LoginManager.handleLogin_null_body (env : Env) (now : Int) (lm : LoginManager)
    (usernameValue password : String) (response : Response)
    (hUser : lm.usernameInput = some usernameValue) (hPass : lm.passwordInput = some password)
    (hName : jsTrim usernameValue ≠ "") (hWord : password ≠ "")
    (hStatus : response.status ≠ 401) (hBody : response.body = .ok JsVal.null) :
    (lm.handleLogin env now (.ok response)).storage = lm.storage ∧
    errorsShown (lm.handleLogin env now (.ok response)).log
      = errorsShown lm.log ++ ["登录请求失败，请检查网络连接"] := by
  have hEmpty : ¬ (jsTrim usernameValue = "" ∨ password = "") := by
    rintro (h | h)
    · exact hName h
    · exact hWord h
  unfold LoginManager.handleLogin
  simp only [hUser, hPass]
  rw [if_neg hEmpty]
  simp only [hStatus, if_false, hBody]
  obtain ⟨h1, h2⟩ := LoginManager.handleLoginCatch_spec
    ((lm.emit [Event.setLoading true,
      Event.fetch (LoginManager.loginRequest env (jsTrim usernameValue) password)]).emit
      [Event.readBody])
  refine ⟨h1, ?_⟩
  rw [h2]
  simp [LoginManager.emit, errorsShown_append, errorsShown]

/-- C20, as amended.  On a login page with both input fields, the
trimmed username `u` and the password `p` not empty, let the answer have a
2xx status and a JSON body `d` other than `null`.  Afterwards `authToken`
is the string form of `d.access_token` (the token itself when it is a
string), `currentUser` is the JSON encoding of the object with the one key
`username` = `u`, `last_login` is the ISO timestamp of the current time;
with remember-me checked `saved_credentials` is the JSON encoding of
`username` = `u`, `password` = `p` and `remember_me` is `true`; with it
unchecked or the box missing `saved_credentials` is absent and
`remember_me` is `false`. -/
theorem handleLogin_success_persists (env : Env) (now : Int) (lm : LoginManager)
    (usernameValue password : String) (response : Response) (data : JsVal)
    (hUser : lm.usernameInput = some usernameValue) (hPass : lm.passwordInput = some password)
    (hName : jsTrim usernameValue ≠ "") (hWord : password ≠ "")
    (hOk : response.ok = true) (hBody : response.body = .ok data)
    (hNull : data ≠ JsVal.null) (hUndef : data ≠ JsVal.undefined) :
    (lm.handleLogin env now (.ok response)).storage.getItem "authToken"
      = some (env.toStr (data.getProp "access_token")) ∧
    (∀ token, data.getProp "access_token" = JsVal.str token →
      (lm.handleLogin env now (.ok response)).storage.getItem "authToken" = some token) ∧
    (lm.handleLogin env now (.ok response)).storage.getItem "currentUser"
      = some (env.jsonStringify (JsVal.obj [("username", JsVal.str (jsTrim usernameValue))])) ∧
    (lm.handleLogin env now (.ok response)).storage.getItem "last_login"
      = some (env.toISOString now) ∧
    (lm.rememberMeCheckbox = some true →
      (lm.handleLogin env now (.ok response)).storage.getItem "saved_credentials"
        = some (env.jsonStringify (JsVal.obj [("username", JsVal.str (jsTrim usernameValue)),
            ("password", JsVal.str password)])) ∧
      (lm.handleLogin env now (.ok response)).storage.getItem "remember_me" = some "true") ∧
    (lm.rememberMeCheckbox ≠ some true →
      (lm.handleLogin env now (.ok response)).storage.getItem "saved_credentials" = none ∧
      (lm.handleLogin env now (.ok response)).storage.getItem "remember_me" = some "false") := by
  rw [LoginManager.handleLogin_success_eq env now lm usernameValue password response data
    hUser hPass hName hWord hOk hBody hNull hUndef]
  have hAuth : ∀ checked, (LoginManager.persistLogin env now lm.storage data
      (jsTrim usernameValue) password checked).getItem "authToken"
      = some (env.toStr (data.getProp "access_token")) := by
    intro checked
    cases checked
    · simp only [LoginManager.persistLogin, Bool.false_eq_true, if_false]
      rw [Storage.getItem_setItem_of_ne _ _ (by decide),
        Storage.getItem_removeItem_of_ne _ (by decide),
        Storage.getItem_setItem_of_ne _ _ (by decide),
        Storage.getItem_setItem_of_ne _ _ (by decide), Storage.getItem_setItem_self]
    · simp only [LoginManager.persistLogin, if_true]
      rw [Storage.getItem_setItem_of_ne _ _ (by decide),
        Storage.getItem_setItem_of_ne _ _ (by decide),
        Storage.getItem_setItem_of_ne _ _ (by decide),
        Storage.getItem_setItem_of_ne _ _ (by decide), Storage.getItem_setItem_self]
  refine ⟨hAuth _, fun token htoken => ?_, ?_, ?_, fun hChecked => ⟨?_, ?_⟩,
    fun hUnchecked => ?_⟩
  · rw [hAuth, htoken]
    rfl
  · generalize (match lm.rememberMeCheckbox with
      | some checked => checked
      | none => false) = checked
    cases checked
    · simp only [LoginManager.persistLogin, Bool.false_eq_true, if_false]
      rw [Storage.getItem_setItem_of_ne _ _ (by decide),
        Storage.getItem_removeItem_of_ne _ (by decide),
        Storage.getItem_setItem_of_ne _ _ (by decide), Storage.getItem_setItem_self]
    · simp only [LoginManager.persistLogin, if_true]
      rw [Storage.getItem_setItem_of_ne _ _ (by decide),
        Storage.getItem_setItem_of_ne _ _ (by decide),
        Storage.getItem_setItem_of_ne _ _ (by decide), Storage.getItem_setItem_self]
  · generalize (match lm.rememberMeCheckbox with
      | some checked => checked
      | none => false) = checked
    cases checked
    · simp only [LoginManager.persistLogin, Bool.false_eq_true, if_false]
      rw [Storage.getItem_setItem_of_ne _ _ (by decide),
        Storage.getItem_removeItem_of_ne _ (by decide), Storage.getItem_setItem_self]
    · simp only [LoginManager.persistLogin, if_true]
      rw [Storage.getItem_setItem_of_ne _ _ (by decide),
        Storage.getItem_setItem_of_ne _ _ (by decide), Storage.getItem_setItem_self]
  · simp only [hChecked, LoginManager.persistLogin, if_true]
    rw [Storage.getItem_setItem_of_ne _ _ (by decide), Storage.getItem_setItem_self]
  · simp only [hChecked, LoginManager.persistLogin, if_true]
    rw [Storage.getItem_setItem_self]
  · have hfalse : (match lm.rememberMeCheckbox with
        | some checked => checked
        | none => false) = false := by
      rcases h : lm.rememberMeCheckbox with _ | b
      · rfl
      · cases b
        · rfl
        · exact absurd h hUnchecked
    simp only [hfalse, LoginManager.persistLogin, Bool.false_eq_true, if_false]
    constructor
    · rw [Storage.getItem_setItem_of_ne _ _ (by decide), Storage.getItem_removeItem_self]
    · rw [Storage.getItem_setItem_self]

/-- C20 on a login with remember-me unchecked: the token of the answer
is stored. -/
theorem handleLogin_success_persists_witness :
    ((sampleLogin false).handleLogin sampleEnv 0
      (.ok ⟨200, .ok (JsVal.obj [("access_token", JsVal.str "new")])⟩)).storage.getItem
        "authToken" = some "new" :=
  (handleLogin_success_persists sampleEnv 0 (sampleLogin false) " amy " "pw"
    ⟨200, .ok (JsVal.obj [("access_token", JsVal.str "new")])⟩
    (JsVal.obj [("access_token", JsVal.str "new")]) rfl rfl (by decide) (by decide) rfl rfl
    (by simp) (by simp)).2.1 "new" rfl

/-- C20 as stated fails for a 2xx answer whose body is the JSON value
`null`: reading `access_token` of it throws, so the login ends in the
`catch` block; the token of the earlier login stays in the store, no login
time is stored, and the error for a failed request is shown. -/
theorem handleLogin_null_body_stores_nothing :
    ((sampleLogin false).handleLogin sampleEnv 0 (.ok ⟨200, .ok JsVal.null⟩)).storage.getItem
      "authToken" = some "old" ∧
    ((sampleLogin false).handleLogin sampleEnv 0 (.ok ⟨200, .ok JsVal.null⟩)).storage.getItem
      "last_login" = none ∧
    ((sampleLogin false).handleLogin sampleEnv 0 (.ok ⟨200, .ok JsVal.null⟩)).storage.getItem
      "remember_me" = some "true" ∧
    errorsShown ((sampleLogin false).handleLogin sampleEnv 0 (.ok ⟨200, .ok JsVal.null⟩)).log
      = ["登录请求失败，请检查网络连接"] := by
  refine ⟨?_, ?_, ?_, ?_⟩ <;> decide

/-! ## Failures of the trend chart (C22) -/

/-- C22, as amended.  When the constructor of the charting library
throws, `renderTrendChart` ends normally; the instance that was in the
slot has been destroyed and is still in the slot.  If the page has an
element of class `trend-chart-container`, the text `图表渲染失败: `
followed by the message of the exception is shown in it, once; if it has
none, no text is shown.  When the canvas is not in the page the method ends
normally as well, but nothing is shown: the state and the trace stay as
they were (the method only writes to the console). -/
theorem renderTrendChart_failure (app : FundManagerApp) (fundCode fundName : String)
    (dates navValues growthValues : List JsVal) :
    (∀ error : JsError,
      chartErrorsShown (app.renderTrendChart fundCode fundName dates navValues growthValues true
          (some error) true).log
        = chartErrorsShown app.log ++ ["图表渲染失败: " ++ error.message]) ∧
    (∀ error : JsError,
      chartErrorsShown (app.renderTrendChart fundCode fundName dates navValues growthValues true
          (some error) false).log
        = chartErrorsShown app.log) ∧
    (∀ (error : JsError) (hasContainer : Bool),
      (app.renderTrendChart fundCode fundName dates navValues growthValues true
          (some error) hasContainer).log
        = app.log ++ (match app.chart with
            | some c => [Event.destroyChart c]
            | none => []) ++
          (if hasContainer then [Event.chartError ("图表渲染失败: " ++ error.message)] else []) ∧
      (app.renderTrendChart fundCode fundName dates navValues growthValues true
          (some error) hasContainer).chart = app.chart) ∧
    (∀ (construction : Option JsError) (hasContainer : Bool),
      app.renderTrendChart fundCode fundName dates navValues growthValues false construction
        hasContainer = app) := by
  refine ⟨?_, ?_, ?_, ?_⟩
  · intro error
    unfold FundManagerApp.renderTrendChart
    cases app.chart <;>
      simp [FundManagerApp.emit, chartErrorsShown, List.filterMap_append]
  · intro error
    unfold FundManagerApp.renderTrendChart
    cases app.chart <;>
      simp [FundManagerApp.emit, chartErrorsShown, List.filterMap_append]
  · intro error hasContainer
    unfold FundManagerApp.renderTrendChart
    cases hasContainer <;> cases hc : app.chart <;> simp [FundManagerApp.emit, hc]
  · intro construction hasContainer
    simp [FundManagerApp.renderTrendChart]

/-- C22 as stated fails when the canvas is missing: on a page without
`#trendChart` a rendering shows no fallback text, whether or not the
library would throw and although the page has the element the text would
go into. -/
theorem renderTrendChart_missing_canvas_silent :
    chartErrorsShown (sampleTrendPage.renderTrendChart "000001" "a" [] [] [] false
      (some ⟨"Error", "Canvas is already in use"⟩) true).log = [] ∧
    (sampleTrendPage.renderTrendChart "000001" "a" [] [] [] false
      (some ⟨"Error", "Canvas is already in use"⟩) true).log = [] := by
  constructor <;> rfl

/-! ## The add-fund form without a selection (C24) -/

/-- C24.  When the add-fund form is submitted while no fund is selected,
the listener shows the message `请先选择基金` and does nothing else: no
request is sent, no exception escapes, and the modal containers, the
store, the token, the selection, the summary slot and the chart slot are
as they were. -/
theorem addFundSubmit_without_selection (env : Env) (app : FundManagerApp)
    (form : List (String × String)) (outcome : FetchOutcome)
    (hNone : app.selectedFund = none) :
    app.addFundSubmit env form outcome = (app.showMessage "请先选择基金" "error", none) ∧
    (app.addFundSubmit env form outcome).1.log
      = app.log ++ [Event.showMessage "请先选择基金" "error"] ∧
    requestsSent (app.addFundSubmit env form outcome).1.log = requestsSent app.log ∧
    (app.addFundSubmit env form outcome).1.modalContainer = app.modalContainer ∧
    (app.addFundSubmit env form outcome).1.chartModalContainer = app.chartModalContainer ∧
    (app.addFundSubmit env form outcome).1.storage = app.storage ∧
    (app.addFundSubmit env form outcome).1.token = app.token ∧
    (app.addFundSubmit env form outcome).1.selectedFund = none ∧
    (app.addFundSubmit env form outcome).1.currentPortfolioSummary
      = app.currentPortfolioSummary ∧
    (app.addFundSubmit env form outcome).1.chart = app.chart := by
  have h : app.addFundSubmit env form outcome = (app.showMessage "请先选择基金" "error", none) := by
    simp [FundManagerApp.addFundSubmit, hNone]
  rw [h]
  refine ⟨rfl, rfl, ?_, rfl, rfl, rfl, rfl, hNone, rfl, rfl⟩
  simp [FundManagerApp.showMessage, FundManagerApp.emit, requestsSent, List.filterMap_append]

/-- C24 on a page in use: the message, and no request. -/
theorem addFundSubmit_without_selection_witness :
    (sampleSearchPage.addFundSubmit sampleEnv [("cost_price", "1.5"), ("shares", "10")]
      (.ok ⟨200, .ok JsVal.null⟩)).1.log = sampleSearchPage.log ++
        [Event.showMessage "请先选择基金" "error"] :=
  (addFundSubmit_without_selection sampleEnv sampleSearchPage
    [("cost_price", "1.5"), ("shares", "10")] (.ok ⟨200, .ok JsVal.null⟩) rfl).2.1

/-! ## Deleting a fund (C25) -/

theorem recalculations_append (a b : List Event) :
    recalculations (a ++ b) = recalculations a + recalculations b := by
  simp [recalculations, List.filter_append]

/-- What `makeRequest` does on a 2xx answer. -/
theorem FundManagerApp.makeRequest_ok (env : Env) (app : FundManagerApp) (url : String)
    (options : Options) (response : Response) (hOk : response.ok = true) :
    app.makeRequest env url options (.ok response)
      = match response.body with
        | .ok data =>
          (app.emit [Event.fetch (FundManagerApp.buildRequest app.token url options),
            Event.readBody], .ok data)
        | .error error =>
          (if jsIncludes error.message "认证失败" then
            app.emit [Event.fetch (FundManagerApp.buildRequest app.token url options),
              Event.readBody]
          else
            app.emit [Event.fetch (FundManagerApp.buildRequest app.token url options),
              Event.readBody, Event.showMessage error.message "error"], .error error) := by
  have h401 : response.status ≠ 401 := by
    intro h
    simp [Response.ok, h] at hOk
  unfold FundManagerApp.makeRequest FundManagerApp.makeRequestTry
  rcases hb : response.body with error | data
  · by_cases hm : jsIncludes error.message "认证失败" = true
    · simp [h401, hm, hb, FundManagerApp.emit]
    · simp [h401, hm, hb, FundManagerApp.emit, FundManagerApp.showMessage]
  · simp [h401, hOk, hb, FundManagerApp.emit]

/-- C25, as amended.  Let the user confirm and the backend answer with
a 2xx status.  If the answer has a JSON body, `deleteFund` shows the
message `基金删除成功！`, no other message, starts one recalculation of the
portfolio and ends normally.  If the answer has no content (its body is
not JSON), the exception of `response.json()` ends the request: no
success message is shown, no recalculation is started, the message of the
exception is shown as an error (twice, by `makeRequest` and by
`deleteFund`, unless it carries the auth-failure marker), and the exception
escapes `deleteFund`. -/
theorem deleteFund_confirmed_ok (env : Env) (app : FundManagerApp) (fundId : String)
    (response : Response) (hOk : response.ok = true) :
    (∀ data, response.body = .ok data →
      messagesShown (app.deleteFund env fundId true (.ok response)).1.log
        = messagesShown app.log ++ [("基金删除成功！", "success")] ∧
      recalculations (app.deleteFund env fundId true (.ok response)).1.log
        = recalculations app.log + 1 ∧
      (app.deleteFund env fundId true (.ok response)).2 = .ok ()) ∧
    (∀ error, response.body = .error error →
      messagesShown (app.deleteFund env fundId true (.ok response)).1.log
        = messagesShown app.log ++
          (if jsIncludes error.message "认证失败" then [(error.message, "error")]
            else [(error.message, "error"), (error.message, "error")]) ∧
      recalculations (app.deleteFund env fundId true (.ok response)).1.log
        = recalculations app.log ∧
      (app.deleteFund env fundId true (.ok response)).2 = .error error) := by
  have hreq := FundManagerApp.makeRequest_ok env
    (app.emit [Event.confirm "确定要删除这只基金吗？"]) ("/funds/" ++ fundId)
    { method := some "DELETE" } response hOk
  constructor
  · intro data hb
    rw [hb] at hreq
    simp only [FundManagerApp.deleteFund, Bool.not_true, Bool.false_eq_true, if_false, hreq]
    refine ⟨?_, ?_, ?_⟩
    · by_cases hv : app.fundsListVisible = true <;>
        simp [FundManagerApp.emit, FundManagerApp.showMessage, hv, messagesShown,
          List.filterMap_append]
    · by_cases hv : app.fundsListVisible = true <;>
        simp [FundManagerApp.emit, FundManagerApp.showMessage, hv, recalculations,
          List.filter_append]
    · by_cases hv : app.fundsListVisible = true <;>
        simp [FundManagerApp.emit, FundManagerApp.showMessage, hv]
  · intro error hb
    rw [hb] at hreq
    simp only [FundManagerApp.deleteFund, Bool.not_true, Bool.false_eq_true, if_false, hreq]
    by_cases hm : jsIncludes error.message "认证失败" = true
    · simp [hm, FundManagerApp.emit, FundManagerApp.showMessage, messagesShown,
        recalculations, List.filterMap_append, List.filter_append]
    · simp [hm, FundManagerApp.emit, FundManagerApp.showMessage, messagesShown,
        recalculations, List.filterMap_append, List.filter_append]

/-- C25 on an answer `200` with the body `null`. -/
theorem deleteFund_confirmed_ok_witness :
    messagesShown ((samplePage (some "tok")).deleteFund sampleEnv "7" true
      (.ok ⟨200, .ok JsVal.null⟩)).1.log
      = messagesShown (samplePage (some "tok")).log ++ [("基金删除成功！", "success")] :=
  ((deleteFund_confirmed_ok sampleEnv (samplePage (some "tok")) "7" ⟨200, .ok JsVal.null⟩
    rfl).1 JsVal.null rfl).1

/-- C25 as stated fails for an answer without content: after a confirmed
`deleteFund` answered with `204` and an empty body, the messages shown are
the parse error, twice, and no recalculation was started. -/
theorem deleteFund_no_content_shows_error :
    messagesShown ((samplePage (some "tok")).deleteFund sampleEnv "7" true
      (.ok ⟨204, .error ⟨"SyntaxError", "Unexpected end of JSON input"⟩⟩)).1.log
      = [("Unexpected end of JSON input", "error"), ("Unexpected end of JSON input", "error")] ∧
    recalculations ((samplePage (some "tok")).deleteFund sampleEnv "7" true
      (.ok ⟨204, .error ⟨"SyntaxError", "Unexpected end of JSON input"⟩⟩)).1.log = 0 := by
  constructor <;> decide

/-! ## The chart slot over runs of `renderTrendChart` and `closeModal` (C28) -/

theorem destroyCount_append (id : Nat) (a b : List Event) :
    destroyCount id (a ++ b) = destroyCount id a + destroyCount id b := by
  simp [destroyCount, List.filter_append]

theorem destroyCount_destroy (id c : Nat) :
    destroyCount id [Event.destroyChart c] = if c = id then 1 else 0 := by
  by_cases h : c = id <;> simp [destroyCount, h]

/-- What `closeModal` does to the chart slot and to the trace. -/
theorem FundManagerApp.closeModal_chart (app : FundManagerApp) (modalType : String) :
    (app.closeModal modalType).chart = none ∧
    (app.closeModal modalType).log = app.log ++ (match app.chart with
      | some c => [Event.destroyChart c]
      | none => []) := by
  unfold FundManagerApp.closeModal
  by_cases hm : modalType = "chart" <;> cases hc : app.chart <;> simp [hm, hc]

theorem chartSlotSound_step (env : Env) (op : Op) (app : FundManagerApp)
    (hQuiet : op.isQuietChartStep = true) (h : chartSlotSound app) :
    chartSlotSound (op.run env app) := by
  obtain ⟨h1, h2, h3⟩ := h
  cases op <;> simp only [Op.isQuietChartStep, Bool.false_eq_true] at hQuiet
  case closeModal modalType =>
    obtain ⟨hc, hl⟩ := FundManagerApp.closeModal_chart app modalType
    show chartSlotSound (app.closeModal modalType)
    have hd : ∀ id, destroyCount id (app.closeModal modalType).log
        = destroyCount id app.log + (if app.chart = some id then 1 else 0) := by
      intro id
      rw [hl, destroyCount_append]
      cases hch : app.chart with
      | none => simp [destroyCount]
      | some c => simp [destroyCount_destroy]
    have hn : FundManagerApp.newChartId (app.closeModal modalType).log
        = FundManagerApp.newChartId app.log := by
      rw [hl]
      cases app.chart with
      | none => simp
      | some c => simp [newChartId_append_destroy]
    refine ⟨fun id => ?_, fun c hcc => ?_, fun id hid => ?_⟩
    · rw [hd]
      by_cases hch : app.chart = some id
      · have := (h2 id hch).1
        simp [hch, this]
      · simpa [hch] using h1 id
    · rw [hc] at hcc; cases hcc
    · rw [hn] at hid
      rw [hd]
      have hne : app.chart ≠ some id := by
        intro hch
        have := (h2 _ hch).2
        omega
      simp [hne, h3 id hid]
  case renderTrendChart fundCode fundName dates navValues growthValues hasCanvas construction
      hasContainer =>
    cases construction with
    | some error => simp [Op.isQuietChartStep] at hQuiet
    | none =>
      show chartSlotSound (app.renderTrendChart fundCode fundName dates navValues growthValues
        hasCanvas none hasContainer)
      cases hasCanvas with
      | false =>
        have e : app.renderTrendChart fundCode fundName dates navValues growthValues false none
            hasContainer = app := by simp [FundManagerApp.renderTrendChart]
        rw [e]
        exact ⟨h1, h2, h3⟩
      | true =>
        obtain ⟨hc, hl⟩ := FundManagerApp.renderTrendChart_success app fundCode fundName dates
          navValues growthValues hasContainer
        have hn : FundManagerApp.newChartId (app.renderTrendChart fundCode fundName dates
            navValues growthValues true none hasContainer).log
            = FundManagerApp.newChartId app.log + 1 := by
          rw [hl, newChartId_append_create]
          cases app.chart with
          | none => simp
          | some c => simp [newChartId_append_destroy]
        have hd : ∀ id, destroyCount id (app.renderTrendChart fundCode fundName dates
            navValues growthValues true none hasContainer).log
            = destroyCount id app.log + (if app.chart = some id then 1 else 0) := by
          intro id
          rw [hl, destroyCount_append, destroyCount_append]
          have hcr : ∀ (n : Nat) (t : String) (a b c : List JsVal),
              destroyCount id [Event.createChart n t a b c] = 0 := fun _ _ _ _ _ => rfl
          rw [hcr]
          cases hch : app.chart with
          | none => simp [destroyCount]
          | some c => simp [destroyCount_destroy]
        refine ⟨fun id => ?_, fun c hcc => ?_, fun id hid => ?_⟩
        · rw [hd]
          by_cases hch : app.chart = some id
          · have := (h2 id hch).1
            simp [hch, this]
          · simpa [hch] using h1 id
        · rw [hc] at hcc
          cases hcc
          rw [hd, hn]
          have hne : app.chart ≠ some (FundManagerApp.newChartId app.log) := by
            intro hch
            have := (h2 _ hch).2
            omega
          simp [hne, h3 _ (le_refl _)]
        · rw [hn] at hid
          rw [hd]
          have hne : app.chart ≠ some id := by
            intro hch
            have := (h2 _ hch).2
            omega
          simp [hne, h3 id (by omega)]

/-- C28, for runs in which the chart construction never throws.  From a
state with an empty chart slot and no `destroy` in the trace, after any
sequence of `closeModal` and of `renderTrendChart` calls whose
construction succeeds or whose canvas is missing, no chart instance has
`destroy` called on it more than once, and the instance in the chart slot
has not been destroyed. -/
theorem chart_destroyed_once (env : Env) (app : FundManagerApp) (ops : List Op)
    (hSlot : app.chart = none) (hLog : ∀ id, destroyCount id app.log = 0)
    (hQuiet : ∀ op ∈ ops, op.isQuietChartStep = true) :
    (∀ id, destroyCount id (runOps env ops app).log ≤ 1) ∧
    (∀ c, (runOps env ops app).chart = some c → destroyCount c (runOps env ops app).log = 0) := by
  have h0 : chartSlotSound app := by
    refine ⟨fun id => ?_, fun c hc => ?_, fun id _ => hLog id⟩
    · rw [hLog id]; exact Nat.zero_le _
    · rw [hSlot] at hc; cases hc
  have hrun : ∀ (ops : List Op) (app : FundManagerApp), chartSlotSound app →
      (∀ op ∈ ops, op.isQuietChartStep = true) → chartSlotSound (runOps env ops app) := by
    intro ops
    induction ops with
    | nil => intro app h _; exact h
    | cons op rest ih =>
      intro app h hq
      exact ih (op.run env app)
        (chartSlotSound_step env op app (hq op (List.mem_cons_self _ _)) h)
        (fun o ho => hq o (List.mem_cons_of_mem _ ho))
  obtain ⟨h1, h2, _⟩ := hrun ops app h0 hQuiet
  exact ⟨h1, fun c hc => (h2 c hc).1⟩

/-- C28 on a run: two renderings, a close, a rendering without canvas,
a rendering.  Instance 1 of the second rendering was destroyed at most
once. -/
theorem chart_destroyed_once_witness :
    destroyCount 1 (runOps sampleEnv
      [Op.renderTrendChart "000001" "a" [] [] [] true none true,
        Op.renderTrendChart "000002" "b" [] [] [] true none true,
        Op.closeModal "chart",
        Op.renderTrendChart "000001" "a" [] [] [] false none true,
        Op.renderTrendChart "000001" "a" [] [] [] true none true] sampleTrendPage).log ≤ 1 :=
  (chart_destroyed_once sampleEnv sampleTrendPage
    [Op.renderTrendChart "000001" "a" [] [] [] true none true,
      Op.renderTrendChart "000002" "b" [] [] [] true none true,
      Op.closeModal "chart",
      Op.renderTrendChart "000001" "a" [] [] [] false none true,
      Op.renderTrendChart "000001" "a" [] [] [] true none true] rfl (fun _ => rfl)
    (by simp [Op.isQuietChartStep])).1 1

/-- C28 as stated fails once a chart construction throws: a rendering
that succeeds puts instance 0 in the slot; a second rendering destroys it
and then fails to construct its chart, which leaves the destroyed instance
0 in the slot; `closeModal` then calls `destroy` on instance 0 again. -/
theorem chart_destroyed_twice_after_failure :
    (runOps sampleEnv
      [Op.renderTrendChart "000001" "a" [] [] [] true none true,
        Op.renderTrendChart "000002" "b" [] [] [] true (some ⟨"Error", "no context"⟩)
          true]
      sampleTrendPage).chart = some 0 ∧
    destroyCount 0 (runOps sampleEnv
      [Op.renderTrendChart "000001" "a" [] [] [] true none true,
        Op.renderTrendChart "000002" "b" [] [] [] true (some ⟨"Error", "no context"⟩)
          true]
      sampleTrendPage).log = 1 ∧
    destroyCount 0 (runOps sampleEnv
      [Op.renderTrendChart "000001" "a" [] [] [] true none true,
        Op.renderTrendChart "000002" "b" [] [] [] true (some ⟨"Error", "no context"⟩)
          true,
        Op.closeModal "chart"] sampleTrendPage).log = 2 := by
  refine ⟨?_, ?_, ?_⟩ <;> decide

/-! ## The summary slot (C23) -/

theorem lastDisplayed_append_of_noDisplay (log events : List Event)
    (h : noDisplay events = true) : lastDisplayed (log ++ events) = lastDisplayed log := by
  unfold lastDisplayed
  rw [List.foldl_append]
  generalize List.foldl _ JsVal.null log = last
  induction events generalizing last with
  | nil => rfl
  | cons e rest ih =>
    simp only [noDisplay, List.all_cons, Bool.and_eq_true, Option.isNone_iff_eq_none] at h
    obtain ⟨he, hrest⟩ := h
    rw [List.foldl_cons, he]
    exact ih (by simpa [noDisplay] using hrest) last

theorem lastDisplayed_append_display (log : List Event) (summary : JsVal) :
    lastDisplayed (log ++ [Event.call (Call.displayPortfolioSummary summary)]) = summary := by
  simp [lastDisplayed, List.foldl_append, displayedBy]

theorem slotKept_refl (app : FundManagerApp) : slotKept app app := ⟨rfl, rfl⟩

theorem slotKept_trans {a b c : FundManagerApp} (h1 : slotKept a b) (h2 : slotKept b c) :
    slotKept a c := ⟨h2.1.trans h1.1, h2.2.trans h1.2⟩

theorem slotSound_of_kept {a b : FundManagerApp} (h : slotKept a b) (hs : slotSound a) :
    slotSound b := by
  unfold slotSound at hs ⊢
  rw [h.1, h.2, hs]

/-- A state that differs in neither the slot nor the calls recorded. -/
theorem slotKept_of_eq (a b : FundManagerApp)
    (hs : b.currentPortfolioSummary = a.currentPortfolioSummary)
    (events : List Event) (hl : b.log = a.log ++ events) (hn : noDisplay events = true) :
    slotKept a b := ⟨hs, by rw [hl, lastDisplayed_append_of_noDisplay _ _ hn]⟩

theorem slotKept_emit (app : FundManagerApp) (events : List Event)
    (hn : noDisplay events = true) : slotKept app (app.emit events) :=
  slotKept_of_eq app _ rfl events rfl hn

theorem slotKept_showMessage (app : FundManagerApp) (message type : String) :
    slotKept app (app.showMessage message type) :=
  slotKept_emit app _ (by rfl)

theorem slotKept_clearAuth (app : FundManagerApp) : slotKept app app.clearAuth :=
  slotKept_of_eq app _ rfl [Event.clearAuth] rfl (by rfl)

theorem slotKept_makeRequestTry (env : Env) (app : FundManagerApp) (url : String)
    (options : Options) (outcome : FetchOutcome) :
    slotKept app (app.makeRequestTry env url options outcome).1 := by
  unfold FundManagerApp.makeRequestTry
  rcases outcome with e | response
  · exact slotKept_emit app _ (by rfl)
  · by_cases h401 : response.status = 401
    · simp only [h401, if_true]
      exact slotKept_trans (slotKept_emit app _ (by rfl))
        (slotKept_trans (slotKept_clearAuth _)
          (slotKept_trans (slotKept_showMessage _ _ _) (slotKept_emit _ _ (by rfl))))
    · simp only [h401, if_false]
      have h2 : slotKept app ((app.emit
          [Event.fetch (FundManagerApp.buildRequest app.token url options)]).emit
          [Event.readBody]) :=
        slotKept_trans (slotKept_emit app _ (by rfl)) (slotKept_emit _ _ (by rfl))
      rcases hb : response.body with e | data
      · exact h2
      · by_cases hok : response.ok = true
        · simp only [hok, Bool.not_true, Bool.false_eq_true, if_false]
          exact h2
        · simp only [hok, Bool.not_false, if_true, Bool.not_eq_true]
          cases data <;> exact h2

theorem slotKept_makeRequest (env : Env) (app : FundManagerApp) (url : String)
    (options : Options) (outcome : FetchOutcome) :
    slotKept app (app.makeRequest env url options outcome).1 := by
  have h := slotKept_makeRequestTry env app url options outcome
  unfold FundManagerApp.makeRequest
  generalize app.makeRequestTry env url options outcome = res at h ⊢
  rcases res with ⟨a, e | data⟩
  · by_cases hm : jsIncludes e.message "认证失败" = true
    · simpa [hm] using h
    · simp only [hm, Bool.not_false, if_true, Bool.not_eq_true]
      exact slotKept_trans h (slotKept_showMessage _ _ _)
  · exact h

theorem slotKept_closeModal (app : FundManagerApp) (modalType : String) :
    slotKept app (app.closeModal modalType) := by
  refine slotKept_of_eq app _ ?_ (match app.chart with
    | some c => [Event.destroyChart c]
    | none => []) (FundManagerApp.closeModal_chart app modalType).2 ?_
  · unfold FundManagerApp.closeModal
    by_cases hm : modalType = "chart" <;> cases hc : app.chart <;> simp [hm, hc]
  · cases app.chart <;> rfl

theorem slotKept_loadFunds (env : Env) (app : FundManagerApp) (outcome : FetchOutcome) :
    slotKept app (app.loadFunds env outcome) := by
  have h := slotKept_makeRequest env app "/funds/" {} outcome
  unfold FundManagerApp.loadFunds
  generalize app.makeRequest env "/funds/" {} outcome = res at h ⊢
  rcases res with ⟨a, e | funds⟩
  · exact h
  · exact slotKept_trans h (slotKept_emit _ _ (by rfl))

theorem slotKept_afterWrite (app : FundManagerApp) (message kind : String) :
    slotKept app
      (if (((app.showMessage message kind).closeModal "normal").emit
            [Event.call Call.calculatePortfolio]).fundsListVisible = true then
          (((app.showMessage message kind).closeModal "normal").emit
            [Event.call Call.calculatePortfolio]).emit [Event.call Call.loadFunds]
        else ((app.showMessage message kind).closeModal "normal").emit
            [Event.call Call.calculatePortfolio]) := by
  have h := slotKept_trans (slotKept_trans (slotKept_showMessage app message kind)
    (slotKept_closeModal _ "normal")) (slotKept_emit _ [Event.call Call.calculatePortfolio] (by rfl))
  split
  · exact slotKept_trans h (slotKept_emit _ _ (by rfl))
  · exact h

theorem slotKept_addFund (env : Env) (app : FundManagerApp) (fundData : JsVal)
    (outcome : FetchOutcome) : slotKept app (app.addFund env fundData outcome).1 := by
  have h := slotKept_makeRequest env app "/funds/"
    { method := some "POST", body := some (env.jsonStringify fundData) } outcome
  unfold FundManagerApp.addFund
  generalize app.makeRequest env "/funds/"
    { method := some "POST", body := some (env.jsonStringify fundData) } outcome = res at h ⊢
  rcases res with ⟨a, e | d⟩
  · exact h
  · exact slotKept_trans h (slotKept_afterWrite a _ _)

theorem slotKept_updateFund (env : Env) (app : FundManagerApp) (fundId : String)
    (fundData : JsVal) (outcome : FetchOutcome) :
    slotKept app (app.updateFund env fundId fundData outcome).1 := by
  have h := slotKept_makeRequest env app ("/funds/" ++ fundId)
    { method := some "PUT", body := some (env.jsonStringify fundData) } outcome
  unfold FundManagerApp.updateFund
  generalize app.makeRequest env ("/funds/" ++ fundId)
    { method := some "PUT", body := some (env.jsonStringify fundData) } outcome = res at h ⊢
  rcases res with ⟨a, e | d⟩
  · exact h
  · exact slotKept_trans h (slotKept_afterWrite a _ _)

theorem slotKept_deleteFund (env : Env) (app : FundManagerApp) (fundId : String)
    (confirmed : Bool) (outcome : FetchOutcome) :
    slotKept app (app.deleteFund env fundId confirmed outcome).1 := by
  have h0 := slotKept_emit app [Event.confirm "确定要删除这只基金吗？"] (by rfl)
  unfold FundManagerApp.deleteFund
  cases confirmed with
  | false => exact h0
  | true =>
    simp only [Bool.not_true, Bool.false_eq_true, if_false]
    have h := slotKept_makeRequest env (app.emit [Event.confirm "确定要删除这只基金吗？"])
      ("/funds/" ++ fundId) { method := some "DELETE" } outcome
    generalize (app.emit [Event.confirm "确定要删除这只基金吗？"]).makeRequest env
      ("/funds/" ++ fundId) { method := some "DELETE" } outcome = res at h ⊢
    rcases res with ⟨a, e | d⟩
    · exact slotKept_trans h0 (slotKept_trans h (slotKept_showMessage _ _ _))
    · have h2 := slotKept_trans (slotKept_showMessage a "基金删除成功！" "success")
        (slotKept_emit _ [Event.call Call.calculatePortfolio] (by rfl))
      refine slotKept_trans h0 (slotKept_trans h ?_)
      show slotKept a (if _ then _ else _)
      split
      · exact slotKept_trans h2 (slotKept_emit _ _ (by rfl))
      · exact h2

/-- After `displayPortfolioSummary` the slot holds its argument, and
the trace says so. -/
theorem slotSound_displayPortfolioSummary (env : Env) (app : FundManagerApp) (summary : JsVal) :
    slotSound (app.displayPortfolioSummary env summary).1 ∧
    (app.displayPortfolioSummary env summary).1.currentPortfolioSummary = summary := by
  unfold FundManagerApp.displayPortfolioSummary slotSound
  simp only [FundManagerApp.emit]
  cases app.portfolioContainer with
  | none => exact ⟨(lastDisplayed_append_display _ _).symm, rfl⟩
  | some html =>
    simp only
    cases FundManagerApp.portfolioSummaryHTML env summary with
    | ok markup => exact ⟨(lastDisplayed_append_display _ _).symm, rfl⟩
    | error e => exact ⟨(lastDisplayed_append_display _ _).symm, rfl⟩

theorem slotSound_calculatePortfolioCatch (env : Env) (app : FundManagerApp) (error : JsError)
    (h : slotSound app) : slotSound (app.calculatePortfolioCatch env error).1 := by
  unfold FundManagerApp.calculatePortfolioCatch
  by_cases h404 : jsIncludes error.message "404" = true
  · simp only [h404, if_true]
    exact (slotSound_displayPortfolioSummary env _ _).1
  · simp only [h404, Bool.false_eq_true, if_false]
    by_cases hm : jsIncludes error.message "认证失败" = true
    · simpa [hm] using h
    · simp only [hm, Bool.not_false, if_true, Bool.not_eq_true]
      exact slotSound_of_kept (slotKept_showMessage _ _ _) h

theorem slotSound_calculatePortfolio (env : Env) (app : FundManagerApp) (outcome : FetchOutcome)
    (h : slotSound app) : slotSound (app.calculatePortfolio env outcome).1 := by
  have hreq := slotKept_makeRequest env app "/funds/calculate" {} outcome
  unfold FundManagerApp.calculatePortfolio
  generalize app.makeRequest env "/funds/calculate" {} outcome = res at hreq ⊢
  rcases res with ⟨a, e | summary⟩
  · exact slotSound_calculatePortfolioCatch env a e (slotSound_of_kept hreq h)
  · simp only
    have hd := (slotSound_displayPortfolioSummary env
      { a with currentPortfolioSummary := summary } summary).1
    generalize FundManagerApp.displayPortfolioSummary env
      { a with currentPortfolioSummary := summary } summary = res at hd ⊢
    rcases res with ⟨b, _ | e⟩
    · exact hd
    · exact slotSound_calculatePortfolioCatch env b e hd

theorem slotKept_renderTrendChart (app : FundManagerApp) (fundCode fundName : String)
    (dates navValues growthValues : List JsVal) (hasCanvas : Bool)
    (construction : Option JsError) (hasContainer : Bool) :
    slotKept app
      (app.renderTrendChart fundCode fundName dates navValues growthValues hasCanvas
        construction hasContainer) := by
  unfold FundManagerApp.renderTrendChart
  cases hasCanvas with
  | false => exact slotKept_refl app
  | true =>
    simp only [Bool.not_true, Bool.false_eq_true, if_false]
    have h1 : slotKept app (match app.chart with
        | some c => app.emit [Event.destroyChart c]
        | none => app) := by
      cases app.chart with
      | none => exact slotKept_refl app
      | some c => exact slotKept_emit app _ (by rfl)
    cases construction with
    | none => exact slotKept_trans h1 (slotKept_of_eq _ _ rfl _ rfl (by rfl))
    | some error =>
      cases hasContainer with
      | false => exact h1
      | true => exact slotKept_trans h1 (slotKept_emit _ _ (by rfl))

theorem slotKept_showModal (app : FundManagerApp) (html modalType : String) :
    slotKept app (app.showModal html modalType) := by
  unfold FundManagerApp.showModal
  by_cases hm : modalType = "chart"
  · simp only [hm, if_true]
    cases app.chartModalContainer with
    | none => exact slotKept_refl app
    | some c => exact slotKept_of_eq _ _ rfl _ rfl (by rfl)
  · simp only [hm, if_false]
    cases app.modalContainer with
    | none => exact slotKept_refl app
    | some c => exact slotKept_of_eq _ _ rfl _ rfl (by rfl)

theorem slotKept_checkAuthStatus (env : Env) (now : Int) (app : FundManagerApp) :
    slotKept app (app.checkAuthStatus env now).1 := by
  unfold FundManagerApp.checkAuthStatus
  simp only
  split
  · split
    · split
      · exact slotKept_of_eq _ _ rfl [] (by simp) (by rfl)
      · exact slotKept_of_eq _ _ rfl [] (by simp) (by rfl)
    · exact slotKept_of_eq _ _ rfl [Event.clearAuth] rfl (by rfl)
  · exact slotKept_of_eq _ _ rfl [] (by simp) (by rfl)

theorem slotKept_init (app : FundManagerApp) : slotKept app app.init := by
  unfold FundManagerApp.init
  split
  · exact slotKept_emit _ _ (by rfl)
  · exact slotKept_emit _ _ (by rfl)

theorem slotKept_logout (app : FundManagerApp) : slotKept app app.logout :=
  slotKept_trans (slotKept_clearAuth app) (slotKept_emit _ _ (by rfl))

theorem slotKept_selectFund (app : FundManagerApp) (fundCode fundName : String) :
    slotKept app (app.selectFund fundCode fundName) :=
  slotKept_of_eq _ _ rfl _ rfl (by rfl)

theorem slotKept_showFundsList (app : FundManagerApp) (hasFundsListPage : Bool) :
    slotKept app (app.showFundsList hasFundsListPage) :=
  slotKept_of_eq _ _ rfl _ rfl (by rfl)

theorem slotKept_showPortfolioView (app : FundManagerApp) : slotKept app app.showPortfolioView :=
  slotKept_of_eq _ _ rfl _ rfl (by rfl)

theorem slotSound_refreshPortfolioWithMessage (env : Env) (app : FundManagerApp)
    (hasRefreshButton : Bool) (outcome : FetchOutcome) (h : slotSound app) :
    slotSound (app.refreshPortfolioWithMessage env hasRefreshButton outcome) := by
  have h1 := slotSound_calculatePortfolio env
    (app.showMessage "正在刷新基金数据，请稍候..." "info") outcome
    (slotSound_of_kept (slotKept_showMessage _ _ _) h)
  unfold FundManagerApp.refreshPortfolioWithMessage
  simp only
  generalize FundManagerApp.calculatePortfolio env
    (app.showMessage "正在刷新基金数据，请稍候..." "info") outcome = res at h1 ⊢
  rcases res with ⟨a, _ | e⟩
  · have h2 : slotSound (a.showMessage "收益刷新成功！" "success") :=
      slotSound_of_kept (slotKept_showMessage _ _ _) h1
    cases hasRefreshButton with
    | false => exact h2
    | true => exact slotSound_of_kept (slotKept_emit _ _ (by rfl)) h2
  · cases hasRefreshButton with
    | false => exact h1
    | true => exact slotSound_of_kept (slotKept_emit _ _ (by rfl)) h1

theorem slotKept_showFundTrendModal (env : Env) (app : FundManagerApp)
    (fundCode fundName : String) :
    slotKept app (app.showFundTrendModal env fundCode fundName).1 := by
  have hm : ∀ message kind, slotKept app (app.showMessage message kind) :=
    fun _ _ => slotKept_showMessage app _ _
  unfold FundManagerApp.showFundTrendModal
  simp only
  repeat' split
  all_goals
    first
    | exact slotKept_refl app
    | exact hm _ _
    | exact slotKept_trans (slotKept_showModal app _ _) (slotKept_emit _ _ (by rfl))

theorem slotKept_addFundSubmit (env : Env) (app : FundManagerApp)
    (form : List (String × String)) (outcome : FetchOutcome) :
    slotKept app (app.addFundSubmit env form outcome).1 := by
  unfold FundManagerApp.addFundSubmit
  cases app.selectedFund with
  | none => exact slotKept_showMessage _ _ _
  | some selected =>
    simp only
    have h := slotKept_addFund env app (FundManagerApp.addFundData env form) outcome
    generalize app.addFund env (FundManagerApp.addFundData env form) outcome = res at h ⊢
    rcases res with ⟨a, e | d⟩
    · exact h
    · exact h

theorem slotKept_searchFunds (env : Env) (app : FundManagerApp) (hasSearchInput : Bool)
    (keyword : String) (outcome : FetchOutcome) :
    slotKept app (app.searchFunds env hasSearchInput keyword outcome) := by
  have h2 : ∀ loading : SearchResults, slotKept app
      (({ app with searchResults := some loading } : FundManagerApp).emit
        [Event.fetch (FundManagerApp.searchRequest env app.token keyword)]) :=
    fun loading => slotKept_trans (slotKept_of_eq app _ rfl [] (by simp) (by rfl))
      (slotKept_emit _ _ (by rfl))
  have h3 : ∀ loading : SearchResults, slotKept app
      ((({ app with searchResults := some loading } : FundManagerApp).emit
        [Event.fetch (FundManagerApp.searchRequest env app.token keyword)]).emit
        [Event.readBody]) :=
    fun loading => slotKept_trans (h2 loading) (slotKept_emit _ _ (by rfl))
  unfold FundManagerApp.searchFunds
  simp only
  repeat' split
  all_goals
    first
    | exact slotKept_refl app
    | exact slotKept_trans (h2 _) (slotKept_emit _ _ (by rfl))
    | exact slotKept_trans (h3 _) (slotKept_emit _ _ (by rfl))
    | exact slotKept_of_eq app _ rfl
        [Event.fetch (FundManagerApp.searchRequest env app.token keyword)] rfl (by rfl)

theorem slotKept_displaySearchResults (env : Env) (app : FundManagerApp)
    (hasSearchInput : Bool) (funds : List JsVal) (result : FundManagerApp)
    (h : app.displaySearchResults env hasSearchInput funds = .ok result) :
    slotKept app result := by
  unfold FundManagerApp.displaySearchResults at h
  repeat' split at h
  all_goals
    cases h <;> exact slotKept_refl app

theorem slotKept_displayLocalCacheResults (env : Env) (app : FundManagerApp)
    (hasSearchInput : Bool) (keyword : String) (result : FundManagerApp)
    (h : app.displayLocalCacheResults env hasSearchInput keyword = .ok result) :
    slotKept app result := by
  unfold FundManagerApp.displayLocalCacheResults at h
  split at h
  · injection h with h; subst h; exact slotKept_refl app
  · simp only at h
    split at h
    · split at h
      · cases h
      · next app1 hd =>
        injection h with h
        subst h
        have := slotKept_displaySearchResults env app hasSearchInput _ app1 hd
        exact slotKept_trans this (slotKept_of_eq _ _ rfl [] (by simp) (by rfl))
    · injection h with h; subst h
      exact slotKept_of_eq _ _ rfl [] (by simp) (by rfl)

/-- Every step of the page leaves the summary slot equal to the
argument of the last call of `displayPortfolioSummary`. -/
theorem slotSound_step (env : Env) (op : Op) (app : FundManagerApp) (h : slotSound app) :
    slotSound (op.run env app) := by
  cases op with
  | checkAuthStatus now => exact slotSound_of_kept (slotKept_checkAuthStatus env now app) h
  | init => exact slotSound_of_kept (slotKept_init app) h
  | logout => exact slotSound_of_kept (slotKept_logout app) h
  | clearAuth => exact slotSound_of_kept (slotKept_clearAuth app) h
  | showMessage message type => exact slotSound_of_kept (slotKept_showMessage app _ _) h
  | makeRequest url options outcome =>
    exact slotSound_of_kept (slotKept_makeRequest env app url options outcome) h
  | loadFunds outcome => exact slotSound_of_kept (slotKept_loadFunds env app outcome) h
  | addFund fundData outcome =>
    exact slotSound_of_kept (slotKept_addFund env app fundData outcome) h
  | updateFund fundId fundData outcome =>
    exact slotSound_of_kept (slotKept_updateFund env app fundId fundData outcome) h
  | deleteFund fundId confirmed outcome =>
    exact slotSound_of_kept (slotKept_deleteFund env app fundId confirmed outcome) h
  | calculatePortfolio outcome => exact slotSound_calculatePortfolio env app outcome h
  | refreshPortfolioWithMessage hasRefreshButton outcome =>
    exact slotSound_refreshPortfolioWithMessage env app hasRefreshButton outcome h
  | displayPortfolioSummary summary => exact (slotSound_displayPortfolioSummary env app summary).1
  | showFundsList hasFundsListPage =>
    exact slotSound_of_kept (slotKept_showFundsList app hasFundsListPage) h
  | showPortfolioView => exact slotSound_of_kept (slotKept_showPortfolioView app) h
  | showFundTrendModal fundCode fundName =>
    exact slotSound_of_kept (slotKept_showFundTrendModal env app fundCode fundName) h
  | renderTrendChart fundCode fundName dates navValues growthValues hasCanvas construction
      hasContainer =>
    exact slotSound_of_kept (slotKept_renderTrendChart app fundCode fundName dates navValues
      growthValues hasCanvas construction hasContainer) h
  | addFundSubmit form outcome =>
    exact slotSound_of_kept (slotKept_addFundSubmit env app form outcome) h
  | searchFunds hasSearchInput keyword outcome =>
    exact slotSound_of_kept (slotKept_searchFunds env app hasSearchInput keyword outcome) h
  | displaySearchResults hasSearchInput funds =>
    show slotSound (match app.displaySearchResults env hasSearchInput funds with
      | .ok app1 => app1
      | .error _ => app)
    cases hr : app.displaySearchResults env hasSearchInput funds with
    | error e => exact h
    | ok result =>
      exact slotSound_of_kept (slotKept_displaySearchResults env app hasSearchInput funds result
        hr) h
  | displayLocalCacheResults hasSearchInput keyword =>
    show slotSound (match app.displayLocalCacheResults env hasSearchInput keyword with
      | .ok app1 => app1
      | .error _ => app)
    cases hr : app.displayLocalCacheResults env hasSearchInput keyword with
    | error e => exact h
    | ok result =>
      exact slotSound_of_kept (slotKept_displayLocalCacheResults env app hasSearchInput keyword
        result hr) h
  | selectFund fundCode fundName =>
    exact slotSound_of_kept (slotKept_selectFund app fundCode fundName) h
  | showModal html modalType => exact slotSound_of_kept (slotKept_showModal app html modalType) h
  | closeModal modalType => exact slotSound_of_kept (slotKept_closeModal app modalType) h

theorem slotSound_runOps (env : Env) (ops : List Op) (app : FundManagerApp)
    (h : slotSound app) : slotSound (runOps env ops app) := by
  induction ops generalizing app with
  | nil => exact h
  | cons op rest ih => exact ih _ (slotSound_step env op app h)

/-- The constructor leaves the slot `null` and has not called
`displayPortfolioSummary`. -/
theorem slotSound_construct (env : Env) (now : Int) (page : FundManagerApp)
    (hPage : page.log = []) (hBuilt : (FundManagerApp.construct env now page).2 = none) :
    (FundManagerApp.construct env now page).1.currentPortfolioSummary = JsVal.null ∧
    lastDisplayed (FundManagerApp.construct env now page).1.log = JsVal.null := by
  unfold FundManagerApp.construct at hBuilt ⊢
  simp only at hBuilt ⊢
  rcases hu : env.jsonParse (if truthyStr (page.storage.getItem "currentUser") = true
      then (page.storage.getItem "currentUser").getD "" else "null") with e | u
  · rw [hu] at hBuilt
    cases hBuilt
  · rw [hu] at hBuilt
    simp only [hu] at hBuilt ⊢
    have hk := slotKept_checkAuthStatus env now
      { page with
        token := page.storage.getItem "authToken", currentUser := u,
        selectedFund := none, chart := none, currentPortfolioSummary := JsVal.null }
    generalize FundManagerApp.checkAuthStatus env now
      { page with
        token := page.storage.getItem "authToken", currentUser := u,
        selectedFund := none, chart := none, currentPortfolioSummary := JsVal.null } = res
      at hk hBuilt ⊢
    rcases res with ⟨a, _ | e⟩
    · have h2 := slotKept_trans hk (slotKept_init a)
      refine ⟨h2.1, ?_⟩
      rw [h2.2]
      show lastDisplayed page.log = JsVal.null
      rw [hPage]
      rfl
    · cases hBuilt

/-- C23.  Let the page be freshly loaded (nothing in the trace) and the
constructor complete.  Then the summary slot is `null`, and after any
sequence of steps of the page (any methods of the controller, with any
arguments and any answers of the backend) it holds exactly the value
`displayPortfolioSummary` was called with last, and `null` if it was
never called.  Every write is of a whole value: `displayPortfolioSummary`
leaves its argument in the slot also when the container is missing or the
rendering throws, and `calculatePortfolio` leaves the summary of the
answer or, when an error carries `404`, the empty summary it renders.  So
`showFundTrendModal` works on the summary `displayPortfolioSummary` was
called with last. -/
theorem summary_slot_whole (env : Env) (now : Int) (page : FundManagerApp) (ops : List Op)
    (hPage : page.log = []) (hBuilt : (FundManagerApp.construct env now page).2 = none) :
    (FundManagerApp.construct env now page).1.currentPortfolioSummary = JsVal.null ∧
    (runOps env ops (FundManagerApp.construct env now page).1).currentPortfolioSummary
      = lastDisplayed (runOps env ops (FundManagerApp.construct env now page).1).log ∧
    (∀ summary,
      ((runOps env ops (FundManagerApp.construct env now page).1).displayPortfolioSummary env
        summary).1.currentPortfolioSummary = summary) ∧
    (∀ outcome summary,
      ((runOps env ops (FundManagerApp.construct env now page).1).makeRequest env
        "/funds/calculate" {} outcome).2 = .ok summary →
      ((runOps env ops (FundManagerApp.construct env now page).1).calculatePortfolio env
          outcome).1.currentPortfolioSummary = summary ∨
        ((runOps env ops (FundManagerApp.construct env now page).1).calculatePortfolio env
          outcome).1.currentPortfolioSummary = FundManagerApp.emptySummary) ∧
    (∀ outcome error,
      ((runOps env ops (FundManagerApp.construct env now page).1).makeRequest env
        "/funds/calculate" {} outcome).2 = .error error →
      jsIncludes error.message "404" = true →
      ((runOps env ops (FundManagerApp.construct env now page).1).calculatePortfolio env
          outcome).1.currentPortfolioSummary = FundManagerApp.emptySummary) ∧
    (∀ fundCode fundName,
      (runOps env ops (FundManagerApp.construct env now page).1).showFundTrendModal env fundCode
          fundName
        = ({ runOps env ops (FundManagerApp.construct env now page).1 with
            currentPortfolioSummary :=
              lastDisplayed (runOps env ops (FundManagerApp.construct env now page).1).log
            }).showFundTrendModal env fundCode fundName) := by
  obtain ⟨h0, h1⟩ := slotSound_construct env now page hPage hBuilt
  have hs : slotSound (runOps env ops (FundManagerApp.construct env now page).1) :=
    slotSound_runOps env ops _ (by unfold slotSound; rw [h0, h1])
  generalize runOps env ops (FundManagerApp.construct env now page).1 = app at hs ⊢
  refine ⟨h0, hs, fun summary => (slotSound_displayPortfolioSummary env app summary).2,
    fun outcome summary hreq => ?_, fun outcome error hreq h404 => ?_, fun fundCode fundName => ?_⟩
  · unfold FundManagerApp.calculatePortfolio
    generalize app.makeRequest env "/funds/calculate" {} outcome = res at hreq ⊢
    rcases res with ⟨a, e | d⟩
    · cases hreq
    · simp only at hreq
      cases hreq
      simp only
      have hd := (slotSound_displayPortfolioSummary env
        { a with currentPortfolioSummary := summary } summary).2
      generalize FundManagerApp.displayPortfolioSummary env
        { a with currentPortfolioSummary := summary } summary = res at hd ⊢
      rcases res with ⟨b, _ | e⟩
      · exact Or.inl hd
      · simp only
        unfold FundManagerApp.calculatePortfolioCatch
        by_cases h404 : jsIncludes e.message "404" = true
        · simp only [h404, if_true]
          exact Or.inr (slotSound_displayPortfolioSummary env _ _).2
        · left
          simp only [h404, Bool.false_eq_true, if_false]
          by_cases hm : jsIncludes e.message "认证失败" = true
          · simpa [hm] using hd
          · simpa [hm, FundManagerApp.showMessage, FundManagerApp.emit] using hd
  · unfold FundManagerApp.calculatePortfolio
    generalize app.makeRequest env "/funds/calculate" {} outcome = res at hreq ⊢
    rcases res with ⟨a, e | d⟩
    · simp only at hreq
      cases hreq
      simp only [FundManagerApp.calculatePortfolioCatch, h404, if_true]
      exact (slotSound_displayPortfolioSummary env _ _).2
    · cases hreq
  · unfold slotSound at hs
    rw [← hs]

/-- C23 on a fresh session: after a recalculation answered with a
summary and a deletion, the slot holds the summary that was displayed. -/
theorem summary_slot_whole_witness :
    (runOps sampleEnv
      [Op.calculatePortfolio (.ok ⟨200, .ok (JsVal.obj [("fund_count", JsVal.null)])⟩),
        Op.deleteFund "7" true (.ok ⟨200, .ok JsVal.null⟩)]
      (FundManagerApp.construct sampleEnv 0 (sampleSession "tok")).1).currentPortfolioSummary
      = lastDisplayed (runOps sampleEnv
        [Op.calculatePortfolio (.ok ⟨200, .ok (JsVal.obj [("fund_count", JsVal.null)])⟩),
          Op.deleteFund "7" true (.ok ⟨200, .ok JsVal.null⟩)]
        (FundManagerApp.construct sampleEnv 0 (sampleSession "tok")).1).log :=
  (summary_slot_whole sampleEnv 0 (sampleSession "tok")
    [Op.calculatePortfolio (.ok ⟨200, .ok (JsVal.obj [("fund_count", JsVal.null)])⟩),
      Op.deleteFund "7" true (.ok ⟨200, .ok JsVal.null⟩)] rfl
    (by simp [FundManagerApp.construct, FundManagerApp.checkAuthStatus, sampleSession, sampleEnv,
      Storage.getItem, truthyStr, FundManagerApp.daysDiff])).2.1

/-! ## Binary64 arithmetic: comparison and sum -/

/-- The value of `fin neg m e` as a rational number. -/
theorem F64.scaled_spec (neg : Bool) (m : Nat) (e base : Int) (h : base ≤ e) :
    ((F64.scaled neg m e base : Int) : ℚ) * 2 ^ base
      = (if neg then -1 else 1) * ((m : ℚ) * 2 ^ e) := by
  have two_ne : (2 : ℚ) ≠ 0 := by norm_num
  have hk : ((e - base).toNat : Int) = e - base := Int.toNat_of_nonneg (by omega)
  have hpow : (2 : ℚ) ^ (e - base).toNat * 2 ^ base = 2 ^ e := by
    rw [← zpow_natCast, hk, ← zpow_add₀ two_ne]
    congr 1
    omega
  unfold F64.scaled
  cases neg
  · simp only [Bool.false_eq_true, if_false, one_mul]
    push_cast
    rw [mul_assoc, hpow]
  · simp only [if_true]
    push_cast
    rw [neg_one_mul, neg_one_mul, neg_mul, mul_assoc, hpow]

/-- The model of `>` on finite Numbers compares their values. -/
theorem F64.gt_spec (n1 n2 : Bool) (m1 m2 : Nat) (e1 e2 : Int) :
    F64.gt (F64.fin n1 m1 e1) (F64.fin n2 m2 e2) = true ↔
      (if n2 then -1 else 1) * ((m2 : ℚ) * 2 ^ e2) < (if n1 then -1 else 1) * ((m1 : ℚ) * 2 ^ e1) := by
  have hpos : (0 : ℚ) < 2 ^ (min e1 e2) := by positivity
  rw [← F64.scaled_spec n1 m1 e1 (min e1 e2) (min_le_left _ _),
    ← F64.scaled_spec n2 m2 e2 (min e1 e2) (min_le_right _ _)]
  rw [mul_lt_mul_right hpos]
  simp only [F64.gt, decide_eq_true_eq]
  exact Int.cast_lt.symm

/-- The model of `+` on finite Numbers rounds the exact sum; a sum of
zero is `-0` only for two negative zeros. -/
theorem F64.add_spec (n1 n2 : Bool) (m1 m2 : Nat) (e1 e2 : Int) :
    ((if n1 then -1 else 1) * ((m1 : ℚ) * 2 ^ e1) + (if n2 then -1 else 1) * ((m2 : ℚ) * 2 ^ e2) = 0 →
      F64.add (F64.fin n1 m1 e1) (F64.fin n2 m2 e2) = F64.fin (n1 && n2) 0 0) ∧
    ((if n1 then -1 else 1) * ((m1 : ℚ) * 2 ^ e1) + (if n2 then -1 else 1) * ((m2 : ℚ) * 2 ^ e2) ≠ 0 →
      ∃ num den : Nat, 0 < num ∧ 0 < den ∧
        (num : ℚ) / den = |(if n1 then -1 else 1) * ((m1 : ℚ) * 2 ^ e1) +
          (if n2 then -1 else 1) * ((m2 : ℚ) * 2 ^ e2)| ∧
        F64.add (F64.fin n1 m1 e1) (F64.fin n2 m2 e2)
          = F64.round (decide ((if n1 then -1 else 1) * ((m1 : ℚ) * 2 ^ e1) +
              (if n2 then -1 else 1) * ((m2 : ℚ) * 2 ^ e2) < 0)) num den) := by
  have two_ne : (2 : ℚ) ≠ 0 := by norm_num
  have hpos : (0 : ℚ) < 2 ^ (min e1 e2) := by positivity
  have h1 := F64.scaled_spec n1 m1 e1 (min e1 e2) (min_le_left _ _)
  have h2 := F64.scaled_spec n2 m2 e2 (min e1 e2) (min_le_right _ _)
  have hadd : F64.add (F64.fin n1 m1 e1) (F64.fin n2 m2 e2)
      = (if F64.scaled n1 m1 e1 (min e1 e2) + F64.scaled n2 m2 e2 (min e1 e2) = 0 then
          F64.fin (n1 && n2) 0 0
        else if 0 ≤ min e1 e2 then
          F64.round (decide (F64.scaled n1 m1 e1 (min e1 e2) + F64.scaled n2 m2 e2 (min e1 e2) < 0))
            ((F64.scaled n1 m1 e1 (min e1 e2) + F64.scaled n2 m2 e2 (min e1 e2)).natAbs *
              2 ^ (min e1 e2).toNat) 1
        else
          F64.round (decide (F64.scaled n1 m1 e1 (min e1 e2) + F64.scaled n2 m2 e2 (min e1 e2) < 0))
            (F64.scaled n1 m1 e1 (min e1 e2) + F64.scaled n2 m2 e2 (min e1 e2)).natAbs
            (2 ^ (-(min e1 e2)).toNat)) := rfl
  rw [← h1, ← h2, ← add_mul, hadd]
  have hsum : ((F64.scaled n1 m1 e1 (min e1 e2) : ℚ) + (F64.scaled n2 m2 e2 (min e1 e2) : ℚ))
      = ((F64.scaled n1 m1 e1 (min e1 e2) + F64.scaled n2 m2 e2 (min e1 e2) : Int) : ℚ) := by
    push_cast; rfl
  rw [hsum]
  generalize F64.scaled n1 m1 e1 (min e1 e2) + F64.scaled n2 m2 e2 (min e1 e2) = s
  generalize min e1 e2 = base at hpos
  constructor
  · intro h0
    have hs : s = 0 := by
      rcases mul_eq_zero.1 h0 with h | h
      · exact_mod_cast h
      · exact absurd h hpos.ne'
    simp [hs]
  · intro hne
    have hs : s ≠ 0 := by
      intro h
      apply hne
      rw [h]
      simp
    have habs : |((s : Int) : ℚ) * 2 ^ base| = ((s.natAbs : Nat) : ℚ) * 2 ^ base := by
      rw [abs_mul, abs_of_pos hpos, Nat.cast_natAbs, Int.cast_abs]
    have hneg : decide (((s : Int) : ℚ) * 2 ^ base < 0) = decide (s < 0) := by
      congr 1
      apply propext
      constructor
      · intro h
        have : ((s : Int) : ℚ) < 0 := by
          by_contra hc
          have := mul_nonneg (not_lt.1 hc) hpos.le
          linarith
        exact_mod_cast this
      · intro h
        have : ((s : Int) : ℚ) < 0 := by exact_mod_cast h
        exact mul_neg_of_neg_of_pos this hpos
    have hnat : 0 < s.natAbs := Int.natAbs_pos.2 hs
    rw [if_neg hs, habs, hneg]
    by_cases hb : 0 ≤ base
    · rw [if_pos hb]
      refine ⟨s.natAbs * 2 ^ base.toNat, 1, by positivity, by norm_num, ?_, rfl⟩
      have hk : ((base.toNat : Nat) : Int) = base := Int.toNat_of_nonneg hb
      push_cast
      rw [div_one, ← zpow_natCast, hk]
    · rw [if_neg hb]
      refine ⟨s.natAbs, 2 ^ (-base).toNat, hnat, by positivity, ?_, rfl⟩
      have hk : (((-base).toNat : Nat) : Int) = -base := Int.toNat_of_nonneg (by omega)
      push_cast
      rw [← zpow_natCast, hk, zpow_neg, div_eq_mul_inv, inv_inv]

/-! ## The rows of the table of funds (C21, C26) -/

theorem Except.bind_eq_ok_iff {ε α β : Type} (x : Except ε α) (f : α → Except ε β) (b : β) :
    x >>= f = .ok b ↔ ∃ a, x = .ok a ∧ f a = .ok b := by
  cases x with
  | error e => simp [bind, Except.bind]
  | ok a => simp [bind, Except.bind]

/-- What a row that renders consists of. -/
theorem FundManagerApp.fundRowCells_ok (env : Env) (fund : JsVal) (cells : RowCells)
    (h : FundManagerApp.fundRowCells env fund = .ok cells) :
    ∃ dash cost costPrice prior today todayRevenue totalRevenue ratio trend,
      FundManagerApp.includesDash env
        (FundManagerApp.orElse (fund.getProp "change_rate") (JsVal.str "0.00%")) = .ok dash ∧
      FundManagerApp.jsToFixed env
        (FundManagerApp.orElse (fund.getProp "cost") FundManagerApp.zero) 2 = .ok cost ∧
      FundManagerApp.jsToFixed env
        (FundManagerApp.orElse (fund.getProp "cost_price") FundManagerApp.zero) 4
          = .ok costPrice ∧
      FundManagerApp.jsToFixed env
        (FundManagerApp.orElse (fund.getProp "shangrijingzhi") FundManagerApp.zero) 4
          = .ok prior ∧
      FundManagerApp.jsToFixed env
        (FundManagerApp.orElse (fund.getProp "today_value") FundManagerApp.zero) 4 = .ok today ∧
      FundManagerApp.jsToFixed env
        (FundManagerApp.orElse (fund.getProp "today_revenue") FundManagerApp.zero) 2
          = .ok todayRevenue ∧
      FundManagerApp.jsToFixed env
        (FundManagerApp.orElse (fund.getProp "total_revenue") FundManagerApp.zero) 2
          = .ok totalRevenue ∧
      FundManagerApp.jsToFixed env
        (FundManagerApp.orElse (fund.getProp "profit_loss_ratio") FundManagerApp.zero) 2
          = .ok ratio ∧
      FundManagerApp.trendCell env fund = .ok trend ∧
      cells =
        { code := env.toStr (FundManagerApp.orElse (fund.getProp "fund_code") (JsVal.str "-"))
          name := env.toStr (FundManagerApp.orElse (fund.getProp "fund_name") (JsVal.str "-"))
          cost := cost
          costPrice := costPrice
          prior := prior
          today := today
          arrowClass :=
            if FundManagerApp.greaterThan env
                (FundManagerApp.orElse (fund.getProp "today_value") FundManagerApp.zero)
                (FundManagerApp.orElse (fund.getProp "shangrijingzhi") FundManagerApp.zero)
            then "profit-positive" else "profit-negative"
          arrowIcon :=
            if FundManagerApp.greaterThan env
                (FundManagerApp.orElse (fund.getProp "today_value") FundManagerApp.zero)
                (FundManagerApp.orElse (fund.getProp "shangrijingzhi") FundManagerApp.zero)
            then "↑" else "↓"
          changeRateClass := if dash then "profit-negative" else "profit-positive"
          changeRate := env.toStr
            (FundManagerApp.orElse (fund.getProp "change_rate") (JsVal.str "0.00%"))
          todayRevenueClass := FundManagerApp.signClass env
            (FundManagerApp.orElse (fund.getProp "today_revenue") FundManagerApp.zero)
          todayRevenue := todayRevenue
          totalRevenueClass := FundManagerApp.signClass env
            (FundManagerApp.orElse (fund.getProp "total_revenue") FundManagerApp.zero)
          totalRevenue := totalRevenue
          ratioClass := FundManagerApp.signClass env
            (FundManagerApp.orElse (fund.getProp "profit_loss_ratio") FundManagerApp.zero)
          ratio := ratio
          trend := trend } := by
  unfold FundManagerApp.fundRowCells at h
  split at h
  · cases h
  · cases h
  · simp only [Except.bind_eq_ok_iff] at h
    obtain ⟨dash, h1, cost, h2, costPrice, h3, prior, h4, today, h5, todayRevenue, h6,
      totalRevenue, h7, ratio, h8, trend, h9, h10⟩ := h
    refine ⟨dash, cost, costPrice, prior, today, todayRevenue, totalRevenue, ratio, trend,
      h1, h2, h3, h4, h5, h6, h7, h8, h9, ?_⟩
    cases h10
    rfl

theorem FundManagerApp.toFixed_zero (env : Env) :
    FundManagerApp.jsToFixed env FundManagerApp.zero 2 = .ok "0.00" ∧
    FundManagerApp.jsToFixed env FundManagerApp.zero 4 = .ok "0.0000" := by
  constructor <;> rfl

/-- `(v || 0).toFixed(digits)` is defined for a Number and for a missing
field, where it prints the zero. -/
theorem FundManagerApp.jsToFixed_orElse (env : Env) (v : JsVal) (digits : Nat)
    (h : isNumberOrMissing v = true) :
    ∃ text, FundManagerApp.jsToFixed env (FundManagerApp.orElse v FundManagerApp.zero) digits
        = .ok text ∧
      (v = JsVal.undefined →
        FundManagerApp.jsToFixed env FundManagerApp.zero digits = .ok text) := by
  cases v <;> simp only [isNumberOrMissing, Bool.false_eq_true] at h
  · exact ⟨_, rfl, fun _ => rfl⟩
  · next x =>
    unfold FundManagerApp.orElse
    by_cases ht : (JsVal.num x).truthy = true
    · rw [if_pos ht]
      exact ⟨_, rfl, fun hx => by cases hx⟩
    · rw [if_neg ht]
      exact ⟨_, rfl, fun hx => by cases hx⟩

theorem FundManagerApp.includesDash_orElse (env : Env) (v : JsVal)
    (h : isTextOrMissing v = true) :
    ∃ dash, FundManagerApp.includesDash env (FundManagerApp.orElse v (JsVal.str "0.00%"))
      = .ok dash := by
  cases v <;> simp only [isTextOrMissing, Bool.false_eq_true] at h
  · exact ⟨_, rfl⟩
  · next s =>
    unfold FundManagerApp.orElse
    by_cases ht : (JsVal.str s).truthy = true
    · rw [if_pos ht]; exact ⟨_, rfl⟩
    · rw [if_neg ht]; exact ⟨_, rfl⟩

theorem FundManagerApp.toStr_orElse_missing (env : Env) (d : String) :
    env.toStr (FundManagerApp.orElse JsVal.undefined (JsVal.str d)) = d := rfl

/-- A well-formed entry renders, unless it has trend data and no name;
what is missing shows as the dash or the formatted zero. -/
theorem FundManagerApp.fundRowCells_wellFormed (env : Env) (fund : JsVal)
    (hForm : entryWellFormed fund = true)
    (hName : FundManagerApp.hasTrendData env fund = true →
      ∃ name, fund.getProp "fund_name" = JsVal.str name) :
    ∃ cells, FundManagerApp.fundRowCells env fund = .ok cells ∧ defaultsShown fund cells := by
  cases fund <;> simp only [entryWellFormed, Bool.false_eq_true] at hForm
  next fields =>
  simp only [Bool.and_eq_true] at hForm
  obtain ⟨⟨⟨⟨⟨⟨⟨⟨⟨⟨hCode, hNm⟩, hCost⟩, hCostPrice⟩, hPrior⟩, hToday⟩, hRate⟩, hTodayRev⟩,
    hTotalRev⟩, hRatio⟩, hRecent⟩ := hForm
  obtain ⟨dash, hdash⟩ := FundManagerApp.includesDash_orElse env _ hRate
  obtain ⟨cost, hcost, hcost0⟩ := FundManagerApp.jsToFixed_orElse env _ 2 hCost
  obtain ⟨costPrice, hcostPrice, hcostPrice0⟩ := FundManagerApp.jsToFixed_orElse env _ 4 hCostPrice
  obtain ⟨prior, hprior, hprior0⟩ := FundManagerApp.jsToFixed_orElse env _ 4 hPrior
  obtain ⟨today, htoday, htoday0⟩ := FundManagerApp.jsToFixed_orElse env _ 4 hToday
  obtain ⟨todayRev, htodayRev, htodayRev0⟩ := FundManagerApp.jsToFixed_orElse env _ 2 hTodayRev
  obtain ⟨totalRev, htotalRev, htotalRev0⟩ := FundManagerApp.jsToFixed_orElse env _ 2 hTotalRev
  obtain ⟨ratio, hratio, hratio0⟩ := FundManagerApp.jsToFixed_orElse env _ 2 hRatio
  have htrend : ∃ trend, FundManagerApp.trendCell env (JsVal.obj fields) = .ok trend ∧
      ((JsVal.obj fields).getProp "recent_changes" = JsVal.undefined →
        trend = FundManagerApp.noTrendHTML) := by
    unfold FundManagerApp.trendCell
    by_cases ht : FundManagerApp.hasTrendData env (JsVal.obj fields) = true
    · obtain ⟨name, hname⟩ := hName ht
      rw [if_pos ht, hname]
      refine ⟨_, rfl, fun hmiss => ?_⟩
      unfold FundManagerApp.hasTrendData at ht
      rw [hmiss] at ht
      simp [JsVal.truthy] at ht
    · rw [if_neg ht]
      exact ⟨_, rfl, fun _ => rfl⟩
  obtain ⟨trend, htrend, htrend0⟩ := htrend
  have z := FundManagerApp.toFixed_zero env
  unfold FundManagerApp.fundRowCells
  simp only [hdash, hcost, hcostPrice, hprior, htoday, htodayRev, htotalRev, hratio, htrend,
    bind, Except.bind, pure, Except.pure]
  refine ⟨_, rfl, ?_⟩
  · simp only [defaultsShown]
    refine ⟨fun h => by rw [h]; rfl, fun h => by rw [h]; rfl, fun h => ?_, fun h => ?_,
      fun h => ?_, fun h => ?_, fun h => by rw [h]; rfl, fun h => ?_, fun h => ?_, fun h => ?_,
      fun h => htrend0 h⟩
    · exact Except.ok.inj ((hcost0 h).symm.trans z.1)
    · exact Except.ok.inj ((hcostPrice0 h).symm.trans z.2)
    · exact Except.ok.inj ((hprior0 h).symm.trans z.2)
    · exact Except.ok.inj ((htoday0 h).symm.trans z.2)
    · exact Except.ok.inj ((htodayRev0 h).symm.trans z.1)
    · exact Except.ok.inj ((htotalRev0 h).symm.trans z.1)
    · exact Except.ok.inj ((hratio0 h).symm.trans z.1)

theorem FundManagerApp.orElse_number (v : JsVal) (h : isNumberOrMissing v = true) :
    ∃ x, FundManagerApp.orElse v FundManagerApp.zero = JsVal.num x := by
  cases v <;> simp only [isNumberOrMissing, Bool.false_eq_true] at h
  · exact ⟨_, rfl⟩
  · next x =>
    unfold FundManagerApp.orElse
    by_cases ht : (JsVal.num x).truthy = true
    · rw [if_pos ht]; exact ⟨x, rfl⟩
    · rw [if_neg ht]; exact ⟨_, rfl⟩

theorem FundManagerApp.orElse_list (v : JsVal) (h : isListOrMissing v = true) :
    ∃ items, FundManagerApp.orElse v (JsVal.arr []) = JsVal.arr items := by
  cases v <;> simp only [isListOrMissing, Bool.false_eq_true] at h
  · exact ⟨_, rfl⟩
  · next items => exact ⟨items, rfl⟩

theorem entryWellFormed_obj (fund : JsVal) (h : entryWellFormed fund = true) :
    ∃ fields, fund = JsVal.obj fields := by
  cases fund <;> simp only [entryWellFormed, Bool.false_eq_true] at h
  exact ⟨_, rfl⟩

theorem entryWellFormed_total (fund : JsVal) (h : entryWellFormed fund = true) :
    isNumberOrMissing (fund.getProp "total_revenue") = true := by
  cases fund <;> simp only [entryWellFormed, Bool.false_eq_true] at h
  simp only [Bool.and_eq_true] at h
  exact h.1.1.2

/-- The sum of the total revenues of well-formed entries is a Number. -/
theorem FundManagerApp.sumTotalRevenue_number (env : Env) (entries : List JsVal)
    (h : ∀ fund ∈ entries, entryWellFormed fund = true) (x : F64) :
    ∃ y, FundManagerApp.sumTotalRevenue env (JsVal.num x) entries = .ok (JsVal.num y) := by
  induction entries generalizing x with
  | nil => exact ⟨x, rfl⟩
  | cons fund rest ih =>
    obtain ⟨fields, rfl⟩ := entryWellFormed_obj fund (h fund (List.mem_cons_self _ _))
    obtain ⟨t, ht⟩ := FundManagerApp.orElse_number _
      (entryWellFormed_total _ (h _ (List.mem_cons_self _ _)))
    have hstep : FundManagerApp.sumTotalRevenue env (JsVal.num x) (JsVal.obj fields :: rest)
        = FundManagerApp.sumTotalRevenue env
            (FundManagerApp.plus env (JsVal.num x)
              (FundManagerApp.orElse ((JsVal.obj fields).getProp "total_revenue")
                FundManagerApp.zero)) rest := rfl
    rw [hstep, ht]
    exact ih (fun f hf => h f (List.mem_cons_of_mem _ hf)) _

theorem FundManagerApp.totalRevenue_number (env : Env) (entries : List JsVal)
    (h : ∀ fund ∈ entries, entryWellFormed fund = true) :
    ∃ y, FundManagerApp.totalRevenue env (JsVal.arr entries) = .ok (JsVal.num y) := by
  unfold FundManagerApp.totalRevenue
  split
  · exact FundManagerApp.sumTotalRevenue_number env entries h _
  · exact ⟨_, rfl⟩

/-- The rows of well-formed entries render, each with its defaults. -/
theorem FundManagerApp.fundRows_wellFormed (env : Env) (entries : List JsVal)
    (h : ∀ fund ∈ entries, entryWellFormed fund = true ∧
      (FundManagerApp.hasTrendData env fund = true →
        ∃ name, fund.getProp "fund_name" = JsVal.str name)) :
    ∃ rows, FundManagerApp.fundRows env entries = .ok rows := by
  induction entries with
  | nil => exact ⟨[], rfl⟩
  | cons fund rest ih =>
    obtain ⟨cells, hc, _⟩ := FundManagerApp.fundRowCells_wellFormed env fund
      (h fund (List.mem_cons_self _ _)).1 (h fund (List.mem_cons_self _ _)).2
    obtain ⟨rows, hr⟩ := ih (fun f hf => h f (List.mem_cons_of_mem _ hf))
    exact ⟨FundManagerApp.rowHTML cells :: rows, by simp only [FundManagerApp.fundRows, hc, hr]⟩

theorem FundManagerApp.valuationHTML_lists (env : Env) (low high : List JsVal) :
    ∃ html, FundManagerApp.valuationHTML env (JsVal.arr low) (JsVal.arr high) = .ok html := by
  unfold FundManagerApp.valuationHTML
  split
  · simp only [FundManagerApp.fundCodeTags, Except.map, bind, Except.bind, pure, Except.pure]
    split <;> split <;> exact ⟨_, rfl⟩
  · exact ⟨_, rfl⟩

theorem FundManagerApp.detailsHTML_wellFormed (env : Env) (fundCount : JsVal)
    (entries : List JsVal)
    (h : ∀ fund ∈ entries, entryWellFormed fund = true ∧
      (FundManagerApp.hasTrendData env fund = true →
        ∃ name, fund.getProp "fund_name" = JsVal.str name)) :
    ∃ html, FundManagerApp.detailsHTML env fundCount (JsVal.arr entries) = .ok html := by
  obtain ⟨rows, hr⟩ := FundManagerApp.fundRows_wellFormed env entries h
  unfold FundManagerApp.detailsHTML
  split
  · simp only [hr]
    exact ⟨_, rfl⟩
  · exact ⟨_, rfl⟩

/-- C21, for entries that have a name whenever they have trend data.
Let the summary be an object whose `total_cost` and `today_revenue` are
Numbers or missing, whose two fund lists are arrays or missing, and whose
`fund_details` is an array of entries, each an object with fields of the
backend's types of which any may be missing.  If every entry that has
trend data (a non-empty `recent_changes`) has a `fund_name`, then
`displayPortfolioSummary` completes without an exception and writes the
markup into the container, and in the row of each entry a missing code or
name shows as `-`, a missing amount as the formatted zero (`0.00`,
`0.0000`), a missing change rate as `0.00%`. -/
theorem displayPortfolioSummary_defaults (env : Env) (app : FundManagerApp)
    (fields : List (String × JsVal)) (entries : List JsVal) (old : String)
    (hContainer : app.portfolioContainer = some old)
    (hDetails : (JsVal.obj fields).getProp "fund_details" = JsVal.arr entries)
    (hCost : isNumberOrMissing ((JsVal.obj fields).getProp "total_cost") = true)
    (hToday : isNumberOrMissing ((JsVal.obj fields).getProp "today_revenue") = true)
    (hLow : isListOrMissing ((JsVal.obj fields).getProp "low_fund_list") = true)
    (hHigh : isListOrMissing ((JsVal.obj fields).getProp "high_fund_list") = true)
    (hEntries : ∀ fund ∈ entries, entryWellFormed fund = true)
    (hNames : ∀ fund ∈ entries, FundManagerApp.hasTrendData env fund = true →
      ∃ name, fund.getProp "fund_name" = JsVal.str name) :
    (app.displayPortfolioSummary env (JsVal.obj fields)).2 = none ∧
    (∃ html, FundManagerApp.portfolioSummaryHTML env (JsVal.obj fields) = .ok html ∧
      (app.displayPortfolioSummary env (JsVal.obj fields)).1.portfolioContainer = some html) ∧
    (∃ rows, FundManagerApp.fundRows env entries = .ok rows) ∧
    (∀ fund ∈ entries, ∃ cells,
      FundManagerApp.fundRowCells env fund = .ok cells ∧ defaultsShown fund cells) := by
  have hBoth : ∀ fund ∈ entries, entryWellFormed fund = true ∧
      (FundManagerApp.hasTrendData env fund = true →
        ∃ name, fund.getProp "fund_name" = JsVal.str name) :=
    fun fund hf => ⟨hEntries fund hf, hNames fund hf⟩
  obtain ⟨total, htotal⟩ := FundManagerApp.totalRevenue_number env entries hEntries
  obtain ⟨cost, hcost⟩ := FundManagerApp.orElse_number _ hCost
  obtain ⟨today, htoday⟩ := FundManagerApp.orElse_number _ hToday
  obtain ⟨low, hlow⟩ := FundManagerApp.orElse_list _ hLow
  obtain ⟨high, hhigh⟩ := FundManagerApp.orElse_list _ hHigh
  obtain ⟨valuation, hval⟩ := FundManagerApp.valuationHTML_lists env low high
  obtain ⟨details, hdet⟩ := FundManagerApp.detailsHTML_wellFormed env
    (FundManagerApp.orElse ((JsVal.obj fields).getProp "fund_count") FundManagerApp.zero)
    entries hBoth
  have hd : FundManagerApp.orElse (JsVal.arr entries) (JsVal.arr []) = JsVal.arr entries := rfl
  have htd : FundManagerApp.todayRevenue (JsVal.obj fields) = JsVal.num today := htoday
  have hhtml : ∃ html, FundManagerApp.portfolioSummaryHTML env (JsVal.obj fields) = .ok html := by
    unfold FundManagerApp.portfolioSummaryHTML
    simp only [hDetails, htotal, hcost, htd, hlow, hhigh, hd, hval, hdet,
      FundManagerApp.jsToFixed, bind, Except.bind, pure, Except.pure]
    exact ⟨_, rfl⟩
  obtain ⟨html, hhtml⟩ := hhtml
  refine ⟨?_, ⟨html, hhtml, ?_⟩, FundManagerApp.fundRows_wellFormed env entries hBoth,
    fun fund hf => FundManagerApp.fundRowCells_wellFormed env fund (hEntries fund hf)
      (hNames fund hf)⟩
  · simp [FundManagerApp.displayPortfolioSummary, FundManagerApp.emit, hContainer, hhtml]
  · simp [FundManagerApp.displayPortfolioSummary, FundManagerApp.emit, hContainer, hhtml]

/-- C21 on a summary whose one entry has no field at all. -/
theorem displayPortfolioSummary_defaults_witness :
    (sampleSummaryPage.displayPortfolioSummary sampleEnv
      (JsVal.obj [("fund_details", JsVal.arr [sampleBareEntry])])).2 = none ∧
    ∃ cells, FundManagerApp.fundRowCells sampleEnv sampleBareEntry = .ok cells ∧
      defaultsShown sampleBareEntry cells :=
  have h := displayPortfolioSummary_defaults sampleEnv sampleSummaryPage
    [("fund_details", JsVal.arr [sampleBareEntry])] [sampleBareEntry] "" rfl rfl rfl rfl rfl rfl
    (fun fund hf => by rw [List.mem_singleton.1 hf]; rfl)
    (fun fund hf ht => by
      rw [List.mem_singleton.1 hf] at ht
      exact absurd ht (by decide))
  ⟨h.1, h.2.2.2 sampleBareEntry (List.mem_singleton.2 rfl)⟩

/-- C21 as stated fails for an entry that has trend data and lacks
`fund_name`: the trend button reads `fund.fund_name.replace` and throws a
`TypeError`; `displayPortfolioSummary` ends with that exception and the
container keeps what it held. -/
theorem displayPortfolioSummary_nameless_entry_throws :
    FundManagerApp.trendCell sampleEnv sampleNamelessEntry
      = .error sampleEnv.nullPropertyError ∧
    (sampleSummaryPage.displayPortfolioSummary sampleEnv
      (JsVal.obj [("fund_details", JsVal.arr [sampleNamelessEntry])])).2
      = some sampleEnv.nullPropertyError ∧
    (sampleSummaryPage.displayPortfolioSummary sampleEnv
      (JsVal.obj [("fund_details", JsVal.arr [sampleNamelessEntry])])).1.portfolioContainer
      = some "" := by
  refine ⟨rfl, ?_, ?_⟩ <;> rfl

/-- C26.  In every row that `displayPortfolioSummary` renders, the arrow
and its colour class are chosen by `todayValue > shangrijingzhi` alone,
where `todayValue` is `today_value`, or 0 when that is missing, and
`shangrijingzhi` likewise: the up arrow with `profit-positive` when the
comparison holds, the down arrow with `profit-negative` otherwise.  For
two Numbers the comparison holds exactly when the first value is strictly
greater, so equal values give the down arrow.  Two entries that agree on
`today_value` and `shangrijingzhi` get the same arrow, whatever their
`cost_price`. -/
theorem fundRow_arrow (env : Env) (fund : JsVal) (cells : FundManagerApp.RowCells)
    (hRow : FundManagerApp.fundRowCells env fund = .ok cells) :
    (cells.arrowIcon, cells.arrowClass)
      = (if FundManagerApp.greaterThan env
            (FundManagerApp.orElse (fund.getProp "today_value") FundManagerApp.zero)
            (FundManagerApp.orElse (fund.getProp "shangrijingzhi") FundManagerApp.zero)
          then ("↑", "profit-positive") else ("↓", "profit-negative")) ∧
    (∀ n1 m1 e1 n2 m2 e2,
      FundManagerApp.orElse (fund.getProp "today_value") FundManagerApp.zero
        = JsVal.num (F64.fin n1 m1 e1) →
      FundManagerApp.orElse (fund.getProp "shangrijingzhi") FundManagerApp.zero
        = JsVal.num (F64.fin n2 m2 e2) →
      ((cells.arrowIcon, cells.arrowClass) = ("↑", "profit-positive") ↔
        (if n2 then -1 else 1) * ((m2 : ℚ) * 2 ^ e2)
          < (if n1 then -1 else 1) * ((m1 : ℚ) * 2 ^ e1)) ∧
      ((cells.arrowIcon, cells.arrowClass) = ("↓", "profit-negative") ↔
        ¬ (if n2 then -1 else 1) * ((m2 : ℚ) * 2 ^ e2)
          < (if n1 then -1 else 1) * ((m1 : ℚ) * 2 ^ e1))) ∧
    (∀ other otherCells,
      other.getProp "today_value" = fund.getProp "today_value" →
      other.getProp "shangrijingzhi" = fund.getProp "shangrijingzhi" →
      FundManagerApp.fundRowCells env other = .ok otherCells →
      (otherCells.arrowIcon, otherCells.arrowClass) = (cells.arrowIcon, cells.arrowClass)) := by
  have key : ∀ (f : JsVal) (c : FundManagerApp.RowCells),
      FundManagerApp.fundRowCells env f = .ok c →
      (c.arrowIcon, c.arrowClass)
        = (if FundManagerApp.greaterThan env
              (FundManagerApp.orElse (f.getProp "today_value") FundManagerApp.zero)
              (FundManagerApp.orElse (f.getProp "shangrijingzhi") FundManagerApp.zero)
            then ("↑", "profit-positive") else ("↓", "profit-negative")) := by
    intro f c h
    obtain ⟨_, _, _, _, _, _, _, _, _, _, _, _, _, _, _, _, _, _, hc⟩ :=
      FundManagerApp.fundRowCells_ok env f c h
    rw [hc]
    simp only
    split <;> rfl
  refine ⟨key fund cells hRow, fun n1 m1 e1 n2 m2 e2 hT hP => ?_,
    fun other otherCells hT hP hOther => ?_⟩
  · rw [key fund cells hRow, hT, hP]
    have hg : FundManagerApp.greaterThan env (JsVal.num (F64.fin n1 m1 e1))
        (JsVal.num (F64.fin n2 m2 e2)) = F64.gt (F64.fin n1 m1 e1) (F64.fin n2 m2 e2) := rfl
    rw [hg, ← F64.gt_spec]
    cases F64.gt (F64.fin n1 m1 e1) (F64.fin n2 m2 e2) <;> simp
  · rw [key other otherCells hOther, key fund cells hRow, hT, hP]

/-- C26 on an entry valued at 1.5 today after 1 the day before: the up
arrow, although the value is below the cost price 2. -/
theorem fundRow_arrow_witness :
    ∃ cells, FundManagerApp.fundRowCells sampleEnv sampleRisingEntry = .ok cells ∧
      (cells.arrowIcon, cells.arrowClass) = ("↑", "profit-positive") := by
  obtain ⟨cells, hRow, _⟩ := FundManagerApp.fundRowCells_wellFormed sampleEnv sampleRisingEntry
    rfl (fun ht => absurd ht (by decide))
  exact ⟨cells, hRow, (fundRow_arrow sampleEnv sampleRisingEntry cells hRow).1.trans
    (by decide)⟩

/-! ## Remembered credentials (C27) -/

/-- The keys that make up the session. -/
theorem Storage.getItem_cleared (s : Storage) (k : String) (h1 : k ≠ "authToken")
    (h2 : k ≠ "currentUser") (h3 : k ≠ "last_login") :
    (((s.removeItem "authToken").removeItem "currentUser").removeItem "last_login").getItem k
      = s.getItem k := by
  rw [Storage.getItem_removeItem_of_ne _ h3, Storage.getItem_removeItem_of_ne _ h2,
    Storage.getItem_removeItem_of_ne _ h1]

theorem FundManagerApp.checkAuthStatus_storage (env : Env) (now : Int) (app : FundManagerApp) :
    (app.checkAuthStatus env now).1.storage = app.storage ∨
    (app.checkAuthStatus env now).1.storage
      = ((app.storage.removeItem "authToken").removeItem "currentUser").removeItem
          "last_login" := by
  unfold FundManagerApp.checkAuthStatus
  simp only
  split
  · split
    · split
      · exact Or.inl rfl
      · exact Or.inl rfl
    · exact Or.inr rfl
  · exact Or.inl rfl

theorem LoginManager.checkAutoLogin_storage (env : Env) (now : Int) (lm : LoginManager) :
    (lm.checkAutoLogin env now).storage = lm.storage ∨
    (lm.checkAutoLogin env now).storage
      = ((lm.storage.removeItem "authToken").removeItem "currentUser").removeItem
          "last_login" := by
  unfold LoginManager.checkAutoLogin
  simp only
  split
  · split
    · exact Or.inl rfl
    · exact Or.inr rfl
  · exact Or.inl rfl

/-- A clearing of the session leaves the store as it was or removes the
three keys of the session. -/
theorem SessionClearing.run_storage (env : Env) (clearing : SessionClearing) (s : Storage) :
    clearing.run env s = s ∨
    clearing.run env s
      = ((s.removeItem "authToken").removeItem "currentUser").removeItem "last_login" := by
  cases clearing with
  | logout => exact Or.inr rfl
  | clearAuth => exact Or.inr rfl
  | checkAuthStatus now => exact FundManagerApp.checkAuthStatus_storage env now { storage := s }
  | unauthorized url options body =>
    right
    show (FundManagerApp.makeRequest env { storage := s } url options (.ok ⟨401, body⟩)).1.storage
      = _
    rw [FundManagerApp.makeRequest_unauthorized_eq]
    rfl
  | checkAutoLogin now => exact LoginManager.checkAutoLogin_storage env now { storage := s }
  | loginClearAuth => exact Or.inr rfl

/-- No sequence of clearings touches a key outside the session. -/
theorem clearSessions_getItem (env : Env) (clearings : List SessionClearing) (s : Storage)
    (k : String) (h1 : k ≠ "authToken") (h2 : k ≠ "currentUser") (h3 : k ≠ "last_login") :
    (clearSessions env clearings s).getItem k = s.getItem k := by
  induction clearings generalizing s with
  | nil => rfl
  | cons clearing rest ih =>
    show (clearSessions env rest (clearing.run env s)).getItem k = s.getItem k
    rw [ih]
    rcases SessionClearing.run_storage env clearing s with h | h
    · rw [h]
    · rw [h, Storage.getItem_cleared s k h1 h2 h3]

/-- What `loadSavedCredentials` fills in from a stored object. -/
theorem LoginManager.loadSavedCredentials_of_stored (env : Env) (page : LoginManager)
    (text : String) (fields : List (String × JsVal))
    (hSaved : page.storage.getItem "saved_credentials" = some text) (hText : text ≠ "")
    (hRemember : page.storage.getItem "remember_me" = some "true")
    (hJson : env.jsonParse text = .ok (JsVal.obj fields)) :
    page.loadSavedCredentials env
      = { page with
          usernameInput := page.usernameInput.map
            (fun _ => LoginManager.savedField env (JsVal.obj fields) "username")
          passwordInput := page.passwordInput.map
            (fun _ => LoginManager.savedField env (JsVal.obj fields) "password")
          rememberMeCheckbox := page.rememberMeCheckbox.map (fun _ => true) } := by
  unfold LoginManager.loadSavedCredentials
  have ht : truthyStr (some text) = true := by simpa [truthyStr] using hText
  simp only [hSaved, hRemember, ht, decide_True, Bool.and_self, if_true, Option.getD_some, hJson]

/-- C27.  Let a login succeed (a 2xx answer with a JSON body other than
`null`) with the entered username `u`, non-empty after trimming, and the
non-empty password `p`, and let `JSON.parse` read back what
`JSON.stringify` wrote for the credentials, a non-empty text.  After any
sequence of clearings of the session (`logout`, `clearAuth`, the gate of
either page, a request answered with 401), a login page with that store
runs `loadSavedCredentials`: if remember-me was checked at the login, the
username field then holds `trim(u)`, the password field `p`, and the
remember-me box is checked; if it was not checked, nothing is filled in.
No clearing changes `saved_credentials` or `remember_me`, in any store. -/
theorem remembered_credentials_survive (env : Env) (now : Int) (lm page : LoginManager)
    (usernameValue password : String) (response : Response) (data : JsVal)
    (clearings : List SessionClearing)
    (hUser : lm.usernameInput = some usernameValue) (hPass : lm.passwordInput = some password)
    (hName : jsTrim usernameValue ≠ "") (hWord : password ≠ "")
    (hOk : response.ok = true) (hBody : response.body = .ok data)
    (hNull : data ≠ JsVal.null) (hUndef : data ≠ JsVal.undefined)
    (hJson : env.jsonParse (env.jsonStringify (JsVal.obj
        [("username", JsVal.str (jsTrim usernameValue)), ("password", JsVal.str password)]))
      = .ok (JsVal.obj
        [("username", JsVal.str (jsTrim usernameValue)), ("password", JsVal.str password)]))
    (hText : env.jsonStringify (JsVal.obj
        [("username", JsVal.str (jsTrim usernameValue)), ("password", JsVal.str password)]) ≠ "")
    (hStore : page.storage
      = clearSessions env clearings (lm.handleLogin env now (.ok response)).storage) :
    (lm.rememberMeCheckbox = some true →
      page.loadSavedCredentials env
        = { page with
            usernameInput := page.usernameInput.map (fun _ => jsTrim usernameValue)
            passwordInput := page.passwordInput.map (fun _ => password)
            rememberMeCheckbox := page.rememberMeCheckbox.map (fun _ => true) }) ∧
    (lm.rememberMeCheckbox ≠ some true → page.loadSavedCredentials env = page) ∧
    (∀ store : Storage,
      (clearSessions env clearings store).getItem "saved_credentials"
        = store.getItem "saved_credentials" ∧
      (clearSessions env clearings store).getItem "remember_me"
        = store.getItem "remember_me") := by
  have hLogin := LoginManager.handleLogin_success_eq env now lm usernameValue password response
    data hUser hPass hName hWord hOk hBody hNull hUndef
  have hSavedKey : page.storage.getItem "saved_credentials"
      = (lm.handleLogin env now (.ok response)).storage.getItem "saved_credentials" := by
    rw [hStore]
    exact clearSessions_getItem env clearings _ _ (by decide) (by decide) (by decide)
  have hRememberKey : page.storage.getItem "remember_me"
      = (lm.handleLogin env now (.ok response)).storage.getItem "remember_me" := by
    rw [hStore]
    exact clearSessions_getItem env clearings _ _ (by decide) (by decide) (by decide)
  rw [hLogin] at hSavedKey hRememberKey
  refine ⟨fun hChecked => ?_, fun hUnchecked => ?_, fun store =>
    ⟨clearSessions_getItem env clearings _ _ (by decide) (by decide) (by decide),
      clearSessions_getItem env clearings _ _ (by decide) (by decide) (by decide)⟩⟩
  · simp only [hChecked, LoginManager.persistLogin, if_true] at hSavedKey hRememberKey
    rw [Storage.getItem_setItem_of_ne _ _ (by decide), Storage.getItem_setItem_self]
      at hSavedKey
    rw [Storage.getItem_setItem_self] at hRememberKey
    rw [LoginManager.loadSavedCredentials_of_stored env page _ _ hSavedKey hText hRememberKey
      hJson]
    have hu : LoginManager.savedField env (JsVal.obj
        [("username", JsVal.str (jsTrim usernameValue)), ("password", JsVal.str password)])
        "username" = jsTrim usernameValue := by
      simp [LoginManager.savedField, JsVal.getProp, JsVal.lookupField, JsVal.truthy, Env.toStr,
        hName]
    have hp : LoginManager.savedField env (JsVal.obj
        [("username", JsVal.str (jsTrim usernameValue)), ("password", JsVal.str password)])
        "password" = password := by
      simp [LoginManager.savedField, JsVal.getProp, JsVal.lookupField, JsVal.truthy, Env.toStr,
        hWord]
    rw [hu, hp]
  · have hfalse : (match lm.rememberMeCheckbox with
        | some checked => checked
        | none => false) = false := by
      rcases h : lm.rememberMeCheckbox with _ | b
      · rfl
      · cases b
        · rfl
        · exact absurd h hUnchecked
    simp only [hfalse, LoginManager.persistLogin, Bool.false_eq_true, if_false] at hRememberKey
    rw [Storage.getItem_setItem_self] at hRememberKey
    unfold LoginManager.loadSavedCredentials
    simp [hRememberKey]

/-- C27 on a login of `amy` with remember-me checked, then a logout and
an expired session: the form is filled in again. -/
theorem remembered_credentials_survive_witness :
    (sampleReturn true).loadSavedCredentials sampleRememberEnv
      = { sampleReturn true with
          usernameInput := some "amy", passwordInput := some "pw",
          rememberMeCheckbox := some true } :=
  (remembered_credentials_survive sampleRememberEnv 0 (sampleLogin true) (sampleReturn true)
    " amy " "pw" ⟨200, .ok (JsVal.obj [("access_token", JsVal.str "new")])⟩
    (JsVal.obj [("access_token", JsVal.str "new")])
    [SessionClearing.logout, SessionClearing.checkAutoLogin 0, SessionClearing.loginClearAuth]
    rfl rfl (by decide) (by decide) rfl rfl (by simp) (by simp) (by rfl) (by decide)
    rfl).1 rfl

end JJBond
